import Mathlib

/-!
# go-ghantt: the timeline layout engine and its three renderers

A shallow embedding of `renderer.go` and of the layout part of `export.go`: the
quarter calculator (`calculateQuarters`, `findQuarterIndex`), the text wrapper
(`wrapText`), the dynamic height map (`calculateDynamicHeights`), the Markup
renderer (`GenerateSVG` and the `write…` methods), the canvas and the bar of
the Raster renderer, the bar of the Document renderer and `parseColor`,
followed by the theorems that relate them to the specification.

Modelling conventions.
* Go `int` is the 64-bit signed integer.  Its values are the integers in
  `minInt .. maxInt` (`isInt`), and the increments `year++` and `q++` of
  `calculateQuarters`, the only arithmetic that is applied to values read from
  the input, wrap around at `maxInt` (`wrapInt`).  The remaining arithmetic is
  layout arithmetic on the lengths of lists held in memory (numbers of columns,
  of lines and of rows) and on the layout constants; it stays within the `int`
  range for every chart that fits in memory and is written over `Int` without
  wrap-around.
* A call that does not return is modelled by `none`: `calculateQuarters`
  returns an `Option`, and so do `GenerateSVG` and the locals of `GenerateSVG`
  and `GeneratePNG` that are computed from the axis.
* A Go `string` is modelled by the list of its Unicode code points
  (`List Char`); `len` is the length in bytes of its UTF-8 encoding, as in Go.
* A Go `for` loop is a structurally recursive function.  The two loops of
  `calculateQuarters` carry a fuel argument, a bound on the number of loop
  tests, and yield `none` when the fuel runs out.  The callers pass the number
  of iterations a loop makes when it exits, plus one; the lemmas
  `quarterLoop_adequate` and `calculateQuarters_adequate` show that a loop
  which does not exit within this fuel exits within no fuel at all, so `none`
  always stands for a loop that runs forever and never for a loop cut short.
* A Go `map[string]int` is a function `GoString → Option Int`, `none` for an
  absent key.
* `strings.Fields`, `strings.Join`, `strings.ReplaceAll`, `strings.TrimPrefix`,
  `strconv.ParseUint`, `image.Rect` and the `%d` verb belong to the Go standard
  library; they are modelled after their documentation.
* The output buffer of the Markup renderer only grows: each `write…` method is
  modelled by the text it appends, together with the cursor it returns.  The
  Raster methods are modelled by the drawing calls they issue, the Document
  bar routine by the fill color and rectangle it draws.
-/

namespace Ghantt

/-! ## Definitions -/

/-- The struct `quarterInfo` of `renderer.go`: one column of the timeline axis. -/
structure quarterInfo where
  year : Int
  quarter : Int
deriving DecidableEq, Repr

/-- The smallest value of Go's `int` on a 64-bit platform (`math.MinInt64`). -/
def minInt : Int := -9223372036854775808

/-- The largest value of Go's `int` on a 64-bit platform (`math.MaxInt64`). -/
def maxInt : Int := 9223372036854775807

/-- The value Go stores for an `int` result `n`: arithmetic on `int` wraps around modulo
`2^64`, so the stored value is the representative of `n` in `minInt .. maxInt`. -/
def wrapInt (n : Int) : Int :=
  (n + 9223372036854775808) % 18446744073709551616 - 9223372036854775808

/-- The values a Go `int` can hold (proof-side predicate). -/
def isInt (n : Int) : Prop :=
  minInt ≤ n ∧ n ≤ maxInt

instance (n : Int) : Decidable (isInt n) := by
  unfold isInt; infer_instance

/-- The inner loop of `calculateQuarters`:
`for q := startQuarter; q <= endQuarter; q++ { quarters = append(quarters, quarterInfo{year, q}) }`.
The third argument is the fuel, a bound on the number of times the test `q <= endQuarter` is
evaluated; the fourth is the loop variable `q`, and `q++` wraps around as in Go. The result
is `some quarters` when the loop exits within the fuel and `none` when it does not. -/
def quarterLoop (year endQuarter : Int) :
    Nat → Int → List quarterInfo → Option (List quarterInfo)
  | 0, _, _ => none
  | fuel + 1, q, quarters =>
    if q ≤ endQuarter then
      quarterLoop year endQuarter fuel (wrapInt (q + 1))
        (quarters ++ [{ year := year, quarter := q }])
    else some quarters

/-- The outer loop of `calculateQuarters`:
`for year := startYear; year <= endYear; year++ { ... }`.
The fifth argument is the fuel, a bound on the number of times the test `year <= endYear` is
evaluated; the sixth is the loop variable `year`, and `year++` wraps around as in Go. The
inner loop gets the fuel `endQuarter + 1 - startQuarter` (its number of iterations when it
exits) plus one for the last test; `quarterLoop_adequate` shows that no larger fuel would let
it exit. The result is `none` when a loop does not exit within its fuel. -/
def yearLoop (startYear startQ endYear endQ : Int) :
    Nat → Int → List quarterInfo → Option (List quarterInfo)
  | 0, _, _ => none
  | fuel + 1, year, quarters =>
    if year ≤ endYear then
      let startQuarter := if year = startYear then startQ else 1
      let endQuarter := if year = endYear then endQ else 4
      match quarterLoop year endQuarter ((endQuarter + 1 - startQuarter).toNat + 1)
          startQuarter quarters with
      | none => none
      | some quarters =>
        yearLoop startYear startQ endYear endQ fuel (wrapInt (year + 1)) quarters
    else some quarters

/-- The function `calculateQuarters` of `renderer.go`: `some quarters` when the call returns
`quarters`, `none` when the call does not return. The outer loop gets the fuel
`endYear + 1 - startYear` (its number of iterations when it exits) plus one for the last
test; `calculateQuarters_adequate` shows that no larger fuel would let it exit, so `none`
stands for a call whose loops run forever. -/
def calculateQuarters (startYear startQ endYear endQ : Int) : Option (List quarterInfo) :=
  yearLoop startYear startQ endYear endQ ((endYear + 1 - startYear).toNat + 1) startYear []

/-- The loop of `findQuarterIndex`: `for i, q := range quarters`, started at index `i`. -/
def findQuarterIndexFrom (year quarter : Int) : Nat → List quarterInfo → Int
  | _, [] => -1
  | i, q :: rest =>
    if q.year = year ∧ q.quarter = quarter then (i : Int)
    else findQuarterIndexFrom year quarter (i + 1) rest

/-- The function `findQuarterIndex` of `renderer.go`. -/
def findQuarterIndex (quarters : List quarterInfo) (year quarter : Int) : Int :=
  findQuarterIndexFrom year quarter 0 quarters

/-- Lexicographic order on columns: `(year, quarter)` pairs compared by year, then quarter. -/
def quarterInfo.lt (a b : quarterInfo) : Prop :=
  a.year < b.year ∨ (a.year = b.year ∧ a.quarter < b.quarter)

instance (a b : quarterInfo) : Decidable (quarterInfo.lt a b) := by
  unfold quarterInfo.lt; infer_instance

/-- Lexicographic `(y1, q1) ≤ (y2, q2)` on integer pairs. -/
def pairLe (y1 q1 y2 q2 : Int) : Prop :=
  y1 < y2 ∨ (y1 = y2 ∧ q1 ≤ q2)

instance (y1 q1 y2 q2 : Int) : Decidable (pairLe y1 q1 y2 q2) := by
  unfold pairLe; infer_instance

/-- The columns one iteration of the outer loop of `calculateQuarters` appends for `year`
(proof-side closed form of the inner loop). -/
def yearColumns (startYear startQ endYear endQ year : Int) : List quarterInfo :=
  (List.range ((if year = endYear then endQ else 4) + 1
      - (if year = startYear then startQ else 1)).toNat).map
    (fun (k : Nat) =>
      ({ year := year, quarter := (if year = startYear then startQ else 1) + (k : Int) } : quarterInfo))

/-- The columns of the years `startYear .. endYear` in order (proof-side closed form of the
outer loop of `calculateQuarters`). -/
def axisColumns (startYear startQ endYear endQ : Int) : List quarterInfo :=
  (List.range (endYear + 1 - startYear).toNat).flatMap
    (fun (i : Nat) => yearColumns startYear startQ endYear endQ (startYear + (i : Int)))

/-- The axis 2024Q1..2024Q4 of the sample charts, as `calculateQuarters 2024 1 2024 4`
returns it. -/
def sampleAxis : List quarterInfo :=
  [{ year := 2024, quarter := 1 }, { year := 2024, quarter := 2 },
    { year := 2024, quarter := 3 }, { year := 2024, quarter := 4 }]

/-- The column with linear number `m`, counting quarters from year 0, quarter 1
(proof-side: `m = 4 * year + (quarter - 1)`). -/
def columnOf (m : Int) : quarterInfo :=
  { year := m / 4, quarter := m % 4 + 1 }

/-- A Go `string`, modelled by the list of its Unicode code points. -/
abbrev GoString := List Char

/-- Go's builtin `len` on a string: the number of bytes of its UTF-8 encoding. -/
def len (s : GoString) : Int :=
  ((s.map Char.utf8Size).sum : Nat)

/-- The predicate `unicode.IsSpace` of the Go standard library (Unicode White_Space). -/
def isSpace (c : Char) : Bool :=
  let r := c.toNat
  (0x09 ≤ r && r ≤ 0x0D) || r == 0x20 || r == 0x85 || r == 0xA0 || r == 0x1680 ||
    (0x2000 ≤ r && r ≤ 0x200A) || r == 0x2028 || r == 0x2029 || r == 0x202F ||
    r == 0x205F || r == 0x3000

/-- The scan of `strings.Fields`: `field` is the word being read (empty when the scan is
between words); a white space character closes it. -/
def fieldsLoop : GoString → GoString → List GoString
  | [], field => if field = [] then [] else [field]
  | c :: rest, field =>
    if isSpace c then
      if field = [] then fieldsLoop rest [] else field :: fieldsLoop rest []
    else fieldsLoop rest (field ++ [c])

/-- The Go standard library function `strings.Fields`, after its documentation: it splits `s`
around each run of one or more white space characters and returns the words in between (no
word when `s` is empty or all white space). -/
def Fields (s : GoString) : List GoString :=
  fieldsLoop s []

/-- The Go standard library function `strings.Join`: the elements separated by `sep`. -/
def Join : List GoString → GoString → GoString
  | [], _ => []
  | [a], _ => a
  | a :: b :: rest, sep => a ++ sep ++ Join (b :: rest) sep

/-- The loop of `wrapText` over `parts`, with the local variables `line` and `lines`, followed
by the final flush `if line != "" { lines = append(lines, line) }`. -/
def wrapLoop (maxChars : Int) : List GoString → GoString → List GoString → List GoString
  | [], line, lines => if line ≠ [] then lines ++ [line] else lines
  | w :: parts, line, lines =>
    if len (line ++ [' '] ++ w) ≤ maxChars then
      if line = [] then wrapLoop maxChars parts w lines
      else wrapLoop maxChars parts (line ++ [' '] ++ w) lines
    else
      if line ≠ [] then wrapLoop maxChars parts w (lines ++ [line])
      else wrapLoop maxChars parts w lines

/-- The function `wrapText` of `renderer.go`. -/
def wrapText (s : GoString) (maxChars : Int) : List GoString :=
  if s = [] then [] else wrapLoop maxChars (Fields s) [] []

/-- A word: a non-empty string without white space (proof-side predicate). -/
def isWord (w : GoString) : Prop :=
  w ≠ [] ∧ ∀ c ∈ w, isSpace c = false

/-- The greedy break condition between two consecutive lines `a` and `b` (proof-side
predicate): the first word of `b` did not fit at the end of `a`. -/
def greedyBreak (maxChars : Int) (a b : GoString) : Prop :=
  ∀ w, (Fields b).head? = some w → maxChars < len (a ++ [' '] ++ w)

/-- The struct `svgLayoutConfig` of `renderer.go`. -/
structure svgLayoutConfig where
  headerHeight : Int
  baseRowHeight : Int
  quarterWidth : Int
  labelWidth : Int
  padding : Int
  categoryHeaderHeight : Int
  titleLineHeight : Int
  descLineHeight : Int
  verticalPaddingPerTask : Int
deriving DecidableEq, Repr

/-- The layout constants of the Markup backend: the value `config` built in `GenerateSVG`. -/
def svgConfig : svgLayoutConfig :=
  { headerHeight := 80
    baseRowHeight := 40
    quarterWidth := 120
    labelWidth := 200
    padding := 20
    categoryHeaderHeight := 35
    titleLineHeight := 14
    descLineHeight := 12
    verticalPaddingPerTask := 8 }

/-- Modelled from the spec: the declaration of the type `Task` is not among the sources; the
fields are those the renderers read (identity, title, optional description, start and end
(year, quarter), optional override color). -/
structure Task where
  ID : GoString
  Title : GoString
  Description : GoString
  StartYear : Int
  StartQ : Int
  EndYear : Int
  EndQ : Int
  Color : GoString
deriving DecidableEq, Repr

/-- Modelled from the spec: the declaration of the type `Category` is not among the sources;
the fields are those the renderers read (identity, name, base color, ordered tasks). -/
structure Category where
  ID : GoString
  Name : GoString
  Color : GoString
  Tasks : List Task
deriving DecidableEq, Repr

/-- Modelled from the spec: the declaration of the type `Chart` is not among the sources; the
fields are those the renderers read (identity, title, display range, ordered categories). -/
structure Chart where
  ID : GoString
  Title : GoString
  StartYear : Int
  StartQ : Int
  EndYear : Int
  EndQ : Int
  Categories : List Category
deriving DecidableEq, Repr

/-- A Go `map[string]int`: a key is absent (`none`) or bound to a value. -/
abbrev HeightMap := GoString → Option Int

/-- The empty map, `make(map[string]int)`. -/
def HeightMap.empty : HeightMap :=
  fun _ => none

/-- The map assignment `m[key] = value`. -/
def HeightMap.set (m : HeightMap) (key : GoString) (value : Int) : HeightMap :=
  fun k => if k = key then some value else m k

/-- The inner loop of `calculateDynamicHeights`: `for _, task := range cat.Tasks`. -/
def taskHeightsLoop (config : svgLayoutConfig) : List Task → HeightMap → HeightMap
  | [], perTaskHeights => perTaskHeights
  | task :: rest, perTaskHeights =>
    let titleLines := wrapText task.Title 28
    let descLines := wrapText task.Description 36
    let h := config.baseRowHeight
    let calcH := (titleLines.length : Int) * config.titleLineHeight
      + (descLines.length : Int) * config.descLineHeight + config.verticalPaddingPerTask
    let h := if calcH > h then calcH else h
    taskHeightsLoop config rest (perTaskHeights.set task.ID h)

/-- The outer loop of `calculateDynamicHeights`: `for _, cat := range chart.Categories`. -/
def categoryHeightsLoop (config : svgLayoutConfig) :
    List Category → HeightMap → HeightMap → HeightMap × HeightMap
  | [], perTaskHeights, perCategoryHeights => (perTaskHeights, perCategoryHeights)
  | cat :: rest, perTaskHeights, perCategoryHeights =>
    let catNameLines := wrapText cat.Name 30
    let catH := config.categoryHeaderHeight
    let catH := if catNameLines.length > 1 then 18 + (catNameLines.length : Int) * 14 else catH
    categoryHeightsLoop config rest (taskHeightsLoop config cat.Tasks perTaskHeights)
      (perCategoryHeights.set cat.ID catH)

/-- The function `calculateDynamicHeights` of `renderer.go`: the task height map and the
category height map. -/
def calculateDynamicHeights (chart : Chart) (config : svgLayoutConfig) : HeightMap × HeightMap :=
  categoryHeightsLoop config chart.Categories HeightMap.empty HeightMap.empty

/-- All tasks of a chart, in drawing order (proof-side). -/
def Chart.allTasks (chart : Chart) : List Task :=
  chart.Categories.flatMap (fun cat => cat.Tasks)

/-- A sample chart for the witnesses: one category with a short task and a task whose long
description wraps to three lines. -/
def sampleChart : Chart :=
  { ID := "c1".data, Title := "Roadmap".data
    StartYear := 2024, StartQ := 1, EndYear := 2024, EndQ := 4
    Categories :=
      [{ ID := "cat1".data, Name := "Platform".data, Color := "#336699".data
         Tasks :=
          [{ ID := "t1".data, Title := "Ship".data, Description := [],
             StartYear := 2024, StartQ := 2, EndYear := 2024, EndQ := 3, Color := [] },
           { ID := "t2".data, Title := "Migrate the storage layer".data,
             Description :=
              "Move every tenant to the new cluster and retire the old one for good, at last".data,
             StartYear := 2024, StartQ := 1, EndYear := 2024, EndQ := 4, Color := [] }] }] }

/-- Go's `%d` verb of `fmt.Sprintf` on an `int`: the decimal digits, with a leading minus sign
for a negative number (standard library, modelled after its documentation). -/
def itoa (n : Int) : GoString :=
  if n < 0 then '-' :: Nat.toDigits 10 n.natAbs else Nat.toDigits 10 n.toNat

/-- The Go standard library function `strings.ReplaceAll(s, old, new)` for an `old` of one
character, the only way the repository calls it: every `old` in `s` becomes `new`. -/
def ReplaceAll (s : GoString) (old : Char) (new : GoString) : GoString :=
  s.flatMap (fun c => if c = old then new else [c])

/-- The function `escapeXML` of `renderer.go`. -/
def escapeXML (s : GoString) : GoString :=
  let s := ReplaceAll s '&' "&amp;".data
  let s := ReplaceAll s '<' "&lt;".data
  let s := ReplaceAll s '>' "&gt;".data
  let s := ReplaceAll s '"' "&quot;".data
  s

/-- The function `darken` of `renderer.go`. -/
def darken (color : GoString) : GoString :=
  if color = [] then "#333".data else color

/-- The Go map read `m[key]`: the bound value, or the zero value `0` for an absent key. -/
def HeightMap.get (m : HeightMap) (key : GoString) : Int :=
  (m key).getD 0

/-- The struct `svgRenderContext` of `renderer.go`, without the output buffer `buf`: each
`write…` method below is modelled by the text it appends to `ctx.buf`. -/
structure svgRenderContext where
  quarters : List quarterInfo
  totalQuarters : Int
  config : svgLayoutConfig
  perTaskHeights : HeightMap
  perCategoryHeights : HeightMap

/-- The loop of `sumCategoryHeights`, with the running `total`. -/
def sumCategoryHeightsLoop (perCategoryHeights : HeightMap) : List Category → Int → Int
  | [], total => total
  | cat :: rest, total =>
    match perCategoryHeights cat.ID with
    | some h => sumCategoryHeightsLoop perCategoryHeights rest (total + h)
    | none => sumCategoryHeightsLoop perCategoryHeights rest total

/-- The function `sumCategoryHeights` of `renderer.go`. -/
def sumCategoryHeights (chart : Chart) (perCategoryHeights : HeightMap) : Int :=
  sumCategoryHeightsLoop perCategoryHeights chart.Categories 0

/-- The inner loop of `sumTaskHeights` over the tasks of one category. -/
def sumTaskHeightsInner (perTaskHeights : HeightMap) : List Task → Int → Int
  | [], total => total
  | task :: rest, total =>
    match perTaskHeights task.ID with
    | some h => sumTaskHeightsInner perTaskHeights rest (total + h)
    | none => sumTaskHeightsInner perTaskHeights rest total

/-- The outer loop of `sumTaskHeights` over the categories. -/
def sumTaskHeightsLoop (perTaskHeights : HeightMap) : List Category → Int → Int
  | [], total => total
  | cat :: rest, total =>
    sumTaskHeightsLoop perTaskHeights rest (sumTaskHeightsInner perTaskHeights cat.Tasks total)

/-- The function `sumTaskHeights` of `renderer.go`. -/
def sumTaskHeights (chart : Chart) (perTaskHeights : HeightMap) : Int :=
  sumTaskHeightsLoop perTaskHeights chart.Categories 0

/-- The local variable `width` of `GenerateSVG`; `none` when the call of `calculateQuarters`
that precedes it does not return. -/
def svgWidth (chart : Chart) : Option Int :=
  match calculateQuarters chart.StartYear chart.StartQ chart.EndYear chart.EndQ with
  | none => none
  | some quarters =>
    some (svgConfig.labelWidth + (quarters.length : Int) * svgConfig.quarterWidth
      + svgConfig.padding * 2)

/-- The local variable `height` of `GenerateSVG`. -/
def svgHeight (chart : Chart) : Int :=
  let heights := calculateDynamicHeights chart svgConfig
  let totalCategoryHeadersHeight := sumCategoryHeights chart heights.2
  let totalTaskHeight := sumTaskHeights chart heights.1
  svgConfig.headerHeight + totalCategoryHeadersHeight + totalTaskHeight + svgConfig.padding * 2

/-- The method `writeSVGHeader` of `renderer.go`. -/
def svgRenderContext.writeSVGHeader (_ctx : svgRenderContext) (width height : Int) : GoString :=
  "<svg width=\"".data ++ itoa width ++ "\" height=\"".data ++ itoa height
    ++ "\" xmlns=\"http://www.w3.org/2000/svg\">".data
    ++ ("<defs><style>.title\x7bfont:bold 20px sans-serif;fill:#333\x7d"
      ++ ".header\x7bfont:bold 12px sans-serif;fill:#555\x7d"
      ++ ".label\x7bfont:12px sans-serif;fill:#333\x7d"
      ++ ".category\x7bfont:bold 14px sans-serif;fill:#222\x7d"
      ++ ".desc\x7bfont:10px sans-serif;fill:#666\x7d</style></defs>").data

/-- The method `writeBackground` of `renderer.go`. -/
def svgRenderContext.writeBackground (_ctx : svgRenderContext) (width height : Int) : GoString :=
  "<rect width=\"".data ++ itoa width ++ "\" height=\"".data ++ itoa height
    ++ "\" fill=\"#fafafa\"/>".data

/-- The method `writeTitle` of `renderer.go`. -/
def svgRenderContext.writeTitle (ctx : svgRenderContext) (title : GoString) : GoString :=
  "<text x=\"".data ++ itoa ctx.config.padding ++ "\" y=\"".data
    ++ itoa (ctx.config.padding + 20) ++ "\" class=\"title\">".data ++ escapeXML title
    ++ "</text>".data

/-- The loop of `writeQuarterHeaders`: `for i, q := range ctx.quarters`, started at index `i`. -/
def svgRenderContext.writeQuarterHeadersLoop (ctx : svgRenderContext) (height : Int) :
    Nat → List quarterInfo → GoString
  | _, [] => []
  | i, q :: rest =>
    let x := ctx.config.padding + ctx.config.labelWidth + (i : Int) * ctx.config.quarterWidth
    let y := ctx.config.headerHeight
    let color := if i % 2 = 1 then "#f5f5f5".data else "#e8e8e8".data
    "<rect x=\"".data ++ itoa x ++ "\" y=\"".data ++ itoa (y - 30) ++ "\" width=\"".data
      ++ itoa ctx.config.quarterWidth ++ "\" height=\"".data ++ itoa 30 ++ "\" fill=\"".data
      ++ color ++ "\" stroke=\"#ccc\" stroke-width=\"1\"/>".data
      ++ "<text x=\"".data ++ itoa (x + Int.tdiv ctx.config.quarterWidth 2) ++ "\" y=\"".data
      ++ itoa (y - 10) ++ "\" class=\"header\" text-anchor=\"middle\">Q".data
      ++ itoa q.quarter ++ " ".data ++ itoa q.year ++ "</text>".data
      ++ "<line x1=\"".data ++ itoa x ++ "\" y1=\"".data ++ itoa y ++ "\" x2=\"".data
      ++ itoa x ++ "\" y2=\"".data ++ itoa (height - ctx.config.padding)
      ++ "\" stroke=\"#ddd\" stroke-width=\"1\"/>".data
      ++ svgRenderContext.writeQuarterHeadersLoop ctx height (i + 1) rest

/-- The method `writeQuarterHeaders` of `renderer.go`. -/
def svgRenderContext.writeQuarterHeaders (ctx : svgRenderContext) (height : Int) : GoString :=
  ctx.writeQuarterHeadersLoop height 0 ctx.quarters

/-- The `for i, ln := range lines` loops of `writeCategoryName` and `writeTaskText`, which
differ only in the `dy` of the first line (`dyFirst`) and of the following lines (`dyNext`):
one `<tspan>` per line, started at index `i`. -/
def svgRenderContext.tspanLoop (ctx : svgRenderContext) (dyFirst dyNext : Int) :
    Nat → List GoString → GoString
  | _, [] => []
  | i, ln :: rest =>
    let dy := if i > 0 then dyNext else dyFirst
    "<tspan x=\"".data ++ itoa (ctx.config.padding + 10) ++ "\" dy=\"".data ++ itoa dy
      ++ "\">".data ++ escapeXML ln ++ "</tspan>".data
      ++ svgRenderContext.tspanLoop ctx dyFirst dyNext (i + 1) rest

/-- The method `writeCategoryName` of `renderer.go`. -/
def svgRenderContext.writeCategoryName (ctx : svgRenderContext) (name : GoString)
    (currentY _catH : Int) : GoString :=
  let catLines := wrapText name 30
  if catLines.length ≤ 1 then
    "<text x=\"".data ++ itoa (ctx.config.padding + 10) ++ "\" y=\"".data
      ++ itoa (currentY + 22) ++ "\" class=\"category\">".data ++ escapeXML name
      ++ "</text>".data
  else
    "<text x=\"".data ++ itoa (ctx.config.padding + 10) ++ "\" y=\"".data
      ++ itoa (currentY + 18) ++ "\" class=\"category\">".data
      ++ ctx.tspanLoop 4 14 0 catLines ++ "</text>".data

/-- The method `writeTaskText` of `renderer.go`: the text written and the returned `textY`. -/
def svgRenderContext.writeTaskText (ctx : svgRenderContext) (task : Task) (currentY : Int) :
    GoString × Int :=
  let titleLines := wrapText task.Title 28
  let descLines := wrapText task.Description 36
  let textY := currentY + 14
  let titleText :=
    if titleLines.length > 0 then
      "<text x=\"".data ++ itoa (ctx.config.padding + 10) ++ "\" y=\"".data ++ itoa textY
        ++ "\" class=\"label\">".data ++ ctx.tspanLoop 0 ctx.config.titleLineHeight 0 titleLines
        ++ "</text>".data
    else []
  let textY :=
    if titleLines.length > 0 then textY + (titleLines.length : Int) * ctx.config.titleLineHeight
    else textY
  let descText :=
    if descLines.length > 0 then
      "<text x=\"".data ++ itoa (ctx.config.padding + 10) ++ "\" y=\"".data ++ itoa (textY + 4)
        ++ "\" class=\"desc\">".data ++ ctx.tspanLoop 0 ctx.config.descLineHeight 0 descLines
        ++ "</text>".data
    else []
  (titleText ++ descText, textY)

/-- The method `writeTaskBar` of `renderer.go`: nothing is written when an end of the span is
not on the axis, two `<rect>` elements otherwise. -/
def svgRenderContext.writeTaskBar (ctx : svgRenderContext) (task : Task) (catColor : GoString)
    (currentY h : Int) : GoString :=
  let startIdx := findQuarterIndex ctx.quarters task.StartYear task.StartQ
  let endIdx := findQuarterIndex ctx.quarters task.EndYear task.EndQ
  if startIdx < 0 ∨ endIdx < 0 then []
  else
    let barX := ctx.config.padding + ctx.config.labelWidth + startIdx * ctx.config.quarterWidth
    let barWidth := (endIdx - startIdx + 1) * ctx.config.quarterWidth
    let barY := currentY + 8
    let barHeight := h - 16
    let taskColor := task.Color
    let taskColor := if taskColor = [] then catColor else taskColor
    let barHeight := if barHeight < 12 then 12 else barHeight
    "<rect x=\"".data ++ itoa (barX + 2) ++ "\" y=\"".data ++ itoa barY ++ "\" width=\"".data
      ++ itoa (barWidth - 4) ++ "\" height=\"".data ++ itoa barHeight ++ "\" fill=\"".data
      ++ taskColor ++ "\" rx=\"4\" opacity=\"0.8\"/>".data
      ++ "<rect x=\"".data ++ itoa (barX + 2) ++ "\" y=\"".data ++ itoa barY
      ++ "\" width=\"".data ++ itoa (barWidth - 4) ++ "\" height=\"".data ++ itoa barHeight
      ++ "\" fill=\"none\" stroke=\"".data ++ darken taskColor
      ++ "\" stroke-width=\"2\" rx=\"4\"/>".data

/-- The method `writeTasks` of `renderer.go`: the text written and the returned `currentY`. -/
def svgRenderContext.writeTasks (ctx : svgRenderContext) (catColor : GoString) :
    List Task → Int → GoString × Int
  | [], currentY => ([], currentY)
  | task :: rest, currentY =>
    let h := ctx.perTaskHeights.get task.ID
    let h := if h = 0 then ctx.config.baseRowHeight else h
    let cell := "<rect x=\"".data ++ itoa ctx.config.padding ++ "\" y=\"".data ++ itoa currentY
      ++ "\" width=\"".data ++ itoa ctx.config.labelWidth ++ "\" height=\"".data ++ itoa h
      ++ "\" fill=\"#fff\" stroke=\"#ddd\" stroke-width=\"1\"/>".data
    let text := (ctx.writeTaskText task currentY).1
    let bar := ctx.writeTaskBar task catColor currentY h
    let next := svgRenderContext.writeTasks ctx catColor rest (currentY + h)
    (cell ++ text ++ bar ++ next.1, next.2)

/-- The method `writeCategory` of `renderer.go`: the text written and the returned `currentY`. -/
def svgRenderContext.writeCategory (ctx : svgRenderContext) (cat : Category) (currentY : Int) :
    GoString × Int :=
  let catH := ctx.perCategoryHeights.get cat.ID
  let catH := if catH = 0 then ctx.config.categoryHeaderHeight else catH
  let band := "<rect x=\"".data ++ itoa ctx.config.padding ++ "\" y=\"".data ++ itoa currentY
    ++ "\" width=\"".data ++ itoa ctx.config.labelWidth ++ "\" height=\"".data ++ itoa catH
    ++ "\" fill=\"".data ++ cat.Color ++ "\" opacity=\"0.3\"/>".data
  let name := ctx.writeCategoryName cat.Name currentY catH
  let wide := "<rect x=\"".data ++ itoa (ctx.config.padding + ctx.config.labelWidth)
    ++ "\" y=\"".data ++ itoa currentY ++ "\" width=\"".data
    ++ itoa (ctx.totalQuarters * ctx.config.quarterWidth) ++ "\" height=\"".data ++ itoa catH
    ++ "\" fill=\"".data ++ cat.Color ++ "\" opacity=\"0.05\"/>".data
  let tasks := ctx.writeTasks cat.Color cat.Tasks (currentY + catH)
  (band ++ name ++ wide ++ tasks.1, tasks.2)

/-- The loop of `writeCategoriesAndTasks`: the text written and the final `currentY`. -/
def svgRenderContext.writeCategoriesLoop (ctx : svgRenderContext) :
    List Category → Int → GoString × Int
  | [], currentY => ([], currentY)
  | cat :: rest, currentY =>
    let this := ctx.writeCategory cat currentY
    let next := svgRenderContext.writeCategoriesLoop ctx rest this.2
    (this.1 ++ next.1, next.2)

/-- The method `writeCategoriesAndTasks` of `renderer.go`. -/
def svgRenderContext.writeCategoriesAndTasks (ctx : svgRenderContext) (chart : Chart) :
    GoString :=
  (ctx.writeCategoriesLoop chart.Categories ctx.config.headerHeight).1

/-- The local variable `ctx` of `GenerateSVG`: the render context built from the axis
`quarters` that `calculateQuarters` returned, the Markup constants and the two height maps. -/
def svgContext (quarters : List quarterInfo) (chart : Chart) : svgRenderContext :=
  let heights := calculateDynamicHeights chart svgConfig
  { quarters := quarters
    totalQuarters := quarters.length
    config := svgConfig
    perTaskHeights := heights.1
    perCategoryHeights := heights.2 }

/-- The function `GenerateSVG` of `renderer.go`: `none` when the call does not return (its
first statement, the call of `calculateQuarters`, does not), otherwise the returned string
and the returned error, the inner `none` standing for Go's `nil`. The locals `height` and
`ctx` are `svgHeight` and `svgContext` above. -/
def GenerateSVG (chart : Chart) : Option (GoString × Option GoString) :=
  match calculateQuarters chart.StartYear chart.StartQ chart.EndYear chart.EndQ with
  | none => none
  | some quarters =>
    let width := svgConfig.labelWidth + (quarters.length : Int) * svgConfig.quarterWidth
      + svgConfig.padding * 2
    let height := svgHeight chart
    let ctx := svgContext quarters chart
    some (ctx.writeSVGHeader width height ++ ctx.writeBackground width height
      ++ ctx.writeTitle chart.Title ++ ctx.writeQuarterHeaders height
      ++ ctx.writeCategoriesAndTasks chart ++ "</svg>".data, none)

/-- The struct `pngLayoutConfig` of `export.go`. -/
structure pngLayoutConfig where
  headerHeight : Int
  rowHeight : Int
  quarterWidth : Int
  labelWidth : Int
  padding : Int
  categoryHeaderHeight : Int
deriving DecidableEq, Repr

/-- The layout constants of the Raster backend: the value `config` built in `GeneratePNG`. -/
def pngConfig : pngLayoutConfig :=
  { headerHeight := 80
    rowHeight := 40
    quarterWidth := 120
    labelWidth := 200
    padding := 20
    categoryHeaderHeight := 35 }

/-- The loop of `countTotalRows`, with the running `totalRows`. -/
def countTotalRowsLoop : List Category → Int → Int
  | [], totalRows => totalRows
  | cat :: rest, totalRows => countTotalRowsLoop rest (totalRows + 1 + (cat.Tasks.length : Int))

/-- The function `countTotalRows` of `export.go`. -/
def countTotalRows (chart : Chart) : Int :=
  countTotalRowsLoop chart.Categories 0

/-- The local variable `width` of `GeneratePNG`; `none` when the call of `calculateQuarters`
that precedes it does not return. -/
def pngWidth (chart : Chart) : Option Int :=
  match calculateQuarters chart.StartYear chart.StartQ chart.EndYear chart.EndQ with
  | none => none
  | some quarters =>
    some (pngConfig.labelWidth + (quarters.length : Int) * pngConfig.quarterWidth
      + pngConfig.padding * 2)

/-- The local variable `height` of `GeneratePNG`. -/
def pngHeight (chart : Chart) : Int :=
  let totalRows := countTotalRows chart
  pngConfig.headerHeight + totalRows * pngConfig.rowHeight + pngConfig.padding * 2

/-- The type `image.Rectangle` of the Go standard library: the corners `Min` and `Max`. -/
structure Rectangle where
  MinX : Int
  MinY : Int
  MaxX : Int
  MaxY : Int
deriving DecidableEq, Repr

/-- The Go standard library function `image.Rect`: the rectangle with the given corners,
swapped where needed so that `Min` is not beyond `Max`. -/
def imageRect (x0 y0 x1 y1 : Int) : Rectangle :=
  { MinX := if x0 > x1 then x1 else x0
    MinY := if y0 > y1 then y1 else y0
    MaxX := if x0 > x1 then x0 else x1
    MaxY := if y0 > y1 then y0 else y1 }

/-- The Go standard library method `Rectangle.Dx`: the width. -/
def Rectangle.Dx (r : Rectangle) : Int :=
  r.MaxX - r.MinX

/-- The Go standard library method `Rectangle.Dy`: the height. -/
def Rectangle.Dy (r : Rectangle) : Int :=
  r.MaxY - r.MinY

/-- The bounds of the canvas `img` that `GeneratePNG` allocates with
`image.NewRGBA(image.Rect(0, 0, width, height))`; `none` when `GeneratePNG` does not get that
far because its call of `calculateQuarters` does not return. The PNG encoding that follows
belongs to the standard library and is not modelled. -/
def pngCanvas (chart : Chart) : Option Rectangle :=
  match pngWidth chart with
  | none => none
  | some width => some (imageRect 0 0 width (pngHeight chart))

/-- The type `color.RGBA` of the Go standard library; each channel is a `uint8`. -/
structure RGBA where
  R : Nat
  G : Nat
  B : Nat
  A : Nat
deriving DecidableEq, Repr

/-- The bytes of a Go string: the UTF-8 encoding of its code points. -/
def utf8Bytes (s : GoString) : List Nat :=
  s.flatMap (fun c => (String.utf8EncodeChar c).map UInt8.toNat)

/-- The value of a byte as a hexadecimal digit, as `strconv.ParseUint` reads it in base 16. -/
def hexDigit (b : Nat) : Option Nat :=
  if 48 ≤ b ∧ b ≤ 57 then some (b - 48)
  else if 97 ≤ b ∧ b ≤ 102 then some (b - 97 + 10)
  else if 65 ≤ b ∧ b ≤ 70 then some (b - 65 + 10)
  else none

/-- The digit loop of `strconv.ParseUint(s, 16, 8)` with the value `n` read so far: a byte
that is no digit is a syntax error with value 0, a value above 255 a range error with value
255. The result is the value and whether the error is `nil`. -/
def parseUintLoop : List Nat → Nat → Nat × Bool
  | [], n => (n, true)
  | b :: rest, n =>
    match hexDigit b with
    | none => (0, false)
    | some d => if n * 16 + d > 255 then (255, false) else parseUintLoop rest (n * 16 + d)

/-- The Go standard library call `strconv.ParseUint(s, 16, 8)` on the bytes `s`, after its
documentation: the value and whether the error is `nil`; the empty string is a syntax error. -/
def ParseUint (s : List Nat) : Nat × Bool :=
  if s = [] then (0, false) else parseUintLoop s 0

/-- The Go standard library call `strings.TrimPrefix(s, "#")`. -/
def TrimPrefix (s : GoString) : GoString :=
  match s with
  | '#' :: rest => rest
  | _ => s

/-- The function `parseColor` of `export.go`. The errors of `ParseUint` are discarded, as in
the source (`r, _ := ...`). -/
def parseColor (hexColor : GoString) : RGBA :=
  if hexColor = [] then { R := 100, G := 149, B := 237, A := 255 }
  else
    let hexColor := utf8Bytes (TrimPrefix hexColor)
    if hexColor.length ≠ 6 then { R := 100, G := 149, B := 237, A := 255 }
    else
      let r := (ParseUint (hexColor.take 2)).1
      let g := (ParseUint ((hexColor.drop 2).take 2)).1
      let b := (ParseUint ((hexColor.drop 4).take 2)).1
      { R := r % 256, G := g % 256, B := b % 256, A := 255 }

/-- The function `parseColorRGB` of `export.go`. -/
def parseColorRGB (hexColor : GoString) : Int × Int × Int :=
  let col := parseColor hexColor
  ((col.R : Int), (col.G : Int), (col.B : Int))

/-- A drawing call of the Raster backend on the canvas `ctx.img`. The draw methods below are
modelled by the calls they issue; the pixel loops of the helpers are not modelled. -/
inductive pngOp where
  | drawRect (x y width height : Int) (col : RGBA)
  | drawRectBorder (x y width height : Int) (col : RGBA)
  | drawVerticalLine (x y1 y2 : Int) (col : RGBA)
  | drawRoundedRect (x y width height radius : Int) (col : RGBA)
deriving DecidableEq, Repr

/-- The struct `pngRenderContext` of `export.go`, without the canvas `img`. -/
structure pngRenderContext where
  quarters : List quarterInfo
  totalQuarters : Int
  config : pngLayoutConfig

/-- The method `drawTaskBar` of the Raster backend (`export.go`). -/
def pngRenderContext.drawTaskBar (ctx : pngRenderContext) (task : Task) (catColor : RGBA)
    (currentY : Int) : List pngOp :=
  let startIdx := findQuarterIndex ctx.quarters task.StartYear task.StartQ
  let endIdx := findQuarterIndex ctx.quarters task.EndYear task.EndQ
  if startIdx < 0 ∨ endIdx < 0 then []
  else
    let barX := ctx.config.padding + ctx.config.labelWidth + startIdx * ctx.config.quarterWidth
    let barWidth := (endIdx - startIdx + 1) * ctx.config.quarterWidth
    let barY := currentY + 8
    let barHeight := ctx.config.rowHeight - 16
    let taskColor := parseColor task.Color
    let taskColor := if task.Color = [] then catColor else taskColor
    let taskColorAlpha : RGBA := { R := taskColor.R, G := taskColor.G, B := taskColor.B, A := 204 }
    [pngOp.drawRoundedRect (barX + 2) barY (barWidth - 4) barHeight 4 taskColorAlpha]

/-- The method `drawTasks` of the Raster backend: the calls issued and the returned
`currentY`. -/
def pngRenderContext.drawTasks (ctx : pngRenderContext) (catColor : RGBA) :
    List Task → Int → List pngOp × Int
  | [], currentY => ([], currentY)
  | task :: rest, currentY =>
    let next := pngRenderContext.drawTasks ctx catColor rest (currentY + ctx.config.rowHeight)
    ([pngOp.drawRect ctx.config.padding currentY ctx.config.labelWidth ctx.config.rowHeight
        { R := 255, G := 255, B := 255, A := 255 },
      pngOp.drawRectBorder ctx.config.padding currentY ctx.config.labelWidth
        ctx.config.rowHeight { R := 221, G := 221, B := 221, A := 255 }]
      ++ ctx.drawTaskBar task catColor currentY ++ next.1, next.2)

/-- The method `drawCategory` of the Raster backend: the calls issued and the returned
`currentY`. -/
def pngRenderContext.drawCategory (ctx : pngRenderContext) (cat : Category) (catColor : RGBA)
    (currentY : Int) : List pngOp × Int :=
  let catColorAlpha : RGBA := { R := catColor.R, G := catColor.G, B := catColor.B, A := 76 }
  let catColorLight : RGBA := { R := catColor.R, G := catColor.G, B := catColor.B, A := 13 }
  let tasks := ctx.drawTasks catColor cat.Tasks (currentY + ctx.config.categoryHeaderHeight)
  ([pngOp.drawRect ctx.config.padding currentY ctx.config.labelWidth
      ctx.config.categoryHeaderHeight catColorAlpha,
    pngOp.drawRect (ctx.config.padding + ctx.config.labelWidth) currentY
      (ctx.totalQuarters * ctx.config.quarterWidth) ctx.config.categoryHeaderHeight
      catColorLight] ++ tasks.1, tasks.2)

/-- The loop of `drawCategoriesAndTasks` of the Raster backend. -/
def pngRenderContext.drawCategoriesLoop (ctx : pngRenderContext) :
    List Category → Int → List pngOp × Int
  | [], currentY => ([], currentY)
  | cat :: rest, currentY =>
    let catColor := parseColor cat.Color
    let this := ctx.drawCategory cat catColor currentY
    let next := pngRenderContext.drawCategoriesLoop ctx rest this.2
    (this.1 ++ next.1, next.2)

/-- The method `drawCategoriesAndTasks` of the Raster backend. -/
def pngRenderContext.drawCategoriesAndTasks (ctx : pngRenderContext) (chart : Chart) :
    List pngOp :=
  (ctx.drawCategoriesLoop chart.Categories ctx.config.headerHeight).1

/-- The struct `pdfLayoutConfig` of `export.go`. Its `float64` fields are modelled by
integers: every constant of the layout is integral, and sums and products of integers are
exact in `float64` below 2^53. -/
structure pdfLayoutConfig where
  headerHeight : Int
  rowHeight : Int
  quarterWidth : Int
  labelWidth : Int
  padding : Int
  categoryHeaderHeight : Int
deriving DecidableEq, Repr

/-- The layout constants of the Document backend: the value `config` built in
`GeneratePDF`. -/
def pdfConfig : pdfLayoutConfig :=
  { headerHeight := 20
    rowHeight := 10
    quarterWidth := 25
    labelWidth := 50
    padding := 10
    categoryHeaderHeight := 8 }

/-- The struct `pdfRenderContext` of `export.go`, without the document `pdf`. -/
structure pdfRenderContext where
  quarters : List quarterInfo
  config : pdfLayoutConfig

/-- The bar the Document backend draws for a task: the arguments of `SetFillColor` and of
`Rect` in `writeTaskBar`. -/
structure pdfBar where
  fillR : Int
  fillG : Int
  fillB : Int
  x : Int
  y : Int
  width : Int
  height : Int
deriving DecidableEq, Repr

/-- The method `writeTaskBar` of the Document backend (`export.go`): no bar when an end of
the span is not on the axis. -/
def pdfRenderContext.writeTaskBar (ctx : pdfRenderContext) (task : Task) (catColor : GoString)
    (currentY : Int) : Option pdfBar :=
  let startIdx := findQuarterIndex ctx.quarters task.StartYear task.StartQ
  let endIdx := findQuarterIndex ctx.quarters task.EndYear task.EndQ
  if startIdx < 0 ∨ endIdx < 0 then none
  else
    let barX := ctx.config.padding + ctx.config.labelWidth + startIdx * ctx.config.quarterWidth
    let barWidth := (endIdx - startIdx + 1) * ctx.config.quarterWidth
    let barY := currentY + 2
    let barHeight := ctx.config.rowHeight - 4
    let taskColor := task.Color
    let taskColor := if taskColor = [] then catColor else taskColor
    let rgb := parseColorRGB taskColor
    some { fillR := rgb.1, fillG := rgb.2.1, fillB := rgb.2.2,
           x := barX + 1, y := barY, width := barWidth - 2, height := barHeight }

/-- The two `<rect>` elements of a Markup bar with the given geometry, fill and stroke
(proof-side: the two format strings of the Markup `writeTaskBar` with their arguments). -/
def svgBarText (x y width height : Int) (fill stroke : GoString) : GoString :=
  "<rect x=\"".data ++ itoa x ++ "\" y=\"".data ++ itoa y ++ "\" width=\"".data
    ++ itoa width ++ "\" height=\"".data ++ itoa height ++ "\" fill=\"".data
    ++ fill ++ "\" rx=\"4\" opacity=\"0.8\"/>".data
    ++ "<rect x=\"".data ++ itoa x ++ "\" y=\"".data ++ itoa y
    ++ "\" width=\"".data ++ itoa width ++ "\" height=\"".data ++ itoa height
    ++ "\" fill=\"none\" stroke=\"".data ++ stroke
    ++ "\" stroke-width=\"2\" rx=\"4\"/>".data

/-- The bordered label cell of a task row (proof-side: the first format string of the Markup
`writeTasks` with its arguments). -/
def svgCellText (x y width height : Int) : GoString :=
  "<rect x=\"".data ++ itoa x ++ "\" y=\"".data ++ itoa y
    ++ "\" width=\"".data ++ itoa width ++ "\" height=\"".data ++ itoa height
    ++ "\" fill=\"#fff\" stroke=\"#ddd\" stroke-width=\"1\"/>".data

/-- A task with a six-line description, for the counterexample of the monotonicity claim. -/
def longTask : Task :=
  { ID := "a".data, Title := "Ship".data,
    Description := ("internationalization internationalization internationalization "
      ++ "internationalization internationalization internationalization").data,
    StartYear := 2024, StartQ := 1, EndYear := 2024, EndQ := 4, Color := [] }

/-- A task without description that carries the ID of `longTask`. -/
def dupTask : Task :=
  { ID := "a".data, Title := "Ship".data, Description := [],
    StartYear := 2024, StartQ := 1, EndYear := 2024, EndQ := 4, Color := [] }

/-- A chart with one category holding `longTask`. -/
def shrinkChart : Chart :=
  { ID := "c5".data, Title := "Shrink".data
    StartYear := 2024, StartQ := 1, EndYear := 2024, EndQ := 4
    Categories :=
      [{ ID := "cat1".data, Name := "Platform".data, Color := "#336699".data,
         Tasks := [longTask] }] }

/-- The first task of the sample chart, spanning 2024Q2..2024Q3. -/
def shipTask : Task :=
  { ID := "t1".data, Title := "Ship".data, Description := [],
    StartYear := 2024, StartQ := 2, EndYear := 2024, EndQ := 3, Color := [] }

/-- A task whose span 2030Q1..2030Q2 lies outside the range of the sample chart. -/
def outTask : Task :=
  { ID := "t9".data, Title := "Later".data, Description := [],
    StartYear := 2030, StartQ := 1, EndYear := 2030, EndQ := 2, Color := [] }

/-- The bar color the specification asks for (from the spec's words): the override color of
the task if it is non-empty, else the color of the owning category. -/
def resolvedColor (taskColor catColor : GoString) : GoString :=
  if taskColor ≠ [] then taskColor else catColor

/-- A category without color that holds `shipTask`, which has no override color. -/
def plainCategory : Category :=
  { ID := "cat1".data, Name := "Platform".data, Color := [], Tasks := [shipTask] }

/-- A chart over 2024Q1..2024Q4 whose only category is `plainCategory`. -/
def plainChart : Chart :=
  { ID := "c6".data, Title := "Plain".data
    StartYear := 2024, StartQ := 1, EndYear := 2024, EndQ := 4
    Categories := [plainCategory] }

/-- A chart for the counterexample of the description claim: two tasks with the same one-line
title, the first without description, the second with a one-line description. -/
def tieChart : Chart :=
  { ID := "c2".data, Title := "Tie".data
    StartYear := 2024, StartQ := 1, EndYear := 2024, EndQ := 4
    Categories :=
      [{ ID := "cat1".data, Name := "Platform".data, Color := "#336699".data
         Tasks :=
          [{ ID := "a".data, Title := "Ship".data, Description := [],
             StartYear := 2024, StartQ := 2, EndYear := 2024, EndQ := 3, Color := [] },
           { ID := "b".data, Title := "Ship".data, Description := "soon".data,
             StartYear := 2024, StartQ := 2, EndYear := 2024, EndQ := 3, Color := [] }] }] }

/-- A chart whose only category has a name that wraps to three lines at 30 characters. -/
def bandChart : Chart :=
  { ID := "c3".data, Title := "Bands".data
    StartYear := 2024, StartQ := 1, EndYear := 2024, EndQ := 4
    Categories :=
      [{ ID := "wide".data,
         Name := "Platform engineering and developer experience tooling for the whole company".data,
         Color := "#336699".data, Tasks := [] }] }

/-- The sample chart with one more task `t0`, which has the title of `t2` and no
description. -/
def descChart : Chart :=
  { ID := "c4".data, Title := "Roadmap".data
    StartYear := 2024, StartQ := 1, EndYear := 2024, EndQ := 4
    Categories :=
      [{ ID := "cat1".data, Name := "Platform".data, Color := "#336699".data
         Tasks :=
          [{ ID := "t0".data, Title := "Migrate the storage layer".data, Description := [],
             StartYear := 2024, StartQ := 1, EndYear := 2024, EndQ := 4, Color := [] },
           { ID := "t2".data, Title := "Migrate the storage layer".data,
             Description :=
              "Move every tenant to the new cluster and retire the old one for good, at last".data,
             StartYear := 2024, StartQ := 1, EndYear := 2024, EndQ := 4, Color := [] }] }] }

/-- The text `escapeXML` writes for one character (proof-side): the entity of a special
character, the character itself otherwise. -/
def escapeChar (c : Char) : GoString :=
  if c = '&' then "&amp;".data
  else if c = '<' then "&lt;".data
  else if c = '>' then "&gt;".data
  else if c = '"' then "&quot;".data
  else [c]

/-- The four entities `escapeXML` produces. -/
def entities : List GoString :=
  ["&amp;".data, "&lt;".data, "&gt;".data, "&quot;".data]

/-- The local variable `h` of the Markup `writeTasks` for a task: the entry of the task
height map, or the base row height when the entry is 0. -/
def svgRenderContext.rowHeight (ctx : svgRenderContext) (task : Task) : Int :=
  if ctx.perTaskHeights.get task.ID = 0 then ctx.config.baseRowHeight
  else ctx.perTaskHeights.get task.ID

/-- The local variable `catH` of the Markup `writeCategory` for a category: the entry of the
category height map, or the fixed band height when the entry is 0. -/
def svgRenderContext.bandHeight (ctx : svgRenderContext) (cat : Category) : Int :=
  if ctx.perCategoryHeights.get cat.ID = 0 then ctx.config.categoryHeaderHeight
  else ctx.perCategoryHeights.get cat.ID

/-- The height the Markup backend draws for a category (proof-side): its band and the rows of
its tasks. -/
def svgRenderContext.categoryHeight (ctx : svgRenderContext) (cat : Category) : Int :=
  ctx.bandHeight cat + (cat.Tasks.map (fun t => ctx.rowHeight t)).sum

/-- One `<tspan>` element of the Markup backend (proof-side: the format string of the line
loops of `writeTaskText` with its arguments, the line escaped by `escapeXML`). -/
def svgTspanText (x dy : Int) (ln : GoString) : GoString :=
  "<tspan x=\"".data ++ itoa x ++ "\" dy=\"".data ++ itoa dy ++ "\">".data ++ escapeXML ln
    ++ "</tspan>".data

/-- The `<text>` element of a wrapped title (proof-side): nothing when there is no line,
otherwise one `<tspan>` per line, the first with `dy` 0 and each following one with
`dy = lineHeight`. -/
def svgTitleText (x y lineHeight : Int) : List GoString → GoString
  | [] => []
  | first :: more =>
    "<text x=\"".data ++ itoa x ++ "\" y=\"".data ++ itoa y ++ "\" class=\"label\">".data
      ++ svgTspanText x 0 first ++ more.flatMap (svgTspanText x lineHeight) ++ "</text>".data

/-- The `<text>` element of a wrapped description (proof-side): as `svgTitleText`, with the
class `desc`. -/
def svgDescText (x y lineHeight : Int) : List GoString → GoString
  | [] => []
  | first :: more =>
    "<text x=\"".data ++ itoa x ++ "\" y=\"".data ++ itoa y ++ "\" class=\"desc\">".data
      ++ svgTspanText x 0 first ++ more.flatMap (svgTspanText x lineHeight) ++ "</text>".data

/-- A chart without categories whose display range is the four quarters of the year
`MaxInt64`, the largest year a Go `int` holds. -/
def maxChart : Chart :=
  { ID := "c7".data, Title := "Far".data
    StartYear := maxInt, StartQ := 1, EndYear := maxInt, EndQ := 4
    Categories := [] }

/-! ## Theorems -/

/-! ### The quarter calculator: closed forms of the loops -/

theorem wrapInt_eq (n : Int) (h1 : minInt ≤ n) (h2 : n ≤ maxInt) : wrapInt n = n := by
  unfold wrapInt
  unfold minInt at h1
  unfold maxInt at h2
  omega

theorem wrapInt_le (n : Int) : wrapInt n ≤ maxInt := by
  unfold wrapInt maxInt
  omega

theorem wrapInt_ge (n : Int) : minInt ≤ wrapInt n := by
  unfold wrapInt minInt
  omega

theorem quarterLoop_returns (year endQuarter : Int) (he : endQuarter < maxInt) :
    ∀ (fuel : Nat) (q : Int) (quarters : List quarterInfo), minInt ≤ q →
      (endQuarter + 1 - q).toNat < fuel →
      quarterLoop year endQuarter fuel q quarters =
        some (quarters ++ (List.range (endQuarter + 1 - q).toNat).map
          (fun (k : Nat) => ({ year := year, quarter := q + (k : Int) } : quarterInfo))) := by
  intro fuel
  induction fuel with
  | zero => intro q quarters _ h; omega
  | succ n ih =>
    intro q quarters hq h
    unfold quarterLoop
    split_ifs with hle
    · have hn : (endQuarter + 1 - q).toNat = (endQuarter + 1 - (q + 1)).toNat + 1 := by omega
      rw [wrapInt_eq (q + 1) (by omega) (by omega), ih (q + 1) _ (by omega) (by omega), hn,
        List.range_succ_eq_map]
      simp only [List.map_cons, List.map_map, List.append_assoc, List.singleton_append]
      congr 3
      · simp
      · apply List.map_congr_left
        intro k _
        simp only [Function.comp, Nat.cast_succ]
        congr 1
        omega
    · have h0 : (endQuarter + 1 - q).toNat = 0 := by omega
      simp [h0]

theorem quarterLoop_diverges (year endQuarter : Int) (he : maxInt ≤ endQuarter) :
    ∀ (fuel : Nat) (q : Int) (quarters : List quarterInfo), q ≤ maxInt →
      quarterLoop year endQuarter fuel q quarters = none := by
  intro fuel
  induction fuel with
  | zero => intro q quarters _; rfl
  | succ n ih =>
    intro q quarters hq
    rw [quarterLoop, if_pos (by omega)]
    exact ih _ _ (wrapInt_le _)

theorem quarterLoop_mono (year endQuarter : Int) :
    ∀ (fuel : Nat) (q : Int) (quarters r : List quarterInfo),
      quarterLoop year endQuarter fuel q quarters = some r →
      ∀ more : Nat, fuel ≤ more → quarterLoop year endQuarter more q quarters = some r := by
  intro fuel
  induction fuel with
  | zero => intro q quarters r h; simp [quarterLoop] at h
  | succ n ih =>
    intro q quarters r h more hmore
    obtain ⟨m, rfl⟩ : ∃ m, more = m + 1 := ⟨more - 1, by omega⟩
    rw [quarterLoop] at h ⊢
    by_cases hle : q ≤ endQuarter
    · rw [if_pos hle] at h ⊢
      exact ih _ _ _ h m (by omega)
    · rw [if_neg hle] at h ⊢
      exact h

/-- The fuel `yearLoop` gives the inner loop is enough: if the inner loop exits within some
fuel, it exits within that fuel, with the same result. -/
theorem quarterLoop_adequate (year endQuarter q : Int) (quarters r : List quarterInfo)
    (hq : isInt q) :
    (∃ fuel, quarterLoop year endQuarter fuel q quarters = some r) ↔
      quarterLoop year endQuarter ((endQuarter + 1 - q).toNat + 1) q quarters = some r := by
  constructor
  · rintro ⟨fuel, h⟩
    by_cases he : endQuarter < maxInt
    · have h1 := quarterLoop_returns year endQuarter he _ q quarters hq.1 (Nat.lt_succ_self _)
      have h2 := quarterLoop_mono year endQuarter _ _ _ _ h
        (max fuel ((endQuarter + 1 - q).toNat + 1)) (le_max_left _ _)
      have h3 := quarterLoop_mono year endQuarter _ _ _ _ h1
        (max fuel ((endQuarter + 1 - q).toNat + 1)) (le_max_right _ _)
      rw [h2] at h3
      rw [h1, ← h3]
    · rw [quarterLoop_diverges year endQuarter (by omega) fuel q quarters hq.2] at h
      exact absurd h (by simp)
  · intro h
    exact ⟨_, h⟩

theorem yearLoop_returns (startYear startQ endYear endQ : Int)
    (hsq : minInt ≤ startQ) (hey : endYear < maxInt) (heq : endQ < maxInt) :
    ∀ (fuel : Nat) (year : Int) (quarters : List quarterInfo), minInt ≤ year →
      (endYear + 1 - year).toNat < fuel →
      yearLoop startYear startQ endYear endQ fuel year quarters =
        some (quarters ++ (List.range (endYear + 1 - year).toNat).flatMap
          (fun (i : Nat) => yearColumns startYear startQ endYear endQ (year + (i : Int)))) := by
  intro fuel
  induction fuel with
  | zero => intro year quarters _ h; omega
  | succ n ih =>
    intro year quarters hyear h
    rw [yearLoop]
    by_cases hy : year ≤ endYear
    · have hn : (endYear + 1 - year).toNat = (endYear + 1 - (year + 1)).toNat + 1 := by omega
      have hend : (if year = endYear then endQ else 4) < maxInt := by
        split_ifs
        · exact heq
        · decide
      have hstart : minInt ≤ (if year = startYear then startQ else 1) := by
        split_ifs
        · exact hsq
        · decide
      rw [if_pos hy]
      simp only []
      rw [quarterLoop_returns year _ hend _ _ quarters hstart (Nat.lt_succ_self _)]
      simp only []
      rw [wrapInt_eq (year + 1) (by omega) (by omega), ih (year + 1) _ (by omega) (by omega), hn,
        List.range_succ_eq_map]
      simp only [List.flatMap_cons, List.flatMap_map, List.append_assoc, Nat.cast_zero,
        add_zero, Function.comp, Nat.cast_succ]
      congr 2
      unfold yearColumns
      congr 1
      apply List.flatMap_congr
      intro i _
      have e : year + 1 + (i : Int) = year + ((i : Int) + 1) := by omega
      rw [e]
    · have h0 : (endYear + 1 - year).toNat = 0 := by omega
      rw [if_neg hy]
      simp [h0]

/-- The outer loop never exits when the end year is the largest `int`: `year++` wraps around
and `year <= endYear` stays true. -/
theorem yearLoop_diverges_year (startYear startQ endYear endQ : Int) (hey : maxInt ≤ endYear) :
    ∀ (fuel : Nat) (year : Int) (quarters : List quarterInfo), year ≤ maxInt →
      yearLoop startYear startQ endYear endQ fuel year quarters = none := by
  intro fuel
  induction fuel with
  | zero => intro year quarters _; rfl
  | succ n ih =>
    intro year quarters hyear
    rw [yearLoop, if_pos (by omega)]
    simp only []
    cases quarterLoop year (if year = endYear then endQ else 4)
        (((if year = endYear then endQ else 4) + 1
          - (if year = startYear then startQ else 1)).toNat + 1)
        (if year = startYear then startQ else 1) quarters with
    | none => rfl
    | some qs => exact ih _ _ (wrapInt_le _)

/-- The loops never exit when the end quarter is the largest `int` and the end year is
reached: `q++` wraps around in the last year and `q <= endQuarter` stays true. -/
theorem yearLoop_diverges_quarter (startYear startQ endYear endQ : Int)
    (hsq : isInt startQ) (hey : endYear < maxInt) (heq : maxInt ≤ endQ) :
    ∀ (fuel : Nat) (year : Int) (quarters : List quarterInfo),
      minInt ≤ year → year ≤ endYear →
      yearLoop startYear startQ endYear endQ fuel year quarters = none := by
  intro fuel
  induction fuel with
  | zero => intro year quarters _ _; rfl
  | succ n ih =>
    intro year quarters hyear hle
    rw [yearLoop, if_pos hle]
    simp only []
    have hstart : isInt (if year = startYear then startQ else 1) := by
      split_ifs
      · exact hsq
      · decide
    by_cases hlast : year = endYear
    · rw [if_pos hlast, quarterLoop_diverges year endQ heq _ _ quarters hstart.2]
    · rw [if_neg hlast, quarterLoop_returns year 4 (by decide) _ _ quarters hstart.1
        (Nat.lt_succ_self _)]
      simp only []
      rw [wrapInt_eq (year + 1) (by omega) (by omega)]
      exact ih _ _ (by omega) (by omega)

theorem yearLoop_mono (startYear startQ endYear endQ : Int) :
    ∀ (fuel : Nat) (year : Int) (quarters r : List quarterInfo),
      yearLoop startYear startQ endYear endQ fuel year quarters = some r →
      ∀ more : Nat, fuel ≤ more →
        yearLoop startYear startQ endYear endQ more year quarters = some r := by
  intro fuel
  induction fuel with
  | zero => intro year quarters r h; simp [yearLoop] at h
  | succ n ih =>
    intro year quarters r h more hmore
    obtain ⟨m, rfl⟩ : ∃ m, more = m + 1 := ⟨more - 1, by omega⟩
    rw [yearLoop] at h ⊢
    by_cases hle : year ≤ endYear
    · rw [if_pos hle] at h ⊢
      simp only [] at h ⊢
      cases hq : quarterLoop year (if year = endYear then endQ else 4)
          (((if year = endYear then endQ else 4) + 1
            - (if year = startYear then startQ else 1)).toNat + 1)
          (if year = startYear then startQ else 1) quarters with
      | none => rw [hq] at h; simp at h
      | some qs =>
        rw [hq] at h
        simp only [] at h ⊢
        exact ih _ _ _ h m (by omega)
    · rw [if_neg hle] at h ⊢
      exact h

/-- The axis of a range whose loops exit: the columns of the years `startYear .. endYear`. -/
theorem calculateQuarters_returns (startYear startQ endYear endQ : Int)
    (hsy : minInt ≤ startYear) (hsq : minInt ≤ startQ) (hey : endYear < maxInt)
    (heq : endQ < maxInt) :
    calculateQuarters startYear startQ endYear endQ =
      some (axisColumns startYear startQ endYear endQ) := by
  unfold calculateQuarters axisColumns
  rw [yearLoop_returns startYear startQ endYear endQ hsq hey heq _ _ _ hsy (Nat.lt_succ_self _)]
  simp

/-- When the end year is before the start year, the outer loop exits at its first test. -/
theorem calculateQuarters_before (startYear startQ endYear endQ : Int)
    (h : endYear < startYear) :
    calculateQuarters startYear startQ endYear endQ = some [] := by
  unfold calculateQuarters
  have h0 : (endYear + 1 - startYear).toNat = 0 := by omega
  rw [h0, yearLoop, if_neg (by omega)]

theorem axisColumns_before (startYear startQ endYear endQ : Int) (h : endYear < startYear) :
    axisColumns startYear startQ endYear endQ = [] := by
  unfold axisColumns
  have h0 : (endYear + 1 - startYear).toNat = 0 := by omega
  rw [h0]
  rfl

/-- `calculateQuarters` does not return when the range is entered and the end year or the
end quarter is the largest `int`: no amount of fuel lets the loops exit. -/
theorem calculateQuarters_diverges (startYear startQ endYear endQ : Int)
    (hsy : isInt startYear) (hsq : isInt startQ) (hle : startYear ≤ endYear)
    (hmax : maxInt ≤ endYear ∨ maxInt ≤ endQ) :
    ∀ fuel : Nat, yearLoop startYear startQ endYear endQ fuel startYear [] = none := by
  intro fuel
  by_cases hey : maxInt ≤ endYear
  · exact yearLoop_diverges_year startYear startQ endYear endQ hey fuel _ _ hsy.2
  · rcases hmax with h | h
    · exact absurd h hey
    · exact yearLoop_diverges_quarter startYear startQ endYear endQ hsq (by omega) h fuel _ _
        hsy.1 hle

/-- The result of `calculateQuarters` on Go `int` arguments: nothing (the call does not
return) when the range is entered and the end year or the end quarter is the largest `int`,
the columns of the years `startYear .. endYear` otherwise. -/
theorem calculateQuarters_eq (startYear startQ endYear endQ : Int)
    (hsy : isInt startYear) (hsq : isInt startQ) (hey : isInt endYear) (heq : isInt endQ) :
    calculateQuarters startYear startQ endYear endQ =
      if startYear ≤ endYear ∧ (endYear = maxInt ∨ endQ = maxInt) then none
      else some (axisColumns startYear startQ endYear endQ) := by
  by_cases hc : startYear ≤ endYear ∧ (endYear = maxInt ∨ endQ = maxInt)
  · rw [if_pos hc]
    exact calculateQuarters_diverges startYear startQ endYear endQ hsy hsq hc.1
      (by rcases hc.2 with h | h <;> [left; right] <;> omega) _
  · rw [if_neg hc]
    by_cases hlt : endYear < startYear
    · rw [calculateQuarters_before _ _ _ _ hlt, axisColumns_before _ _ _ _ hlt]
    · have h1 : endYear ≠ maxInt := fun h => hc ⟨by omega, Or.inl h⟩
      have h2 : endQ ≠ maxInt := fun h => hc ⟨by omega, Or.inr h⟩
      exact calculateQuarters_returns _ _ _ _ hsy.1 hsq.1
        (lt_of_le_of_ne hey.2 h1) (lt_of_le_of_ne heq.2 h2)

/-- The fuel of `calculateQuarters` is enough: on Go `int` arguments the outer loop exits
within some fuel exactly when `calculateQuarters` returns, with the same result. -/
theorem calculateQuarters_adequate (startYear startQ endYear endQ : Int)
    (hsy : isInt startYear) (hsq : isInt startQ) (hey : isInt endYear) (heq : isInt endQ)
    (r : List quarterInfo) :
    (∃ fuel, yearLoop startYear startQ endYear endQ fuel startYear [] = some r) ↔
      calculateQuarters startYear startQ endYear endQ = some r := by
  constructor
  · rintro ⟨fuel, h⟩
    by_cases hc : startYear ≤ endYear ∧ (endYear = maxInt ∨ endQ = maxInt)
    · rw [calculateQuarters_diverges startYear startQ endYear endQ hsy hsq hc.1
        (by rcases hc.2 with h | h <;> [left; right] <;> omega) fuel] at h
      exact absurd h (by simp)
    · have h1 := calculateQuarters_eq startYear startQ endYear endQ hsy hsq hey heq
      rw [if_neg hc] at h1
      have h2 := yearLoop_mono startYear startQ endYear endQ _ _ _ _ h
        (max fuel ((endYear + 1 - startYear).toNat + 1)) (le_max_left _ _)
      have h3 := yearLoop_mono startYear startQ endYear endQ _ _ _ _ h1
        (max fuel ((endYear + 1 - startYear).toNat + 1)) (le_max_right _ _)
      rw [h2] at h3
      rw [h1, ← h3]
  · intro h
    exact ⟨_, h⟩

theorem columnOf_linear (y q : Int) (h1 : 1 ≤ q) (h4 : q ≤ 4) :
    columnOf (4 * y + (q - 1)) = { year := y, quarter := q } := by
  unfold columnOf
  congr 1 <;> omega

theorem yearColumns_later_closed (startYear startQ endYear endQ y : Int)
    (heq1 : 1 ≤ endQ) (heq4 : endQ ≤ 4) (hy : startYear < y) :
    yearColumns startYear startQ endYear endQ y =
      (List.range (if y = endYear then endQ else 4).toNat).map
        (fun (k : Nat) => columnOf (4 * y + (k : Int))) := by
  unfold yearColumns
  have hne : ¬ y = startYear := by omega
  simp only [if_neg hne]
  have hlen : ((if y = endYear then endQ else 4) + 1 - 1).toNat
      = (if y = endYear then endQ else 4).toNat := by
    congr 1; omega
  rw [hlen]
  apply List.map_congr_left
  intro k hk
  have hk4 : (k : Int) < 4 := by
    have := List.mem_range.mp hk
    split_ifs at this <;> omega
  rw [← columnOf_linear y (1 + (k : Int)) (by omega) (by omega)]
  congr 1
  omega

theorem laterYears_closed (startYear startQ endYear endQ : Int)
    (heq1 : 1 ≤ endQ) (heq4 : endQ ≤ 4) :
    ∀ (m : Nat) (y : Int), startYear < y → (endYear + 1 - y).toNat = m →
      (List.range m).flatMap
          (fun (i : Nat) => yearColumns startYear startQ endYear endQ (y + (i : Int))) =
        (List.range ((endYear - y) * 4 + endQ).toNat).map
          (fun (k : Nat) => columnOf (4 * y + (k : Int))) := by
  intro m
  induction m with
  | zero =>
    intro y _ hm
    have h0 : ((endYear - y) * 4 + endQ).toNat = 0 := by omega
    simp [h0]
  | succ n ih =>
    intro y hy hm
    rw [List.range_succ_eq_map]
    simp only [List.flatMap_cons, List.flatMap_map, Nat.cast_zero, add_zero, Function.comp,
      Nat.cast_succ]
    have hfun : (fun (i : Nat) => yearColumns startYear startQ endYear endQ (y + ((i : Int) + 1)))
        = (fun (i : Nat) => yearColumns startYear startQ endYear endQ (y + 1 + (i : Int))) := by
      funext i
      congr 1
      omega
    rw [hfun, ih (y + 1) (by omega) (by omega),
      yearColumns_later_closed _ _ _ _ _ heq1 heq4 hy]
    by_cases hlast : y = endYear
    · have h0 : ((endYear - (y + 1)) * 4 + endQ).toNat = 0 := by omega
      have h1 : ((endYear - y) * 4 + endQ).toNat = endQ.toNat := by
        congr 1; omega
      rw [if_pos hlast, h0, h1]
      simp
    · have hsplit : ((endYear - y) * 4 + endQ).toNat
          = 4 + ((endYear - (y + 1)) * 4 + endQ).toNat := by omega
      rw [if_neg hlast, hsplit, List.range_add, List.map_append, List.map_map]
      congr 1
      apply List.map_congr_left
      intro k _
      simp only [Function.comp]
      congr 1
      push_cast
      omega

/-- Closed form of the axis of a valid range: column `k` is the `k`-th quarter after the start. -/
theorem axisColumns_closed (startYear startQ endYear endQ : Int)
    (hsq1 : 1 ≤ startQ) (hsq4 : startQ ≤ 4) (heq1 : 1 ≤ endQ) (heq4 : endQ ≤ 4)
    (hle : pairLe startYear startQ endYear endQ) :
    axisColumns startYear startQ endYear endQ =
      (List.range ((endYear - startYear) * 4 + (endQ - startQ) + 1).toNat).map
        (fun (k : Nat) => columnOf (4 * startYear + (startQ - 1) + (k : Int))) := by
  unfold axisColumns
  have hn : (endYear + 1 - startYear).toNat = (endYear - startYear).toNat + 1 := by
    unfold pairLe at hle; omega
  rw [hn, List.range_succ_eq_map]
  simp only [List.flatMap_cons, List.flatMap_map, Nat.cast_zero, add_zero, Function.comp,
    Nat.cast_succ]
  have hfun : (fun (i : Nat) =>
        yearColumns startYear startQ endYear endQ (startYear + ((i : Int) + 1)))
      = (fun (i : Nat) =>
        yearColumns startYear startQ endYear endQ (startYear + 1 + (i : Int))) := by
    funext i
    congr 1
    omega
  have hfirst : yearColumns startYear startQ endYear endQ startYear =
      (List.range ((if startYear = endYear then endQ else 4) + 1 - startQ).toNat).map
        (fun (k : Nat) => columnOf (4 * startYear + (startQ - 1) + (k : Int))) := by
    unfold yearColumns
    simp only [if_true]
    apply List.map_congr_left
    intro k hk
    have hk4 : startQ + (k : Int) ≤ 4 := by
      have := List.mem_range.mp hk
      split_ifs at this <;> omega
    rw [← columnOf_linear startYear (startQ + (k : Int)) (by omega) hk4]
    congr 1
    omega
  rw [hfun, laterYears_closed startYear startQ endYear endQ heq1 heq4 _ (startYear + 1)
    (by omega) (by omega), hfirst]
  by_cases hsame : startYear = endYear
  · have h0 : ((endYear - (startYear + 1)) * 4 + endQ).toNat = 0 := by omega
    have h1 : ((endYear - startYear) * 4 + (endQ - startQ) + 1).toNat
        = (endQ + 1 - startQ).toNat := by
      congr 1; omega
    rw [if_pos hsame, h0, h1]
    simp
  · have hlt : startYear < endYear := by unfold pairLe at hle; omega
    have hsplit : ((endYear - startYear) * 4 + (endQ - startQ) + 1).toNat
        = (4 + 1 - startQ).toNat + ((endYear - (startYear + 1)) * 4 + endQ).toNat := by omega
    rw [if_neg hsame, hsplit, List.range_add, List.map_append, List.map_map]
    congr 1
    apply List.map_congr_left
    intro k _
    simp only [Function.comp]
    congr 1
    push_cast
    omega

theorem mem_yearColumns_year (startYear startQ endYear endQ y : Int) (x : quarterInfo)
    (hx : x ∈ yearColumns startYear startQ endYear endQ y) : x.year = y := by
  unfold yearColumns at hx
  obtain ⟨k, _, rfl⟩ := List.mem_map.mp hx
  rfl

theorem yearColumns_pairwise (startYear startQ endYear endQ y : Int) :
    List.Pairwise quarterInfo.lt (yearColumns startYear startQ endYear endQ y) := by
  unfold yearColumns
  rw [List.pairwise_map]
  refine (List.pairwise_lt_range _).imp ?_
  intro a b hab
  right
  exact ⟨rfl, by simp only; omega⟩

theorem axisColumns_pairwise (startYear startQ endYear endQ : Int) :
    List.Pairwise quarterInfo.lt (axisColumns startYear startQ endYear endQ) := by
  unfold axisColumns
  rw [List.pairwise_flatMap]
  refine ⟨fun a _ => yearColumns_pairwise _ _ _ _ _, ?_⟩
  refine (List.pairwise_lt_range _).imp ?_
  intro a b hab x hx z hz
  left
  rw [mem_yearColumns_year _ _ _ _ _ x hx, mem_yearColumns_year _ _ _ _ _ z hz]
  omega

theorem quarterInfo.lt_irrefl (a : quarterInfo) : ¬ quarterInfo.lt a a := by
  unfold quarterInfo.lt
  omega

theorem findQuarterIndexFrom_absent (year quarter : Int) :
    ∀ (l : List quarterInfo) (i : Nat),
      (∀ x ∈ l, ¬ (x.year = year ∧ x.quarter = quarter)) →
      findQuarterIndexFrom year quarter i l = -1 := by
  intro l
  induction l with
  | nil => intro i _; rfl
  | cons a t ih =>
    intro i h
    rw [findQuarterIndexFrom, if_neg (h a (List.mem_cons_self _ _))]
    exact ih (i + 1) (fun x hx => h x (List.mem_cons_of_mem _ hx))

theorem findQuarterIndexFrom_first (year quarter : Int) :
    ∀ (l : List quarterInfo) (i k : Nat),
      l[k]? = some { year := year, quarter := quarter } →
      (∀ j, j < k → l[j]? ≠ some { year := year, quarter := quarter }) →
      findQuarterIndexFrom year quarter i l = (i : Int) + (k : Int) := by
  intro l
  induction l with
  | nil => intro i k h; simp at h
  | cons a t ih =>
    intro i k h hfirst
    rw [findQuarterIndexFrom]
    cases k with
    | zero =>
      simp only [List.getElem?_cons_zero, Option.some.injEq] at h
      subst h
      simp
    | succ k =>
      have ha : ¬ (a.year = year ∧ a.quarter = quarter) := by
        intro hc
        apply hfirst 0 (Nat.succ_pos k)
        obtain ⟨ay, aq⟩ := a
        simp only at hc
        simp [hc.1, hc.2]
      rw [if_neg ha, ih (i + 1) k (by simpa using h)
        (fun j hj => by simpa using hfirst (j + 1) (Nat.succ_lt_succ hj))]
      push_cast
      omega

theorem axisColumns_getElem? (startYear startQ endYear endQ : Int)
    (hsq1 : 1 ≤ startQ) (hsq4 : startQ ≤ 4) (heq1 : 1 ≤ endQ) (heq4 : endQ ≤ 4)
    (hle : pairLe startYear startQ endYear endQ) (i : Nat) (y q : Int) :
    (axisColumns startYear startQ endYear endQ)[i]? = some { year := y, quarter := q } ↔
      ((i : Int) < (endYear - startYear) * 4 + (endQ - startQ) + 1 ∧
        (4 * startYear + (startQ - 1) + (i : Int)) / 4 = y ∧
        (4 * startYear + (startQ - 1) + (i : Int)) % 4 + 1 = q) := by
  rw [axisColumns_closed _ _ _ _ hsq1 hsq4 heq1 heq4 hle, List.getElem?_map]
  by_cases hi : i < ((endYear - startYear) * 4 + (endQ - startQ) + 1).toNat
  · rw [List.getElem?_range hi]
    simp only [Option.map_some', Option.some.injEq, columnOf, quarterInfo.mk.injEq]
    constructor
    · rintro ⟨h1, h2⟩
      exact ⟨by omega, h1, h2⟩
    · rintro ⟨_, h1, h2⟩
      exact ⟨h1, h2⟩
  · rw [List.getElem?_eq_none (by simpa using hi)]
    simp only [Option.map_none']
    constructor
    · intro h
      exact absurd h (by simp)
    · rintro ⟨h, _, _⟩
      omega

/-- The columns of a valid range: `(endYear-startYear)*4 + (endQ-startQ) + 1` of them. -/
theorem axisColumns_length (startYear startQ endYear endQ : Int)
    (hsq1 : 1 ≤ startQ) (hsq4 : startQ ≤ 4) (heq1 : 1 ≤ endQ) (heq4 : endQ ≤ 4)
    (hle : pairLe startYear startQ endYear endQ) :
    ((axisColumns startYear startQ endYear endQ).length : Int) =
      (endYear - startYear) * 4 + (endQ - startQ) + 1 := by
  rw [axisColumns_closed _ _ _ _ hsq1 hsq4 heq1 heq4 hle, List.length_map, List.length_range]
  unfold pairLe at hle
  omega

/-- The columns of an inverted range: none. -/
theorem axisColumns_inverted (startYear startQ endYear endQ : Int)
    (hinv : endYear < startYear ∨ (endYear = startYear ∧ endQ < startQ)) :
    axisColumns startYear startQ endYear endQ = [] := by
  unfold axisColumns
  rw [List.flatMap_eq_nil_iff]
  intro i hi
  have hi2 := List.mem_range.mp hi
  unfold yearColumns
  rcases hinv with h | ⟨h1, h2⟩
  · omega
  · have hi0 : i = 0 := by omega
    subst hi0
    have h0 : ((if startYear + ((0 : Nat) : Int) = endYear then endQ else 4) + 1
        - (if startYear + ((0 : Nat) : Int) = startYear then startQ else 1)).toNat = 0 := by
      simp only [Nat.cast_zero, add_zero, if_true, if_pos h1.symm]
      omega
    rw [h0]
    rfl

/-- On the columns of a valid range, a pair `(y, q)` with `q` in 1..4 lying between the start
and the end has index `(y-sy)*4 + (q-sq)`, and that is the only position holding it; every
other pair yields the not-found signal `-1`. -/
theorem findQuarterIndex_axisColumns (sy sq ey eq y q : Int)
    (hsq1 : 1 ≤ sq) (hsq4 : sq ≤ 4) (heq1 : 1 ≤ eq) (heq4 : eq ≤ 4)
    (hle : pairLe sy sq ey eq) :
    ((1 ≤ q ∧ q ≤ 4 ∧ pairLe sy sq y q ∧ pairLe y q ey eq) →
        findQuarterIndex (axisColumns sy sq ey eq) y q = (y - sy) * 4 + (q - sq) ∧
        ∀ i : Nat, (axisColumns sy sq ey eq)[i]? = some { year := y, quarter := q } ↔
          (i : Int) = (y - sy) * 4 + (q - sq)) ∧
    (¬ (1 ≤ q ∧ q ≤ 4 ∧ pairLe sy sq y q ∧ pairLe y q ey eq) →
        findQuarterIndex (axisColumns sy sq ey eq) y q = -1) := by
  have hget := axisColumns_getElem? sy sq ey eq hsq1 hsq4 heq1 heq4 hle
  constructor
  · rintro ⟨hq1, hq4, hlo, hhi⟩
    unfold pairLe at hlo hhi hle
    have hpos : ∀ i : Nat, (axisColumns sy sq ey eq)[i]? = some { year := y, quarter := q } ↔
        (i : Int) = (y - sy) * 4 + (q - sq) := by
      intro i
      rw [hget]
      constructor
      · rintro ⟨_, h1, h2⟩
        omega
      · intro h
        refine ⟨by omega, by omega, by omega⟩
    refine ⟨?_, hpos⟩
    have hk : ((((y - sy) * 4 + (q - sq)).toNat : Nat) : Int) = (y - sy) * 4 + (q - sq) := by
      omega
    unfold findQuarterIndex
    rw [findQuarterIndexFrom_first y q _ 0 ((y - sy) * 4 + (q - sq)).toNat
      ((hpos _).mpr hk) (fun j hj hc => by
        have := (hpos j).mp hc
        omega)]
    omega
  · intro hout
    unfold findQuarterIndex
    apply findQuarterIndexFrom_absent
    intro x hx hc
    obtain ⟨i, hi⟩ := List.getElem?_of_mem hx
    obtain ⟨xy, xq⟩ := x
    simp only at hc
    rw [hc.1, hc.2, hget] at hi
    apply hout
    unfold pairLe at hle ⊢
    omega

/-- The sample axis is what `calculateQuarters` returns for 2024Q1..2024Q4. -/
theorem calculateQuarters_sample : calculateQuarters 2024 1 2024 4 = some sampleAxis := by
  decide

/-! ### The quarter calculator: the claims -/

/-- C1: `calculateQuarters(MaxInt64, 1, MaxInt64, 1)` is a valid range of one column, yet the
call does not return: after the year `MaxInt64` the increment `year++` wraps around to
`MinInt64`, so the test `year <= endYear` never fails, whatever the fuel. The same holds for
every valid range of Go `int` values that ends in the year `MaxInt64`. For every other valid
range (quarters in 1..4, start ≤ end lexicographically) `calculateQuarters` returns exactly
`(endYear-startYear)*4 + (endQ-startQ) + 1` columns. -/
theorem calculateQuarters_length :
    pairLe maxInt 1 maxInt 1 ∧
      (∀ fuel : Nat, yearLoop maxInt 1 maxInt 1 fuel maxInt [] = none) ∧
      calculateQuarters maxInt 1 maxInt 1 = none ∧
      (∀ startYear startQ endYear endQ : Int, isInt startYear → isInt endYear →
        1 ≤ startQ → startQ ≤ 4 → 1 ≤ endQ → endQ ≤ 4 →
        pairLe startYear startQ endYear endQ →
        (endYear = maxInt → calculateQuarters startYear startQ endYear endQ = none) ∧
        (endYear ≠ maxInt → ∃ axis : List quarterInfo,
          calculateQuarters startYear startQ endYear endQ = some axis ∧
          (axis.length : Int) = (endYear - startYear) * 4 + (endQ - startQ) + 1)) := by
  refine ⟨by decide, ?_, by decide, ?_⟩
  · intro fuel
    exact yearLoop_diverges_year maxInt 1 maxInt 1 (le_refl _) fuel _ _ (le_refl _)
  · intro startYear startQ endYear endQ hsy hey hsq1 hsq4 heq1 heq4 hle
    have hsq : isInt startQ := by
      unfold isInt minInt maxInt
      omega
    have hyears : startYear ≤ endYear := by
      unfold pairLe at hle
      omega
    constructor
    · intro hmax
      exact calculateQuarters_diverges startYear startQ endYear endQ hsy hsq hyears
        (Or.inl (by omega)) _
    · intro hmax
      refine ⟨axisColumns startYear startQ endYear endQ, ?_, ?_⟩
      · exact calculateQuarters_returns _ _ _ _ hsy.1 hsq.1 (lt_of_le_of_ne hey.2 hmax)
          (by unfold maxInt; omega)
      · exact axisColumns_length _ _ _ _ hsq1 hsq4 heq1 heq4 hle

/-- C2: for all Go `int` arguments, valid or not, every sequence `calculateQuarters` returns
is strictly increasing in the lexicographic order on (year, quarter): for all positions
`i < j` the column at `i` is below the column at `j`; in particular no column occurs twice.
The call returns a sequence unless the range is entered (`startYear ≤ endYear`) and the end
year or the end quarter is `MaxInt64`. -/
theorem calculateQuarters_strictly_increasing (startYear startQ endYear endQ : Int)
    (hsy : isInt startYear) (hsq : isInt startQ) (hey : isInt endYear) (heq : isInt endQ) :
    (calculateQuarters startYear startQ endYear endQ = none ↔
        startYear ≤ endYear ∧ (endYear = maxInt ∨ endQ = maxInt)) ∧
      ∀ axis : List quarterInfo, calculateQuarters startYear startQ endYear endQ = some axis →
        (∀ (i j : Fin axis.length), i < j → quarterInfo.lt (axis.get i) (axis.get j)) ∧
        List.Pairwise quarterInfo.lt axis ∧ axis.Nodup := by
  have hcq := calculateQuarters_eq startYear startQ endYear endQ hsy hsq hey heq
  constructor
  · rw [hcq]
    by_cases hc : startYear ≤ endYear ∧ (endYear = maxInt ∨ endQ = maxInt)
    · simp only [if_pos hc, true_iff]
      exact hc
    · simp only [if_neg hc, false_iff]
      constructor
      · intro h
        exact absurd h (by simp)
      · intro h
        exact absurd h hc
  · intro axis haxis
    have hax : axis = axisColumns startYear startQ endYear endQ := by
      rw [hcq] at haxis
      by_cases hc : startYear ≤ endYear ∧ (endYear = maxInt ∨ endQ = maxInt)
      · rw [if_pos hc] at haxis
        exact absurd haxis (by simp)
      · rw [if_neg hc] at haxis
        exact (Option.some.inj haxis).symm
    have hp : List.Pairwise quarterInfo.lt axis := by
      rw [hax]
      exact axisColumns_pairwise startYear startQ endYear endQ
    refine ⟨fun i j hij => List.pairwise_iff_get.mp hp i j hij, hp, ?_⟩
    refine hp.imp ?_
    intro a b hab heq
    subst heq
    exact quarterInfo.lt_irrefl a hab

/-- Witness of C2: `calculateQuarters(2023, 3, 2024, 2)` returns 2023Q3, 2023Q4, 2024Q1,
2024Q2, and the column at position 1 (2023Q4) is below the column at position 2 (2024Q1). -/
theorem calculateQuarters_strictly_increasing_witness :
    calculateQuarters 2023 3 2024 2 =
        some [{ year := 2023, quarter := 3 }, { year := 2023, quarter := 4 },
          { year := 2024, quarter := 1 }, { year := 2024, quarter := 2 }] ∧
      quarterInfo.lt { year := 2023, quarter := 4 } { year := 2024, quarter := 1 } :=
  ⟨by decide,
    ((calculateQuarters_strictly_increasing 2023 3 2024 2 (by decide) (by decide) (by decide)
      (by decide)).2
        [{ year := 2023, quarter := 3 }, { year := 2023, quarter := 4 },
          { year := 2024, quarter := 1 }, { year := 2024, quarter := 2 }]
        (by decide)).1 ⟨1, by decide⟩ ⟨2, by decide⟩ (by decide)⟩

/-- C3: let `axis` be the sequence `calculateQuarters` returns for a valid range of Go `int`
years (it returns one whenever the end year is below `MaxInt64`). A pair `(y, q)` with `q` in
1..4 lying between the start and the end has index `(y-sy)*4 + (q-sq)`, and that is the only
position of `axis` holding it; every other pair yields the not-found signal `-1`. -/
theorem findQuarterIndex_on_axis (sy sq ey eq y q : Int) (hsy : isInt sy) (hey : isInt ey)
    (hsq1 : 1 ≤ sq) (hsq4 : sq ≤ 4) (heq1 : 1 ≤ eq) (heq4 : eq ≤ 4)
    (hle : pairLe sy sq ey eq) :
    (ey ≠ maxInt → ∃ axis : List quarterInfo, calculateQuarters sy sq ey eq = some axis) ∧
      ∀ axis : List quarterInfo, calculateQuarters sy sq ey eq = some axis →
        ((1 ≤ q ∧ q ≤ 4 ∧ pairLe sy sq y q ∧ pairLe y q ey eq) →
            findQuarterIndex axis y q = (y - sy) * 4 + (q - sq) ∧
            ∀ i : Nat, axis[i]? = some { year := y, quarter := q } ↔
              (i : Int) = (y - sy) * 4 + (q - sq)) ∧
        (¬ (1 ≤ q ∧ q ≤ 4 ∧ pairLe sy sq y q ∧ pairLe y q ey eq) →
            findQuarterIndex axis y q = -1) := by
  have hsq : isInt sq := by
    unfold isInt minInt maxInt
    omega
  have heq : isInt eq := by
    unfold isInt minInt maxInt
    omega
  have hcq := calculateQuarters_eq sy sq ey eq hsy hsq hey heq
  have hq : eq ≠ maxInt := by
    unfold maxInt
    omega
  constructor
  · intro hmax
    refine ⟨axisColumns sy sq ey eq, ?_⟩
    rw [hcq, if_neg]
    rintro ⟨_, h | h⟩
    · exact hmax h
    · exact hq h
  · intro axis haxis
    have hax : axis = axisColumns sy sq ey eq := by
      rw [hcq] at haxis
      by_cases hc : sy ≤ ey ∧ (ey = maxInt ∨ eq = maxInt)
      · rw [if_pos hc] at haxis
        exact absurd haxis (by simp)
      · rw [if_neg hc] at haxis
        exact (Option.some.inj haxis).symm
    rw [hax]
    exact findQuarterIndex_axisColumns sy sq ey eq y q hsq1 hsq4 heq1 heq4 hle

/-- Witness of C3: `calculateQuarters(2024, 1, 2024, 4)` returns the axis 2024Q1..2024Q4, on
which 2024Q2 has index 1 and 2024Q3 has index 2, and 2025Q1, which is off the axis, is not
found. -/
theorem findQuarterIndex_on_axis_witness :
    calculateQuarters 2024 1 2024 4 = some sampleAxis ∧
      findQuarterIndex sampleAxis 2024 2 = 1 ∧
      findQuarterIndex sampleAxis 2024 3 = 2 ∧
      findQuarterIndex sampleAxis 2025 1 = -1 :=
  ⟨by decide,
    ((((findQuarterIndex_on_axis 2024 1 2024 4 2024 2 (by decide) (by decide) (by decide)
      (by decide) (by decide) (by decide) (by decide)).2 sampleAxis (by decide)).1
        (by decide)).1).trans (by decide),
    ((((findQuarterIndex_on_axis 2024 1 2024 4 2024 3 (by decide) (by decide) (by decide)
      (by decide) (by decide) (by decide) (by decide)).2 sampleAxis (by decide)).1
        (by decide)).1).trans (by decide),
    ((findQuarterIndex_on_axis 2024 1 2024 4 2025 1 (by decide) (by decide) (by decide)
      (by decide) (by decide) (by decide) (by decide)).2 sampleAxis (by decide)).2 (by decide)⟩

/-- C4: `calculateQuarters(MaxInt64, 2, MaxInt64, 1)` is an inverted range (end quarter
before start quarter in the same year), yet the call does not return the empty sequence: the
inner loop is skipped, `year++` wraps around to `MinInt64`, and the outer loop then appends
the four quarters of every year without end, whatever the fuel. The same holds for every
inverted range of Go `int` values within the year `MaxInt64`. For every other inverted range
(end before start in lexicographic order) `calculateQuarters` returns the empty sequence. -/
theorem calculateQuarters_inverted :
    (∀ fuel : Nat, yearLoop maxInt 2 maxInt 1 fuel maxInt [] = none) ∧
      calculateQuarters maxInt 2 maxInt 1 = none ∧
      (∀ startYear startQ endYear endQ : Int,
        isInt startYear → isInt startQ → isInt endYear → isInt endQ →
        (endYear < startYear ∨ (endYear = startYear ∧ endQ < startQ)) →
        (startYear = maxInt ∧ endYear = maxInt →
          calculateQuarters startYear startQ endYear endQ = none) ∧
        (¬ (startYear = maxInt ∧ endYear = maxInt) →
          calculateQuarters startYear startQ endYear endQ = some [])) := by
  refine ⟨?_, by decide, ?_⟩
  · intro fuel
    exact yearLoop_diverges_year maxInt 2 maxInt 1 (le_refl _) fuel _ _ (le_refl _)
  · intro startYear startQ endYear endQ hsy hsq hey heq hinv
    have hcq := calculateQuarters_eq startYear startQ endYear endQ hsy hsq hey heq
    constructor
    · rintro ⟨h1, h2⟩
      rw [hcq, if_pos ⟨by omega, Or.inl h2⟩]
    · intro hne
      rw [hcq, if_neg, axisColumns_inverted _ _ _ _ hinv]
      rintro ⟨hle, h | h⟩
      · exact hne ⟨by omega, h⟩
      · have := hsq.2
        omega

/-! ### The text wrapper: strings, `strings.Fields` and `strings.Join` -/

theorem len_append (a b : GoString) : len (a ++ b) = len a + len b := by
  simp [len]

theorem len_nonneg (a : GoString) : 0 ≤ len a := by
  unfold len
  exact Nat.cast_nonneg _

theorem len_space : len [' '] = 1 := by decide

theorem isSpace_space : isSpace ' ' = true := by decide

theorem fieldsLoop_isWord :
    ∀ (s field : GoString), (∀ c ∈ field, isSpace c = false) →
      ∀ w ∈ fieldsLoop s field, isWord w := by
  intro s
  induction s with
  | nil =>
    intro field hf w hw
    unfold fieldsLoop at hw
    split_ifs at hw with h
    · simp at hw
    · simp only [List.mem_singleton] at hw
      subst hw
      exact ⟨h, hf⟩
  | cons c rest ih =>
    intro field hf w hw
    unfold fieldsLoop at hw
    split_ifs at hw with hc h
    · exact ih [] (by simp) w hw
    · rcases List.mem_cons.mp hw with hw | hw
      · subst hw
        exact ⟨h, hf⟩
      · exact ih [] (by simp) w hw
    · refine ih (field ++ [c]) ?_ w hw
      intro d hd
      rcases List.mem_append.mp hd with hd | hd
      · exact hf d hd
      · simp only [List.mem_singleton] at hd
        subst hd
        simpa using hc

/-- Every word returned by `strings.Fields` is non-empty and free of white space. -/
theorem Fields_isWord (s : GoString) : ∀ w ∈ Fields s, isWord w :=
  fieldsLoop_isWord s [] (by simp)

theorem fieldsLoop_word_append :
    ∀ (w : GoString), (∀ c ∈ w, isSpace c = false) →
      ∀ (rest field : GoString), fieldsLoop (w ++ rest) field = fieldsLoop rest (field ++ w) := by
  intro w
  induction w with
  | nil => intro _ rest field; simp
  | cons c t ih =>
    intro hw rest field
    have hc : isSpace c = false := hw c (List.mem_cons_self _ _)
    rw [List.cons_append, fieldsLoop]
    simp only [hc, Bool.false_eq_true, if_false]
    rw [ih (fun d hd => hw d (List.mem_cons_of_mem _ hd))]
    simp

theorem Fields_word (w : GoString) (hw : isWord w) : Fields w = [w] := by
  have h := fieldsLoop_word_append w hw.2 [] []
  simp only [List.append_nil, List.nil_append] at h
  unfold Fields
  rw [h, fieldsLoop, if_neg hw.1]

theorem Fields_word_space (w rest : GoString) (hw : isWord w) :
    Fields (w ++ [' '] ++ rest) = w :: Fields rest := by
  unfold Fields
  rw [List.append_assoc, fieldsLoop_word_append w hw.2, List.nil_append, List.singleton_append,
    fieldsLoop, if_pos isSpace_space, if_neg hw.1]

theorem Join_cons (a : GoString) (l : List GoString) (sep : GoString) (hl : l ≠ []) :
    Join (a :: l) sep = a ++ sep ++ Join l sep := by
  cases l with
  | nil => exact absurd rfl hl
  | cons b t => rfl

theorem Join_snoc (sep : GoString) :
    ∀ (l : List GoString) (b : GoString), l ≠ [] → Join (l ++ [b]) sep = Join l sep ++ sep ++ b := by
  intro l
  induction l with
  | nil => intro b h; exact absurd rfl h
  | cons a t ih =>
    intro b _
    cases t with
    | nil => simp [Join]
    | cons c t =>
      rw [List.cons_append, Join_cons a _ sep (by simp), ih b (by simp),
        Join_cons a (c :: t) sep (by simp)]
      simp [List.append_assoc]

theorem Join_merge (sep a b : GoString) (B : List GoString) :
    ∀ (A : List GoString), Join (A ++ (a ++ sep ++ b) :: B) sep = Join (A ++ a :: b :: B) sep := by
  intro A
  induction A with
  | nil =>
    cases B with
    | nil => simp [Join]
    | cons c t => simp [Join, List.append_assoc]
  | cons x t ih =>
    rw [List.cons_append, List.cons_append, Join_cons _ _ _ (by simp), Join_cons _ _ _ (by simp),
      ih]

theorem Join_ne_nil (sep : GoString) (g : List GoString) (hg : ∀ w ∈ g, isWord w)
    (hne : g ≠ []) : Join g sep ≠ [] := by
  cases g with
  | nil => exact absurd rfl hne
  | cons a t =>
    have ha : a ≠ [] := (hg a (List.mem_cons_self _ _)).1
    cases t with
    | nil => simpa [Join] using ha
    | cons b t => simp [Join, ha]

theorem Fields_Join :
    ∀ (g : List GoString), (∀ w ∈ g, isWord w) → Fields (Join g [' ']) = g := by
  intro g
  induction g with
  | nil => intro _; rfl
  | cons a t ih =>
    intro hg
    have ha := hg a (List.mem_cons_self _ _)
    cases t with
    | nil => simpa [Join] using Fields_word a ha
    | cons b t =>
      rw [Join_cons _ _ _ (by simp), Fields_word_space _ _ ha,
        ih (fun w hw => hg w (List.mem_cons_of_mem _ hw))]

/-! ### The text wrapper: the loop of `wrapText` -/

theorem wrapLoop_nil_empty (n : Int) (lines : List GoString) :
    wrapLoop n [] [] lines = lines := by
  simp [wrapLoop]

theorem wrapLoop_nil_line (n : Int) (line : GoString) (lines : List GoString)
    (hl : line ≠ []) : wrapLoop n [] line lines = lines ++ [line] := by
  simp [wrapLoop, hl]

theorem wrapLoop_cons_empty (n : Int) (w : GoString) (parts lines : List GoString) :
    wrapLoop n (w :: parts) [] lines = wrapLoop n parts w lines := by
  rw [wrapLoop]
  split_ifs <;> first | rfl | contradiction

theorem wrapLoop_cons_fit (n : Int) (w line : GoString) (parts lines : List GoString)
    (hl : line ≠ []) (hfit : len (line ++ [' '] ++ w) ≤ n) :
    wrapLoop n (w :: parts) line lines = wrapLoop n parts (line ++ [' '] ++ w) lines := by
  rw [wrapLoop, if_pos hfit, if_neg hl]

theorem wrapLoop_cons_nofit (n : Int) (w line : GoString) (parts lines : List GoString)
    (hl : line ≠ []) (hfit : ¬ len (line ++ [' '] ++ w) ≤ n) :
    wrapLoop n (w :: parts) line lines = wrapLoop n parts w (lines ++ [line]) := by
  rw [wrapLoop, if_neg hfit, if_pos hl]

theorem wrapLoop_Join (n : Int) :
    ∀ (parts : List GoString) (line : GoString) (lines : List GoString),
      (∀ w ∈ parts, w ≠ []) →
      Join (wrapLoop n parts line lines) [' '] =
        Join (lines ++ (if line = [] then [] else [line]) ++ parts) [' '] := by
  intro parts
  induction parts with
  | nil =>
    intro line lines _
    by_cases hl : line = []
    · subst hl
      simp [wrapLoop_nil_empty]
    · simp [wrapLoop_nil_line n line lines hl, hl]
  | cons w parts ih =>
    intro line lines hw
    have hw0 : w ≠ [] := hw w (List.mem_cons_self _ _)
    have hparts : ∀ v ∈ parts, v ≠ [] := fun v hv => hw v (List.mem_cons_of_mem _ hv)
    by_cases hl : line = []
    · subst hl
      rw [wrapLoop_cons_empty, ih w lines hparts]
      simp [hw0]
    · by_cases hfit : len (line ++ [' '] ++ w) ≤ n
      · rw [wrapLoop_cons_fit n w line parts lines hl hfit, ih _ lines hparts]
        have hne : line ++ [' '] ++ w ≠ [] := by simp
        simp only [if_neg hne, if_neg hl, List.append_assoc, List.singleton_append]
        have := Join_merge [' '] line w parts lines
        simpa [List.append_assoc] using this
      · rw [wrapLoop_cons_nofit n w line parts lines hl hfit, ih w _ hparts]
        simp [hw0, hl]

theorem wrapLoop_Fields (n : Int) :
    ∀ (parts : List GoString) (line : GoString) (lines g : List GoString),
      (∀ w ∈ parts, isWord w) → (∀ w ∈ g, isWord w) → line = Join g [' '] →
      (wrapLoop n parts line lines).flatMap Fields = lines.flatMap Fields ++ g ++ parts := by
  intro parts
  induction parts with
  | nil =>
    intro line lines g _ hg hline
    by_cases hl : line = []
    · have hg0 : g = [] := by
        by_contra hne
        exact Join_ne_nil [' '] g hg hne (hline ▸ hl)
      subst hl
      simp [wrapLoop_nil_empty, hg0]
    · rw [wrapLoop_nil_line n line lines hl, List.flatMap_append, hline]
      simp [Fields_Join g hg]
  | cons w parts ih =>
    intro line lines g hw hg hline
    have hw0 : isWord w := hw w (List.mem_cons_self _ _)
    have hparts : ∀ v ∈ parts, isWord v := fun v hv => hw v (List.mem_cons_of_mem _ hv)
    have hw1 : ∀ v ∈ [w], isWord v := by
      intro v hv
      simp only [List.mem_singleton] at hv
      exact hv ▸ hw0
    by_cases hl : line = []
    · have hg0 : g = [] := by
        by_contra hne
        exact Join_ne_nil [' '] g hg hne (hline ▸ hl)
      subst hl
      rw [wrapLoop_cons_empty, ih w lines [w] hparts hw1 rfl]
      simp [hg0]
    · have hgne : g ≠ [] := by
        intro h0
        apply hl
        rw [hline, h0]
        rfl
      by_cases hfit : len (line ++ [' '] ++ w) ≤ n
      · rw [wrapLoop_cons_fit n w line parts lines hl hfit,
          ih _ lines (g ++ [w]) hparts
            (fun v hv => (List.mem_append.mp hv).elim (hg v) (hw1 v))
            (by rw [Join_snoc [' '] g w hgne, hline])]
        simp [List.append_assoc]
      · rw [wrapLoop_cons_nofit n w line parts lines hl hfit, ih w _ [w] hparts hw1 rfl,
          List.flatMap_append, hline]
        simp [Fields_Join g hg, List.append_assoc]

/-- Every line the loop produces satisfies `P`, when `P` holds for the lines already flushed,
for the current line, for every word starting a line and for every extension that fits. -/
theorem wrapLoop_forall (n : Int) (P : GoString → Prop) :
    ∀ (parts : List GoString) (line : GoString) (lines : List GoString),
      (∀ w ∈ parts, P w) → (∀ l ∈ lines, P l) → (line ≠ [] → P line) →
      (∀ (l w : GoString), l ≠ [] → P l → w ∈ parts → len (l ++ [' '] ++ w) ≤ n →
        P (l ++ [' '] ++ w)) →
      ∀ l ∈ wrapLoop n parts line lines, P l := by
  intro parts
  induction parts with
  | nil =>
    intro line lines _ hlines hline _ l hl
    by_cases h0 : line = []
    · subst h0
      rw [wrapLoop_nil_empty] at hl
      exact hlines l hl
    · rw [wrapLoop_nil_line n line lines h0] at hl
      rcases List.mem_append.mp hl with h | h
      · exact hlines l h
      · simp only [List.mem_singleton] at h
        exact h ▸ hline h0
  | cons w parts ih =>
    intro line lines hw hlines hline hext l hl
    have hw0 : P w := hw w (List.mem_cons_self _ _)
    have hparts : ∀ v ∈ parts, P v := fun v hv => hw v (List.mem_cons_of_mem _ hv)
    have hext2 : ∀ (l v : GoString), l ≠ [] → P l → v ∈ parts → len (l ++ [' '] ++ v) ≤ n →
        P (l ++ [' '] ++ v) :=
      fun l v h1 hp h2 h3 => hext l v h1 hp (List.mem_cons_of_mem _ h2) h3
    by_cases h0 : line = []
    · subst h0
      rw [wrapLoop_cons_empty] at hl
      exact ih w lines hparts hlines (fun _ => hw0) hext2 l hl
    · by_cases hfit : len (line ++ [' '] ++ w) ≤ n
      · rw [wrapLoop_cons_fit n w line parts lines h0 hfit] at hl
        exact ih _ lines hparts hlines
          (fun _ => hext line w h0 (hline h0) (List.mem_cons_self _ _) hfit) hext2 l hl
      · rw [wrapLoop_cons_nofit n w line parts lines h0 hfit] at hl
        refine ih w _ hparts ?_ (fun _ => hw0) hext2 l hl
        intro x hx
        rcases List.mem_append.mp hx with h | h
        · exact hlines x h
        · simp only [List.mem_singleton] at h
          exact h ▸ hline h0

theorem wrapLoop_lines_subset (n : Int) :
    ∀ (parts : List GoString) (line : GoString) (lines : List GoString),
      ∀ l ∈ lines, l ∈ wrapLoop n parts line lines := by
  intro parts
  induction parts with
  | nil =>
    intro line lines l hl
    rw [wrapLoop]
    split_ifs
    · exact List.mem_append_left _ hl
    · exact hl
  | cons w parts ih =>
    intro line lines l hl
    rw [wrapLoop]
    split_ifs
    · exact ih _ _ l hl
    · exact ih _ _ l hl
    · exact ih _ _ l (List.mem_append_left _ hl)
    · exact ih _ _ l hl

theorem wrapLoop_long_line (n : Int) (parts : List GoString) (line : GoString)
    (lines : List GoString) (hl : line ≠ []) (hlong : n < len line) :
    line ∈ wrapLoop n parts line lines := by
  cases parts with
  | nil => simp [wrapLoop_nil_line n line lines hl]
  | cons w parts =>
    have hnofit : ¬ len (line ++ [' '] ++ w) ≤ n := by
      rw [len_append, len_append]
      have h1 := len_nonneg w
      have h2 := len_space
      omega
    rw [wrapLoop_cons_nofit n w line parts lines hl hnofit]
    exact wrapLoop_lines_subset n parts w _ line (by simp)

theorem wrapLoop_long_word (n : Int) :
    ∀ (parts : List GoString) (line : GoString) (lines : List GoString),
      ∀ w ∈ parts, w ≠ [] → n < len w → w ∈ wrapLoop n parts line lines := by
  intro parts
  induction parts with
  | nil => intro line lines w hw; simp at hw
  | cons v parts ih =>
    intro line lines w hw hne hlong
    rcases List.mem_cons.mp hw with h | h
    · subst h
      have hnofit : ¬ len (line ++ [' '] ++ w) ≤ n := by
        rw [len_append, len_append]
        have h1 := len_nonneg line
        have h2 := len_space
        omega
      rw [wrapLoop]
      split_ifs
      · exact wrapLoop_long_line n parts w _ hne hlong
      · exact wrapLoop_long_line n parts w _ hne hlong
    · rw [wrapLoop]
      split_ifs
      · exact ih _ _ w h hne hlong
      · exact ih _ _ w h hne hlong
      · exact ih _ _ w h hne hlong
      · exact ih _ _ w h hne hlong

theorem head?_append_of_ne_nil {α : Type} (g h : List α) (hg : g ≠ []) :
    (g ++ h).head? = g.head? := by
  cases g with
  | nil => exact absurd rfl hg
  | cons a t => rfl

theorem wrapLoop_chain (n : Int) :
    ∀ (parts : List GoString) (line : GoString) (lines g : List GoString),
      (∀ w ∈ parts, isWord w) → (∀ w ∈ g, isWord w) → line = Join g [' '] →
      (line = [] → lines = []) →
      List.Chain' (greedyBreak n) (lines ++ (if line = [] then [] else [line])) →
      List.Chain' (greedyBreak n) (wrapLoop n parts line lines) := by
  intro parts
  induction parts with
  | nil =>
    intro line lines g _ _ _ _ hch
    by_cases hl : line = []
    · subst hl
      simpa [wrapLoop_nil_empty] using hch
    · simpa [wrapLoop_nil_line n line lines hl, hl] using hch
  | cons w parts ih =>
    intro line lines g hw hg hline hlines hch
    have hw0 : isWord w := hw w (List.mem_cons_self _ _)
    have hparts : ∀ v ∈ parts, isWord v := fun v hv => hw v (List.mem_cons_of_mem _ hv)
    have hw1 : ∀ v ∈ [w], isWord v := by
      intro v hv
      simp only [List.mem_singleton] at hv
      exact hv ▸ hw0
    by_cases hl : line = []
    · have hnil : lines = [] := hlines hl
      subst hl
      subst hnil
      rw [wrapLoop_cons_empty]
      refine ih w [] [w] hparts hw1 rfl (fun h => absurd h hw0.1) ?_
      simp [hw0.1]
    · have hgne : g ≠ [] := by
        intro h0
        apply hl
        rw [hline, h0]
        rfl
      rw [if_neg hl] at hch
      by_cases hfit : len (line ++ [' '] ++ w) ≤ n
      · rw [wrapLoop_cons_fit n w line parts lines hl hfit]
        have hg2 : ∀ v ∈ g ++ [w], isWord v :=
          fun v hv => (List.mem_append.mp hv).elim (hg v) (hw1 v)
        have hline2 : line ++ [' '] ++ w = Join (g ++ [w]) [' '] := by
          rw [Join_snoc [' '] g w hgne, hline]
        refine ih _ lines (g ++ [w]) hparts hg2 hline2 (fun h => absurd h (by simp)) ?_
        have hne : line ++ [' '] ++ w ≠ [] := by simp
        rw [if_neg hne]
        rw [List.chain'_append] at hch ⊢
        refine ⟨hch.1, List.chain'_singleton _, ?_⟩
        intro x hx y hy
        simp only [List.head?_cons, Option.mem_def, Option.some.injEq] at hy
        subst hy
        have hold := hch.2.2 x hx line (by simp)
        intro v hv
        rw [hline2, Fields_Join _ hg2, head?_append_of_ne_nil g [w] hgne] at hv
        have hv2 : (Fields line).head? = some v := by rw [hline, Fields_Join g hg]; exact hv
        exact hold v hv2
      · rw [wrapLoop_cons_nofit n w line parts lines hl hfit]
        refine ih w _ [w] hparts hw1 rfl (fun h => absurd h hw0.1) ?_
        rw [if_neg hw0.1, List.chain'_append]
        refine ⟨hch, List.chain'_singleton _, ?_⟩
        intro x hx y hy
        simp only [List.head?_cons, Option.mem_def, Option.some.injEq] at hy
        subst hy
        simp only [List.getLast?_append, List.getLast?_singleton, Option.mem_def,
          Option.or, Option.some.injEq] at hx
        subst hx
        intro v hv
        rw [Fields_word _ hw0] at hv
        simp only [List.head?_cons, Option.some.injEq] at hv
        subst hv
        omega

theorem wrapText_eq (s : GoString) (n : Int) : wrapText s n = wrapLoop n (Fields s) [] [] := by
  unfold wrapText
  split_ifs with h
  · subst h
    rfl
  · rfl

/-- Every line of `wrapText` is a non-empty sequence of words joined by single spaces. -/
theorem wrapText_line_words (s : GoString) (n : Int) :
    ∀ l ∈ wrapText s n, ∃ g : List GoString, g ≠ [] ∧ (∀ w ∈ g, isWord w) ∧ l = Join g [' '] := by
  rw [wrapText_eq]
  apply wrapLoop_forall
  · intro w hw
    refine ⟨[w], by simp, ?_, rfl⟩
    intro v hv
    simp only [List.mem_singleton] at hv
    exact hv ▸ Fields_isWord s w hw
  · intro l hl
    simp at hl
  · intro h
    exact absurd rfl h
  · rintro l w _ ⟨g, hg, hwords, rfl⟩ hw _
    refine ⟨g ++ [w], by simp, ?_, (Join_snoc [' '] g w hg).symm⟩
    intro v hv
    rcases List.mem_append.mp hv with h | h
    · exact hwords v h
    · simp only [List.mem_singleton] at h
      exact h ▸ Fields_isWord s w hw

theorem chain'_getElem? {α : Type} (R : α → α → Prop) :
    ∀ (l : List α) (i : Nat) (a b : α), List.Chain' R l →
      l[i]? = some a → l[i + 1]? = some b → R a b := by
  intro l
  induction l with
  | nil => intro i a b _ ha; simp at ha
  | cons x t ih =>
    intro i a b hch ha hb
    cases t with
    | nil => simp at hb
    | cons y t =>
      rw [List.chain'_cons] at hch
      cases i with
      | zero =>
        simp only [List.getElem?_cons_zero, Option.some.injEq, zero_add,
          List.getElem?_cons_succ] at ha hb
        subst ha
        subst hb
        exact hch.1
      | succ k =>
        exact ih k a b hch.2 (by simpa using ha) (by simpa using hb)

/-- Reading the words back off the lines of `wrapText` gives the words of the input. -/
theorem wrapText_flatMap_Fields (s : GoString) (n : Int) :
    (wrapText s n).flatMap Fields = Fields s := by
  rw [wrapText_eq, wrapLoop_Fields n (Fields s) [] [] [] (Fields_isWord s) (by simp) rfl]
  simp

/-- In bytes, `wrapText` is greedy: for two consecutive lines `a` and `b`, the first word `w`
of `b` did not fit on `a`, `len (a + " " + w) > maxChars` with Go's `len`; and the first word
of `s` starts the first line, whatever its length. -/
theorem wrapText_greedy_bytes (s : GoString) (maxChars : Int) :
    (∀ (i : Nat) (a b w : GoString),
        (wrapText s maxChars)[i]? = some a → (wrapText s maxChars)[i + 1]? = some b →
        (Fields b).head? = some w → maxChars < len (a ++ [' '] ++ w)) ∧
      (∀ w, (Fields s).head? = some w →
        ∃ l, (wrapText s maxChars).head? = some l ∧ (Fields l).head? = some w) := by
  constructor
  · intro i a b w ha hb hw
    have hch : List.Chain' (greedyBreak maxChars) (wrapText s maxChars) := by
      rw [wrapText_eq]
      exact wrapLoop_chain maxChars (Fields s) [] [] [] (Fields_isWord s) (by simp) rfl
        (fun _ => rfl) (by simp)
    exact chain'_getElem? _ _ i a b hch ha hb w hw
  · intro w hw
    have hflat := wrapText_flatMap_Fields s maxChars
    have hwords := wrapText_line_words s maxChars
    cases hlines : wrapText s maxChars with
    | nil =>
      rw [hlines] at hflat
      rw [← hflat] at hw
      simp at hw
    | cons l rest =>
      rw [hlines] at hflat hwords
      obtain ⟨g, hg, hgw, hl⟩ := hwords l (List.mem_cons_self _ _)
      have hfl : Fields l = g := by rw [hl, Fields_Join g hgw]
      refine ⟨l, rfl, ?_⟩
      rw [← hflat, List.flatMap_cons, hfl, head?_append_of_ne_nil g _ hg] at hw
      rw [hfl]
      exact hw

/-! ### The text wrapper: the claims -/

/-- C5: joining the lines of `wrapText s maxChars` with single spaces gives the white-space
normalised input, the words of `s` joined with single spaces; and reading the words back off
the lines gives exactly the words of `s`, in order (none dropped, duplicated, split or
reordered). -/
theorem wrapText_join (s : GoString) (maxChars : Int) :
    Join (wrapText s maxChars) [' '] = Join (Fields s) [' '] ∧
      (wrapText s maxChars).flatMap Fields = Fields s := by
  rw [wrapText_eq]
  constructor
  · rw [wrapLoop_Join maxChars (Fields s) [] [] (fun w hw => (Fields_isWord s w hw).1)]
    simp
  · rw [wrapLoop_Fields maxChars (Fields s) [] [] [] (Fields_isWord s) (by simp) rfl]
    simp

/-- C6: every line of `wrapText s maxChars` either has length at most `maxChars` or is exactly
one word of `s` (free of white space) that is longer than `maxChars`; and every word of `s`
longer than `maxChars` is a line of its own. -/
theorem wrapText_line_bound (s : GoString) (maxChars : Int) :
    (∀ l ∈ wrapText s maxChars,
        len l ≤ maxChars ∨
          (maxChars < len l ∧ l ∈ Fields s ∧ Fields l = [l] ∧ ∀ c ∈ l, isSpace c = false)) ∧
      (∀ w ∈ Fields s, maxChars < len w → w ∈ wrapText s maxChars) := by
  rw [wrapText_eq]
  constructor
  · apply wrapLoop_forall
    · intro w hw
      by_cases h : len w ≤ maxChars
      · exact Or.inl h
      · have hword := Fields_isWord s w hw
        exact Or.inr ⟨by omega, hw, Fields_word w hword, hword.2⟩
    · intro l hl
      simp at hl
    · intro h
      exact absurd rfl h
    · intro l w _ _ _ hfit
      exact Or.inl hfit
  · intro w hw hlong
    exact wrapLoop_long_word maxChars (Fields s) [] [] w hw (Fields_isWord s w hw).1 hlong

/-- Witness of C6: with `maxChars = 5` the word `verylongword` overflows, on a line of its
own, and the other lines `a` and `b` are within the bound. -/
theorem wrapText_line_bound_witness :
    wrapText "a verylongword b".data 5 = ["a".data, "verylongword".data, "b".data] ∧
      "verylongword".data ∈ wrapText "a verylongword b".data 5 ∧
      (len "a".data ≤ 5 ∨ (5 < len "a".data ∧ "a".data ∈ Fields "a verylongword b".data ∧
        Fields "a".data = ["a".data] ∧ ∀ c ∈ "a".data, isSpace c = false)) :=
  ⟨by decide,
    (wrapText_line_bound "a verylongword b".data 5).2 "verylongword".data (by decide)
      (by decide),
    (wrapText_line_bound "a verylongword b".data 5).1 "a".data (by decide)⟩

/-- C7: `wrapText("héllo wörld", 12)` returns the two lines `héllo` and `wörld`, although
the first word `wörld` of the second line fits on the first: `héllo wörld` has 11 characters,
and 11 ≤ 12 = `maxChars`. The test of the loop measures `len(line + " " + w)`, which is the
number of bytes of the UTF-8 encoding, 13 here, so a line with characters outside ASCII is
broken early; the same text without accents, `hello world`, stays on one line. In bytes
`wrapText` is greedy for every input: the first word of a line never fits on the line before
it, and the first word of the input starts the first line. -/
theorem wrapText_greedy :
    wrapText "héllo wörld".data 12 = ["héllo".data, "wörld".data] ∧
      (Fields "wörld".data).head? = some "wörld".data ∧
      (("héllo".data ++ [' '] ++ "wörld".data).length : Int) = 11 ∧
      ¬ ((12 : Int) < (("héllo".data ++ [' '] ++ "wörld".data).length : Int)) ∧
      len ("héllo".data ++ [' '] ++ "wörld".data) = 13 ∧
      wrapText "hello world".data 12 = ["hello world".data] ∧
      (∀ (s : GoString) (maxChars : Int),
        (∀ (i : Nat) (a b w : GoString),
          (wrapText s maxChars)[i]? = some a → (wrapText s maxChars)[i + 1]? = some b →
          (Fields b).head? = some w → maxChars < len (a ++ [' '] ++ w)) ∧
        (∀ w, (Fields s).head? = some w →
          ∃ l, (wrapText s maxChars).head? = some l ∧ (Fields l).head? = some w)) :=
  ⟨by decide, by decide, by decide, by decide, by decide, by decide,
    fun s maxChars => wrapText_greedy_bytes s maxChars⟩

/-- C8: `wrapText` of the empty string is the empty sequence of lines, for every `maxChars`;
and no line returned for any input is the empty string. -/
theorem wrapText_empty (s : GoString) (maxChars : Int) :
    wrapText [] maxChars = [] ∧ ∀ l ∈ wrapText s maxChars, l ≠ [] := by
  refine ⟨rfl, ?_⟩
  intro l hl
  obtain ⟨g, hg, hgw, rfl⟩ := wrapText_line_words s maxChars l hl
  exact Join_ne_nil [' '] g hgw hg

/-! ### The dynamic height map -/

theorem HeightMap.set_same (m : HeightMap) (key : GoString) (value : Int) :
    m.set key value key = some value := by
  simp [HeightMap.set]

theorem HeightMap.set_other (m : HeightMap) (key k : GoString) (value : Int) (h : k ≠ key) :
    m.set key value k = m k := by
  simp [HeightMap.set, h]

theorem taskHeightsLoop_append (config : svgLayoutConfig) :
    ∀ (a b : List Task) (m : HeightMap),
      taskHeightsLoop config (a ++ b) m = taskHeightsLoop config b (taskHeightsLoop config a m) := by
  intro a
  induction a with
  | nil => intro b m; rfl
  | cons t rest ih =>
    intro b m
    rw [List.cons_append, taskHeightsLoop, taskHeightsLoop]
    exact ih b _

/-- The task height map is the result of one pass over all tasks of the chart. -/
theorem categoryHeightsLoop_fst (config : svgLayoutConfig) :
    ∀ (cats : List Category) (pt pc : HeightMap),
      (categoryHeightsLoop config cats pt pc).1 =
        taskHeightsLoop config (cats.flatMap (fun cat => cat.Tasks)) pt := by
  intro cats
  induction cats with
  | nil => intro pt pc; rfl
  | cons c rest ih =>
    intro pt pc
    rw [categoryHeightsLoop, List.flatMap_cons, taskHeightsLoop_append]
    exact ih _ _

theorem taskHeightsLoop_bound (config : svgLayoutConfig) :
    ∀ (tasks : List Task) (m : HeightMap),
      (∀ k h, m k = some h → config.baseRowHeight ≤ h) →
      ∀ k h, taskHeightsLoop config tasks m k = some h → config.baseRowHeight ≤ h := by
  intro tasks
  induction tasks with
  | nil => intro m hm k h hk; exact hm k h hk
  | cons t rest ih =>
    intro m hm k h hk
    rw [taskHeightsLoop] at hk
    refine ih _ ?_ k h hk
    intro k2 h2 hk2
    by_cases hkey : k2 = t.ID
    · rw [hkey, HeightMap.set_same] at hk2
      simp only [Option.some.injEq] at hk2
      subst hk2
      split_ifs <;> omega
    · rw [HeightMap.set_other _ _ _ _ hkey] at hk2
      exact hm k2 h2 hk2

theorem categoryHeightsLoop_snd_bound :
    ∀ (cats : List Category) (pt pc : HeightMap),
      (∀ k h, pc k = some h → 35 ≤ h) →
      ∀ k h, (categoryHeightsLoop svgConfig cats pt pc).2 k = some h → 35 ≤ h := by
  intro cats
  induction cats with
  | nil => intro pt pc hm k h hk; exact hm k h hk
  | cons c rest ih =>
    intro pt pc hm k h hk
    rw [categoryHeightsLoop] at hk
    refine ih _ _ ?_ k h hk
    intro k2 h2 hk2
    by_cases hkey : k2 = c.ID
    · rw [hkey, HeightMap.set_same] at hk2
      simp only [Option.some.injEq] at hk2
      subst hk2
      split_ifs with hlen
      · omega
      · exact le_refl _
    · rw [HeightMap.set_other _ _ _ _ hkey] at hk2
      exact hm k2 h2 hk2

theorem taskHeightsLoop_absent (config : svgLayoutConfig) :
    ∀ (tasks : List Task) (m : HeightMap) (k : GoString),
      k ∉ tasks.map (fun t => t.ID) → taskHeightsLoop config tasks m k = m k := by
  intro tasks
  induction tasks with
  | nil => intro m k _; rfl
  | cons t rest ih =>
    intro m k hk
    simp only [List.map_cons, List.mem_cons, not_or] at hk
    rw [taskHeightsLoop, ih _ k hk.2, HeightMap.set_other _ _ _ _ hk.1]

theorem taskHeightsLoop_distinct (config : svgLayoutConfig) :
    ∀ (tasks : List Task) (m : HeightMap), (tasks.map (fun t => t.ID)).Nodup →
      ∀ t ∈ tasks, taskHeightsLoop config tasks m t.ID =
        some (max config.baseRowHeight
          (((wrapText t.Title 28).length : Int) * config.titleLineHeight
            + ((wrapText t.Description 36).length : Int) * config.descLineHeight
            + config.verticalPaddingPerTask)) := by
  intro tasks
  induction tasks with
  | nil => intro m _ t ht; simp at ht
  | cons x rest ih =>
    intro m hnd t ht
    simp only [List.map_cons, List.nodup_cons] at hnd
    rw [taskHeightsLoop]
    rcases List.mem_cons.mp ht with h | h
    · subst h
      rw [taskHeightsLoop_absent config rest _ _ hnd.1, HeightMap.set_same]
      congr 1
      rw [max_def]
      split_ifs <;> omega
    · exact ih _ hnd.2 t h

/-! ### The dynamic height map: the claims -/

/-- C9: with the Markup layout constants, every row height stored in the task height map by
`calculateDynamicHeights` is at least the base row height 40, and every stored category band
height is at least the fixed band height 35 — for every chart, whatever its IDs. -/
theorem calculateDynamicHeights_min (chart : Chart) :
    (∀ id h, (calculateDynamicHeights chart svgConfig).1 id = some h →
        svgConfig.baseRowHeight ≤ h ∧ 40 ≤ h) ∧
      (∀ id h, (calculateDynamicHeights chart svgConfig).2 id = some h →
        svgConfig.categoryHeaderHeight ≤ h ∧ 35 ≤ h) := by
  unfold calculateDynamicHeights
  constructor
  · intro id h hk
    rw [categoryHeightsLoop_fst] at hk
    have := taskHeightsLoop_bound svgConfig _ HeightMap.empty
      (fun k h hk => by simp [HeightMap.empty] at hk) id h hk
    exact ⟨this, this⟩
  · intro id h hk
    have := categoryHeightsLoop_snd_bound chart.Categories HeightMap.empty HeightMap.empty
      (fun k h hk => by simp [HeightMap.empty] at hk) id h hk
    exact ⟨this, this⟩

/-- Witness of C9: in the sample chart the row of task `t2` is 58 high and the band of
category `cat1` is 35 high. -/
theorem calculateDynamicHeights_min_witness :
    ((calculateDynamicHeights sampleChart svgConfig).1 "t2".data = some 58 ∧ (40 : Int) ≤ 58) ∧
      ((calculateDynamicHeights sampleChart svgConfig).2 "cat1".data = some 35 ∧
        (35 : Int) ≤ 35) :=
  ⟨⟨by decide,
      ((calculateDynamicHeights_min sampleChart).1 "t2".data 58 (by decide)).2⟩,
    ⟨by decide,
      ((calculateDynamicHeights_min sampleChart).2 "cat1".data 35 (by decide)).2⟩⟩

/-- C10: for a chart whose task IDs are pairwise distinct, the height recorded for the ID of
each task `t` is `max(baseRowHeight, titleLines*titleLineHeight + descLines*descLineHeight +
verticalPaddingPerTask)` with `titleLines = |wrapText(t.Title, 28)|` and
`descLines = |wrapText(t.Description, 36)|`; with the Markup constants this is
`max(40, 14*titleLines + 12*descLines + 8)`. -/
theorem calculateDynamicHeights_task (chart : Chart) (config : svgLayoutConfig)
    (hids : (chart.allTasks.map (fun t => t.ID)).Nodup)
    (cat : Category) (hcat : cat ∈ chart.Categories) (t : Task) (ht : t ∈ cat.Tasks) :
    (calculateDynamicHeights chart config).1 t.ID =
        some (max config.baseRowHeight
          (((wrapText t.Title 28).length : Int) * config.titleLineHeight
            + ((wrapText t.Description 36).length : Int) * config.descLineHeight
            + config.verticalPaddingPerTask)) ∧
      (calculateDynamicHeights chart svgConfig).1 t.ID =
        some (max 40 (14 * ((wrapText t.Title 28).length : Int)
          + 12 * ((wrapText t.Description 36).length : Int) + 8)) := by
  have hmem : t ∈ chart.allTasks := List.mem_flatMap.mpr ⟨cat, hcat, ht⟩
  unfold calculateDynamicHeights
  constructor
  · rw [categoryHeightsLoop_fst]
    exact taskHeightsLoop_distinct config _ _ hids t hmem
  · rw [categoryHeightsLoop_fst]
    have := taskHeightsLoop_distinct svgConfig _ HeightMap.empty hids t hmem
    unfold Chart.allTasks at this
    rw [this]
    simp only [svgConfig]
    congr 2
    ring

/-- Witness of C10: in the sample chart the task `t2` has a one-line title and a three-line
description, so its row is `max(40, 14*1 + 12*3 + 8) = 58` high. -/
theorem calculateDynamicHeights_task_witness :
    (sampleChart.allTasks.map (fun t => t.ID)).Nodup ∧
      (calculateDynamicHeights sampleChart svgConfig).1 "t2".data = some 58 := by
  refine ⟨by decide, ?_⟩
  have h := (calculateDynamicHeights_task sampleChart svgConfig (by decide)
    { ID := "cat1".data, Name := "Platform".data, Color := "#336699".data
      Tasks :=
        [{ ID := "t1".data, Title := "Ship".data, Description := [],
           StartYear := 2024, StartQ := 2, EndYear := 2024, EndQ := 3, Color := [] },
         { ID := "t2".data, Title := "Migrate the storage layer".data,
           Description :=
            "Move every tenant to the new cluster and retire the old one for good, at last".data,
           StartYear := 2024, StartQ := 1, EndYear := 2024, EndQ := 4, Color := [] }] }
    (by decide)
    { ID := "t2".data, Title := "Migrate the storage layer".data,
      Description :=
        "Move every tenant to the new cluster and retire the old one for good, at last".data,
      StartYear := 2024, StartQ := 1, EndYear := 2024, EndQ := 4, Color := [] }
    (by decide)).2
  exact h.trans (by decide)

/-! ### The dynamic height map: descriptions and category bands -/

theorem wrapText_nil (n : Int) : wrapText [] n = [] := rfl

theorem categoryHeightsLoop_append (config : svgLayoutConfig) :
    ∀ (a b : List Category) (pt pc : HeightMap),
      categoryHeightsLoop config (a ++ b) pt pc =
        categoryHeightsLoop config b (categoryHeightsLoop config a pt pc).1
          (categoryHeightsLoop config a pt pc).2 := by
  intro a
  induction a with
  | nil => intro b pt pc; rfl
  | cons c rest ih =>
    intro b pt pc
    rw [List.cons_append, categoryHeightsLoop, categoryHeightsLoop]
    exact ih b _ _

theorem categoryHeightsLoop_snd_absent (config : svgLayoutConfig) :
    ∀ (cats : List Category) (pt pc : HeightMap) (k : GoString),
      k ∉ cats.map (fun c => c.ID) → (categoryHeightsLoop config cats pt pc).2 k = pc k := by
  intro cats
  induction cats with
  | nil => intro pt pc k _; rfl
  | cons c rest ih =>
    intro pt pc k hk
    simp only [List.map_cons, List.mem_cons, not_or] at hk
    rw [categoryHeightsLoop, ih _ _ k hk.2, HeightMap.set_other _ _ _ _ hk.1]

theorem categoryHeightsLoop_snd_distinct (config : svgLayoutConfig) :
    ∀ (cats : List Category) (pt pc : HeightMap), (cats.map (fun c => c.ID)).Nodup →
      ∀ c ∈ cats, (categoryHeightsLoop config cats pt pc).2 c.ID =
        some (if (wrapText c.Name 30).length > 1
          then 18 + ((wrapText c.Name 30).length : Int) * 14
          else config.categoryHeaderHeight) := by
  intro cats
  induction cats with
  | nil => intro pt pc _ c hc; simp at hc
  | cons x rest ih =>
    intro pt pc hnd c hc
    simp only [List.map_cons, List.nodup_cons] at hnd
    rw [categoryHeightsLoop]
    rcases List.mem_cons.mp hc with h | h
    · subst h
      rw [categoryHeightsLoop_snd_absent config rest _ _ _ hnd.1, HeightMap.set_same]
    · exact ih _ _ hnd.2 c h

theorem calculateDynamicHeights_fst_distinct (chart : Chart) (config : svgLayoutConfig)
    (hids : (chart.allTasks.map (fun t => t.ID)).Nodup) (t : Task) (ht : t ∈ chart.allTasks) :
    (calculateDynamicHeights chart config).1 t.ID =
      some (max config.baseRowHeight
        (((wrapText t.Title 28).length : Int) * config.titleLineHeight
          + ((wrapText t.Description 36).length : Int) * config.descLineHeight
          + config.verticalPaddingPerTask)) := by
  unfold calculateDynamicHeights
  rw [categoryHeightsLoop_fst]
  exact taskHeightsLoop_distinct config _ HeightMap.empty hids t ht

/-! ### The dynamic height map: the claims on descriptions and bands -/

/-- C11, as the claim states it, fails: in `tieChart` the tasks `a` and `b` have the same
title, `a` has no description and the description of `b` wraps to one line, more than the
zero lines of `a`; yet both rows are 40 high, because `14*1 + 12*1 + 8 = 34` stays below the
base row height. -/
theorem rowHeight_description_counterexample :
    (tieChart.allTasks.map (fun t => t.ID)).Nodup ∧
      (wrapText [] 36).length < (wrapText "soon".data 36).length ∧
      (calculateDynamicHeights tieChart svgConfig).1 "a".data = some 40 ∧
      (calculateDynamicHeights tieChart svgConfig).1 "b".data = some 40 ∧
      ¬ ((40 : Int) < 40) := by
  decide

/-- C11, amended: for two tasks `a` and `b` with the same title, `a` without description and
`b` with a description that wraps to more lines, the row heights that the loop body of
`calculateDynamicHeights` computes and stores under their IDs, whatever the map held before,
are `max(40, 14*titleLines + 8)` for `a` and `max(40, 14*titleLines + 12*descLines + 8)` for
`b`. The row of `b` is at least as high as the row of `a`, and strictly higher exactly when
`14*titleLines + 12*descLines + 8` exceeds the base row height 40 — in particular whenever
the title is non-empty and the description wraps to two or more lines; otherwise both rows
have the base row height 40. -/
theorem rowHeight_description (a b : Task) (perTaskHeights : HeightMap)
    (htitle : a.Title = b.Title) (hnone : a.Description = [])
    (hmore : (wrapText a.Description 36).length < (wrapText b.Description 36).length) :
    ∃ hA hB : Int,
      taskHeightsLoop svgConfig [a] perTaskHeights a.ID = some hA ∧
      taskHeightsLoop svgConfig [b] perTaskHeights b.ID = some hB ∧
      hA = max 40 (14 * ((wrapText b.Title 28).length : Int) + 8) ∧
      hB = max 40 (14 * ((wrapText b.Title 28).length : Int)
        + 12 * ((wrapText b.Description 36).length : Int) + 8) ∧
      hA ≤ hB ∧
      (hA < hB ↔ 40 < 14 * ((wrapText b.Title 28).length : Int)
        + 12 * ((wrapText b.Description 36).length : Int) + 8) ∧
      (1 ≤ (wrapText b.Title 28).length → 2 ≤ (wrapText b.Description 36).length →
        hA < hB) ∧
      (¬ (40 < 14 * ((wrapText b.Title 28).length : Int)
          + 12 * ((wrapText b.Description 36).length : Int) + 8) →
        hA = 40 ∧ hB = 40) := by
  have hd : (0 : Int) < ((wrapText b.Description 36).length : Int) := by
    rw [hnone, wrapText_nil] at hmore
    exact_mod_cast hmore
  have hA : taskHeightsLoop svgConfig [a] perTaskHeights a.ID
      = some (max 40 (14 * ((wrapText b.Title 28).length : Int) + 8)) := by
    rw [taskHeightsLoop, taskHeightsLoop, HeightMap.set_same, hnone, wrapText_nil, htitle]
    simp only [svgConfig, List.length_nil, Nat.cast_zero, zero_mul, add_zero]
    congr 1
    rw [max_def]
    split_ifs <;> omega
  have hB : taskHeightsLoop svgConfig [b] perTaskHeights b.ID
      = some (max 40 (14 * ((wrapText b.Title 28).length : Int)
        + 12 * ((wrapText b.Description 36).length : Int) + 8)) := by
    rw [taskHeightsLoop, taskHeightsLoop, HeightMap.set_same]
    simp only [svgConfig]
    congr 1
    rw [max_def]
    split_ifs <;> omega
  refine ⟨_, _, hA, hB, rfl, rfl, ?_, ?_, ?_, ?_⟩
  · apply max_le_max (le_refl _)
    omega
  · rw [max_lt_iff, lt_max_iff, lt_max_iff]
    constructor
    · rintro ⟨h1, _⟩
      rcases h1 with h1 | h1
      · omega
      · omega
    · intro h
      exact ⟨Or.inr (by omega), Or.inr (by omega)⟩
  · intro h1 h2
    have h1' : (1 : Int) ≤ ((wrapText b.Title 28).length : Int) := by exact_mod_cast h1
    have h2' : (2 : Int) ≤ ((wrapText b.Description 36).length : Int) := by exact_mod_cast h2
    rw [max_lt_iff, lt_max_iff, lt_max_iff]
    exact ⟨Or.inr (by omega), Or.inr (by omega)⟩
  · intro hsmall
    constructor
    · apply max_eq_left
      omega
    · apply max_eq_left
      omega

/-- Witness of the amended C11: the task `t2` of `descChart`, with a one-line title and a
three-line description, gets the row height `14 + 36 + 8 = 58`, strictly above the 40 of
`t0`, which has the same title and no description; these are the entries of the two tasks in
the height map of `descChart`. -/
theorem rowHeight_description_witness :
    (calculateDynamicHeights descChart svgConfig).1 "t0".data = some 40 ∧
      (calculateDynamicHeights descChart svgConfig).1 "t2".data = some 58 ∧
      ∃ hA hB : Int,
        taskHeightsLoop svgConfig
          [{ ID := "t0".data, Title := "Migrate the storage layer".data, Description := [],
             StartYear := 2024, StartQ := 1, EndYear := 2024, EndQ := 4, Color := [] }]
          HeightMap.empty "t0".data = some hA ∧
        taskHeightsLoop svgConfig
          [{ ID := "t2".data, Title := "Migrate the storage layer".data,
             Description :=
              "Move every tenant to the new cluster and retire the old one for good, at last".data,
             StartYear := 2024, StartQ := 1, EndYear := 2024, EndQ := 4, Color := [] }]
          HeightMap.empty "t2".data = some hB ∧
        hA < hB := by
  refine ⟨by decide, by decide, ?_⟩
  obtain ⟨hA, hB, h1, h2, _, _, _, _, hlt, _⟩ :=
    rowHeight_description
      { ID := "t0".data, Title := "Migrate the storage layer".data, Description := [],
        StartYear := 2024, StartQ := 1, EndYear := 2024, EndQ := 4, Color := [] }
      { ID := "t2".data, Title := "Migrate the storage layer".data,
        Description :=
          "Move every tenant to the new cluster and retire the old one for good, at last".data,
        StartYear := 2024, StartQ := 1, EndYear := 2024, EndQ := 4, Color := [] }
      HeightMap.empty (by decide) (by decide) (by decide)
  exact ⟨hA, hB, h1, h2, hlt (by decide) (by decide)⟩

/-- C12: for a chart with pairwise distinct category IDs and a category `c` of it whose name
wraps (at 30 characters) to `n` lines, the recorded band height is the fixed 35 when `n ≤ 1`
and the linear `18 + 14*n` when `n > 1`, which is then strictly above 35; a name of three
lines gets 60. -/
theorem calculateDynamicHeights_band (chart : Chart)
    (hids : (chart.Categories.map (fun c => c.ID)).Nodup)
    (c : Category) (hc : c ∈ chart.Categories) :
    ((wrapText c.Name 30).length ≤ 1 →
        (calculateDynamicHeights chart svgConfig).2 c.ID = some 35) ∧
      ((wrapText c.Name 30).length > 1 →
        (calculateDynamicHeights chart svgConfig).2 c.ID =
            some (18 + 14 * ((wrapText c.Name 30).length : Int)) ∧
          (35 : Int) < 18 + 14 * ((wrapText c.Name 30).length : Int)) ∧
      ((wrapText c.Name 30).length = 3 →
        (calculateDynamicHeights chart svgConfig).2 c.ID = some 60) := by
  have h := categoryHeightsLoop_snd_distinct svgConfig chart.Categories HeightMap.empty
    HeightMap.empty hids c hc
  unfold calculateDynamicHeights
  rw [h]
  refine ⟨?_, ?_, ?_⟩
  · intro hn
    rw [if_neg (by omega)]
    rfl
  · intro hn
    rw [if_pos hn]
    have hn' : (2 : Int) ≤ ((wrapText c.Name 30).length : Int) := by exact_mod_cast hn
    refine ⟨?_, by omega⟩
    congr 1
    ring
  · intro hn
    rw [hn]
    rfl

/-- Witness of C12: the category name of `bandChart` wraps to three lines and its band is
`18 + 14*3 = 60` high; the one-line name of the sample chart gets the fixed 35. -/
theorem calculateDynamicHeights_band_witness :
    (wrapText "Platform engineering and developer experience tooling for the whole company".data
        30).length = 3 ∧
      (calculateDynamicHeights bandChart svgConfig).2 "wide".data = some 60 ∧
      (calculateDynamicHeights sampleChart svgConfig).2 "cat1".data = some 35 :=
  ⟨by decide,
    (calculateDynamicHeights_band bandChart (by decide)
      { ID := "wide".data,
        Name := "Platform engineering and developer experience tooling for the whole company".data,
        Color := "#336699".data, Tasks := [] } (by decide)).2.2 (by decide),
    (calculateDynamicHeights_band sampleChart (by decide)
      (sampleChart.Categories.head (by decide)) (by decide)).1 (by decide)⟩

/-! ### The Markup canvas -/

theorem sumCategoryHeightsLoop_eq (pc : HeightMap) :
    ∀ (cats : List Category) (total : Int),
      sumCategoryHeightsLoop pc cats total =
        total + (cats.map (fun c => (pc c.ID).getD 0)).sum := by
  intro cats
  induction cats with
  | nil => intro total; simp [sumCategoryHeightsLoop]
  | cons c rest ih =>
    intro total
    rw [sumCategoryHeightsLoop]
    cases hc : pc c.ID with
    | none =>
      simp only [ih, List.map_cons, List.sum_cons, hc, Option.getD_none]
      omega
    | some h =>
      simp only [ih, List.map_cons, List.sum_cons, hc, Option.getD_some]
      omega

theorem sumTaskHeightsInner_eq (pt : HeightMap) :
    ∀ (tasks : List Task) (total : Int),
      sumTaskHeightsInner pt tasks total =
        total + (tasks.map (fun t => (pt t.ID).getD 0)).sum := by
  intro tasks
  induction tasks with
  | nil => intro total; simp [sumTaskHeightsInner]
  | cons t rest ih =>
    intro total
    rw [sumTaskHeightsInner]
    cases ht : pt t.ID with
    | none =>
      simp only [ih, List.map_cons, List.sum_cons, ht, Option.getD_none]
      omega
    | some h =>
      simp only [ih, List.map_cons, List.sum_cons, ht, Option.getD_some]
      omega

theorem sumTaskHeightsLoop_eq (pt : HeightMap) :
    ∀ (cats : List Category) (total : Int),
      sumTaskHeightsLoop pt cats total =
        total + ((cats.flatMap (fun cat => cat.Tasks)).map (fun t => (pt t.ID).getD 0)).sum := by
  intro cats
  induction cats with
  | nil => intro total; simp [sumTaskHeightsLoop]
  | cons c rest ih =>
    intro total
    rw [sumTaskHeightsLoop, ih, sumTaskHeightsInner_eq]
    simp only [List.flatMap_cons, List.map_append, List.sum_append]
    omega

/-- The canvas height as a sum of map reads, for every chart. -/
theorem svgHeight_eq (chart : Chart) :
    svgHeight chart =
      120 + (chart.Categories.map
          (fun c => ((calculateDynamicHeights chart svgConfig).2 c.ID).getD 0)).sum
        + (chart.allTasks.map
          (fun t => ((calculateDynamicHeights chart svgConfig).1 t.ID).getD 0)).sum := by
  unfold svgHeight sumCategoryHeights sumTaskHeights Chart.allTasks
  simp only [sumCategoryHeightsLoop_eq, sumTaskHeightsLoop_eq, svgConfig]
  omega

theorem svgWidth_eq (chart : Chart) :
    svgWidth chart =
      (calculateQuarters chart.StartYear chart.StartQ chart.EndYear chart.EndQ).map
        (fun quarters => 240 + 120 * (quarters.length : Int)) := by
  unfold svgWidth
  cases calculateQuarters chart.StartYear chart.StartQ chart.EndYear chart.EndQ with
  | none => rfl
  | some quarters =>
    simp only [Option.map_some', svgConfig]
    congr 1
    omega

/-- `GenerateSVG` returns exactly when its call of `calculateQuarters` does. -/
theorem GenerateSVG_none_iff (chart : Chart) :
    GenerateSVG chart = none ↔
      calculateQuarters chart.StartYear chart.StartQ chart.EndYear chart.EndQ = none := by
  unfold GenerateSVG
  cases calculateQuarters chart.StartYear chart.StartQ chart.EndYear chart.EndQ with
  | none => simp
  | some quarters => simp

/-- What `GenerateSVG` returns on the axis `quarters`: the text of the five `write…` calls
and of the end tag, with a nil error. -/
theorem GenerateSVG_some (chart : Chart) (quarters : List quarterInfo)
    (h : calculateQuarters chart.StartYear chart.StartQ chart.EndYear chart.EndQ
      = some quarters) :
    GenerateSVG chart =
      some ((svgContext quarters chart).writeSVGHeader
            (svgConfig.labelWidth + (quarters.length : Int) * svgConfig.quarterWidth
              + svgConfig.padding * 2) (svgHeight chart)
          ++ (svgContext quarters chart).writeBackground
            (svgConfig.labelWidth + (quarters.length : Int) * svgConfig.quarterWidth
              + svgConfig.padding * 2) (svgHeight chart)
          ++ (svgContext quarters chart).writeTitle chart.Title
          ++ (svgContext quarters chart).writeQuarterHeaders (svgHeight chart)
          ++ (svgContext quarters chart).writeCategoriesAndTasks chart ++ "</svg>".data,
        none) := by
  unfold GenerateSVG
  rw [h]

/-- The output of `GenerateSVG` is the `<svg>` start tag with the canvas size, a body, and the
end tag. -/
theorem GenerateSVG_shape (chart : Chart) (quarters : List quarterInfo)
    (h : calculateQuarters chart.StartYear chart.StartQ chart.EndYear chart.EndQ
      = some quarters) :
    ∃ body : GoString, GenerateSVG chart =
      some ("<svg width=\"".data ++ itoa (240 + 120 * (quarters.length : Int))
        ++ "\" height=\"".data
        ++ itoa (svgHeight chart) ++ "\" xmlns=\"http://www.w3.org/2000/svg\">".data
        ++ body ++ "</svg>".data, none) := by
  have hw : svgConfig.labelWidth + (quarters.length : Int) * svgConfig.quarterWidth
      + svgConfig.padding * 2 = 240 + 120 * (quarters.length : Int) := by
    simp only [svgConfig]
    omega
  refine ⟨("<defs><style>.title\x7bfont:bold 20px sans-serif;fill:#333\x7d"
      ++ ".header\x7bfont:bold 12px sans-serif;fill:#555\x7d"
      ++ ".label\x7bfont:12px sans-serif;fill:#333\x7d"
      ++ ".category\x7bfont:bold 14px sans-serif;fill:#222\x7d"
      ++ ".desc\x7bfont:10px sans-serif;fill:#666\x7d</style></defs>").data
    ++ (svgContext quarters chart).writeBackground (240 + 120 * (quarters.length : Int))
      (svgHeight chart)
    ++ (svgContext quarters chart).writeTitle chart.Title
    ++ (svgContext quarters chart).writeQuarterHeaders (svgHeight chart)
    ++ (svgContext quarters chart).writeCategoriesAndTasks chart, ?_⟩
  rw [GenerateSVG_some chart quarters h, hw]
  simp only [svgRenderContext.writeSVGHeader, List.append_assoc]

/-! ### The Markup canvas: the claims -/

/-- C13: for a chart with pairwise distinct category IDs and pairwise distinct task IDs, the
string returned by `GenerateSVG` starts with the `<svg>` start tag whose width is
`labelWidth + columns*quarterWidth + 2*padding = 240 + 120*|axis|` and whose height is
`headerHeight + Σ band heights + Σ row heights + 2*padding`, each category and task
counted with its own height, and the string ends with `</svg>`; `axis` is the sequence
`calculateQuarters` returned, and `GenerateSVG` returns whenever `calculateQuarters` does. -/
theorem GenerateSVG_root (chart : Chart)
    (hcats : (chart.Categories.map (fun c => c.ID)).Nodup)
    (htasks : (chart.allTasks.map (fun t => t.ID)).Nodup) :
    svgWidth chart =
        (calculateQuarters chart.StartYear chart.StartQ chart.EndYear chart.EndQ).map
          (fun quarters => svgConfig.labelWidth
            + (quarters.length : Int) * svgConfig.quarterWidth + 2 * svgConfig.padding) ∧
      svgWidth chart =
        (calculateQuarters chart.StartYear chart.StartQ chart.EndYear chart.EndQ).map
          (fun quarters => 240 + 120 * (quarters.length : Int)) ∧
      svgHeight chart = 120
        + (chart.Categories.map (fun c =>
            if (wrapText c.Name 30).length > 1
              then 18 + 14 * ((wrapText c.Name 30).length : Int) else 35)).sum
        + (chart.allTasks.map (fun t =>
            max 40 (14 * ((wrapText t.Title 28).length : Int)
              + 12 * ((wrapText t.Description 36).length : Int) + 8))).sum ∧
      (GenerateSVG chart = none ↔
        calculateQuarters chart.StartYear chart.StartQ chart.EndYear chart.EndQ = none) ∧
      ∀ quarters : List quarterInfo,
        calculateQuarters chart.StartYear chart.StartQ chart.EndYear chart.EndQ
          = some quarters →
        svgWidth chart = some (240 + 120 * (quarters.length : Int)) ∧
        ∃ body : GoString, GenerateSVG chart =
          some ("<svg width=\"".data ++ itoa (240 + 120 * (quarters.length : Int))
            ++ "\" height=\"".data
            ++ itoa (svgHeight chart) ++ "\" xmlns=\"http://www.w3.org/2000/svg\">".data
            ++ body ++ "</svg>".data, none) := by
  refine ⟨?_, svgWidth_eq chart, ?_, GenerateSVG_none_iff chart, ?_⟩
  · rw [svgWidth_eq]
    congr 1
    funext quarters
    simp only [svgConfig]
    omega
  · rw [svgHeight_eq]
    congr 2
    · congr 1
      apply List.map_congr_left
      intro c hc
      have h := categoryHeightsLoop_snd_distinct svgConfig chart.Categories HeightMap.empty
        HeightMap.empty hcats c hc
      unfold calculateDynamicHeights
      rw [h, Option.getD_some]
      split_ifs
      · ring
      · rfl
    · apply List.map_congr_left
      intro t ht
      rw [calculateDynamicHeights_fst_distinct chart svgConfig htasks t ht, Option.getD_some]
      simp only [svgConfig]
      congr 1
      ring
  · intro quarters hq
    refine ⟨?_, GenerateSVG_shape chart quarters hq⟩
    rw [svgWidth_eq, hq]
    rfl

/-- Witness of C13: for the sample chart `calculateQuarters` returns the 4 columns of
`sampleAxis`; with one band of 35 and rows of 40 and 58 the canvas is `240 + 120*4 = 720`
wide and `120 + 35 + 40 + 58 = 253` high, and `GenerateSVG` returns the `<svg>` element of
that size with a nil error. -/
theorem GenerateSVG_root_witness :
    svgWidth sampleChart = some 720 ∧ svgHeight sampleChart = 253 ∧
      ∃ body : GoString, GenerateSVG sampleChart =
        some ("<svg width=\"".data ++ itoa (240 + 120 * (sampleAxis.length : Int))
          ++ "\" height=\"".data
          ++ itoa (svgHeight sampleChart) ++ "\" xmlns=\"http://www.w3.org/2000/svg\">".data
          ++ body ++ "</svg>".data, none) :=
  ⟨(GenerateSVG_root sampleChart (by decide) (by decide)).2.1.trans (by decide),
    (GenerateSVG_root sampleChart (by decide) (by decide)).2.2.1.trans (by decide),
    ((GenerateSVG_root sampleChart (by decide) (by decide)).2.2.2.2 sampleAxis
      (by decide)).2⟩

/-! ### The Raster canvas -/

theorem countTotalRowsLoop_eq :
    ∀ (cats : List Category) (totalRows : Int),
      countTotalRowsLoop cats totalRows =
        totalRows + (cats.map (fun c => 1 + (c.Tasks.length : Int))).sum := by
  intro cats
  induction cats with
  | nil => intro totalRows; simp [countTotalRowsLoop]
  | cons c rest ih =>
    intro totalRows
    rw [countTotalRowsLoop, ih]
    simp only [List.map_cons, List.sum_cons]
    omega

theorem sum_one_add_nonneg (cats : List Category) :
    0 ≤ (cats.map (fun c => 1 + (c.Tasks.length : Int))).sum := by
  apply List.sum_nonneg
  intro x hx
  obtain ⟨c, _, rfl⟩ := List.mem_map.mp hx
  omega

/-- C14: in the Raster backend the canvas allocated by `GeneratePNG` is
`labelWidth + |axis|*quarterWidth + 2*padding = 200 + 120*|axis| + 40` wide and
`headerHeight + totalRows*rowHeight + 2*padding = 80 + 40*totalRows + 40` high, where
`axis` is the sequence `calculateQuarters` returned and `totalRows = countTotalRows(chart)`
is the sum over the categories of one header row plus the number of tasks. -/
theorem GeneratePNG_canvas (chart : Chart) :
    pngWidth chart =
        (calculateQuarters chart.StartYear chart.StartQ chart.EndYear chart.EndQ).map
          (fun quarters => 200 + 120 * (quarters.length : Int) + 40) ∧
      pngHeight chart = 80 + 40 * countTotalRows chart + 40 ∧
      countTotalRows chart = (chart.Categories.map (fun c => 1 + (c.Tasks.length : Int))).sum ∧
      pngCanvas chart = (pngWidth chart).map (fun width =>
        ({ MinX := 0, MinY := 0, MaxX := width, MaxY := pngHeight chart } : Rectangle)) ∧
      (pngCanvas chart).map Rectangle.Dx = pngWidth chart ∧
      (pngCanvas chart).map Rectangle.Dy = (pngWidth chart).map (fun _ => pngHeight chart) := by
  have hrows : countTotalRows chart
      = (chart.Categories.map (fun c => 1 + (c.Tasks.length : Int))).sum := by
    unfold countTotalRows
    rw [countTotalRowsLoop_eq]
    omega
  have hw : pngWidth chart =
      (calculateQuarters chart.StartYear chart.StartQ chart.EndYear chart.EndQ).map
        (fun quarters => 200 + 120 * (quarters.length : Int) + 40) := by
    unfold pngWidth
    cases calculateQuarters chart.StartYear chart.StartQ chart.EndYear chart.EndQ with
    | none => rfl
    | some quarters =>
      simp only [Option.map_some', pngConfig]
      congr 1
      omega
  have hh : pngHeight chart = 80 + 40 * countTotalRows chart + 40 := by
    unfold pngHeight
    simp only [pngConfig]
    omega
  have hh0 : ¬ (0 > pngHeight chart) := by
    have := sum_one_add_nonneg chart.Categories
    rw [hh, hrows]
    omega
  have hcanvas : pngCanvas chart = (pngWidth chart).map (fun width =>
      ({ MinX := 0, MinY := 0, MaxX := width, MaxY := pngHeight chart } : Rectangle)) := by
    unfold pngCanvas
    rw [hw]
    cases calculateQuarters chart.StartYear chart.StartQ chart.EndYear chart.EndQ with
    | none => rfl
    | some quarters =>
      have hw0 : ¬ (0 > 200 + 120 * (quarters.length : Int) + 40) := by omega
      simp only [Option.map_some', imageRect, if_neg hw0, if_neg hh0]
  refine ⟨hw, hh, hrows, hcanvas, ?_, ?_⟩
  · rw [hcanvas]
    cases pngWidth chart with
    | none => rfl
    | some width => simp [Rectangle.Dx]
  · rw [hcanvas]
    cases pngWidth chart with
    | none => rfl
    | some width => simp [Rectangle.Dy]

/-! ### The Markup canvas: more content -/

theorem taskHeightsLoop_congr (config : svgLayoutConfig) :
    ∀ (tasks : List Task) (m1 m2 : HeightMap) (k : GoString), m1 k = m2 k →
      taskHeightsLoop config tasks m1 k = taskHeightsLoop config tasks m2 k := by
  intro tasks
  induction tasks with
  | nil => intro m1 m2 k h; exact h
  | cons t rest ih =>
    intro m1 m2 k h
    rw [taskHeightsLoop, taskHeightsLoop]
    apply ih
    by_cases hk : k = t.ID
    · rw [hk, HeightMap.set_same, HeightMap.set_same]
    · rw [HeightMap.set_other _ _ _ _ hk, HeightMap.set_other _ _ _ _ hk]
      exact h

theorem taskHeightsLoop_insert_other (config : svgLayoutConfig) (A B : List Task) (y : Task)
    (m : HeightMap) (k : GoString) (hk : k ≠ y.ID) :
    taskHeightsLoop config (A ++ y :: B) m k = taskHeightsLoop config (A ++ B) m k := by
  rw [taskHeightsLoop_append, taskHeightsLoop_append, taskHeightsLoop]
  apply taskHeightsLoop_congr
  exact HeightMap.set_other _ _ _ _ hk

theorem categoryHeightsLoop_snd_congr (config : svgLayoutConfig) :
    ∀ (cats cats2 : List Category) (pt pt2 pc : HeightMap),
      cats.map (fun c => (c.ID, c.Name)) = cats2.map (fun c => (c.ID, c.Name)) →
      (categoryHeightsLoop config cats pt pc).2 = (categoryHeightsLoop config cats2 pt2 pc).2 := by
  intro cats
  induction cats with
  | nil =>
    intro cats2 pt pt2 pc h
    cases cats2 with
    | nil => rfl
    | cons c2 rest2 => simp at h
  | cons c rest ih =>
    intro cats2 pt pt2 pc h
    cases cats2 with
    | nil => simp at h
    | cons c2 rest2 =>
      simp only [List.map_cons, List.cons.injEq, Prod.mk.injEq] at h
      rw [categoryHeightsLoop, categoryHeightsLoop, h.1.1, h.1.2]
      exact ih rest2 _ _ _ h.2

theorem heights_fst_nonneg (chart : Chart) (k : GoString) :
    0 ≤ ((calculateDynamicHeights chart svgConfig).1 k).getD 0 := by
  cases h : (calculateDynamicHeights chart svgConfig).1 k with
  | none => simp
  | some v =>
    unfold calculateDynamicHeights at h
    rw [categoryHeightsLoop_fst] at h
    have := taskHeightsLoop_bound svgConfig _ HeightMap.empty
      (fun k h hk => by simp [HeightMap.empty] at hk) k v h
    simp only [svgConfig] at this
    simp only [Option.getD_some]
    omega

theorem heights_snd_nonneg (chart : Chart) (k : GoString) :
    0 ≤ ((calculateDynamicHeights chart svgConfig).2 k).getD 0 := by
  cases h : (calculateDynamicHeights chart svgConfig).2 k with
  | none => simp
  | some v =>
    have := categoryHeightsLoop_snd_bound chart.Categories HeightMap.empty HeightMap.empty
      (fun k h hk => by simp [HeightMap.empty] at hk) k v h
    simp only [Option.getD_some]
    omega

theorem svgHeight_append_task (chart : Chart) (pre post : List Category) (cat : Category)
    (y : Task) (hcats : chart.Categories = pre ++ cat :: post)
    (hfresh : y.ID ∉ chart.allTasks.map (fun t => t.ID)) :
    svgHeight chart ≤
      svgHeight { chart with
        Categories := pre ++ { cat with Tasks := cat.Tasks ++ [y] } :: post } := by
  rw [svgHeight_eq, svgHeight_eq]
  have hpc : (calculateDynamicHeights { chart with
        Categories := pre ++ { cat with Tasks := cat.Tasks ++ [y] } :: post } svgConfig).2
      = (calculateDynamicHeights chart svgConfig).2 := by
    unfold calculateDynamicHeights
    apply categoryHeightsLoop_snd_congr
    rw [hcats]
    simp
  have hall : chart.allTasks
      = (pre.flatMap (fun c => c.Tasks) ++ cat.Tasks) ++ post.flatMap (fun c => c.Tasks) := by
    unfold Chart.allTasks
    rw [hcats]
    simp
  have hall2 : Chart.allTasks { chart with
        Categories := pre ++ { cat with Tasks := cat.Tasks ++ [y] } :: post }
      = (pre.flatMap (fun c => c.Tasks) ++ cat.Tasks)
        ++ y :: post.flatMap (fun c => c.Tasks) := by
    unfold Chart.allTasks
    simp
  have hcatsum : ((pre ++ { cat with Tasks := cat.Tasks ++ [y] } :: post).map
        (fun c => ((calculateDynamicHeights chart svgConfig).2 c.ID).getD 0)).sum
      = (chart.Categories.map
        (fun c => ((calculateDynamicHeights chart svgConfig).2 c.ID).getD 0)).sum := by
    rw [hcats]
    simp
  have hpt : ∀ t ∈ chart.allTasks,
      ((calculateDynamicHeights { chart with
          Categories := pre ++ { cat with Tasks := cat.Tasks ++ [y] } :: post } svgConfig).1
        t.ID).getD 0 = ((calculateDynamicHeights chart svgConfig).1 t.ID).getD 0 := by
    intro t ht
    have hne : t.ID ≠ y.ID := by
      intro he
      exact hfresh (he ▸ List.mem_map_of_mem (fun t => t.ID) ht)
    unfold calculateDynamicHeights
    rw [categoryHeightsLoop_fst, categoryHeightsLoop_fst]
    have h1 := hall
    have h2 := hall2
    unfold Chart.allTasks at h1 h2
    simp only at h2
    rw [h1, h2, taskHeightsLoop_insert_other svgConfig _ _ y _ _ hne]
  have hy := heights_fst_nonneg { chart with
    Categories := pre ++ { cat with Tasks := cat.Tasks ++ [y] } :: post } y.ID
  rw [hpc]
  simp only [hcatsum]
  rw [hall2, List.map_append, List.sum_append, List.map_cons, List.sum_cons, hall,
    List.map_append, List.sum_append]
  have hA : ((pre.flatMap (fun c => c.Tasks) ++ cat.Tasks).map (fun t =>
        ((calculateDynamicHeights { chart with
          Categories := pre ++ { cat with Tasks := cat.Tasks ++ [y] } :: post } svgConfig).1
          t.ID).getD 0)).sum
      = ((pre.flatMap (fun c => c.Tasks) ++ cat.Tasks).map (fun t =>
        ((calculateDynamicHeights chart svgConfig).1 t.ID).getD 0)).sum := by
    congr 1
    apply List.map_congr_left
    intro t ht
    exact hpt t (by rw [hall]; exact List.mem_append_left _ ht)
  have hB : ((post.flatMap (fun c => c.Tasks)).map (fun t =>
        ((calculateDynamicHeights { chart with
          Categories := pre ++ { cat with Tasks := cat.Tasks ++ [y] } :: post } svgConfig).1
          t.ID).getD 0)).sum
      = ((post.flatMap (fun c => c.Tasks)).map (fun t =>
        ((calculateDynamicHeights chart svgConfig).1 t.ID).getD 0)).sum := by
    congr 1
    apply List.map_congr_left
    intro t ht
    exact hpt t (by rw [hall]; exact List.mem_append_right _ ht)
  rw [hA, hB]
  omega

theorem svgHeight_append_category (chart : Chart) (newcat : Category)
    (hid : newcat.ID ∉ chart.Categories.map (fun c => c.ID))
    (hfresh : ∀ t ∈ newcat.Tasks, t.ID ∉ chart.allTasks.map (fun t => t.ID)) :
    svgHeight chart ≤ svgHeight { chart with Categories := chart.Categories ++ [newcat] } := by
  rw [svgHeight_eq, svgHeight_eq]
  have hall2 : Chart.allTasks { chart with Categories := chart.Categories ++ [newcat] }
      = chart.allTasks ++ newcat.Tasks := by
    unfold Chart.allTasks
    simp
  have hpc : ∀ c ∈ chart.Categories,
      ((calculateDynamicHeights { chart with Categories := chart.Categories ++ [newcat] }
        svgConfig).2 c.ID).getD 0 = ((calculateDynamicHeights chart svgConfig).2 c.ID).getD 0 := by
    intro c hc
    have hne : c.ID ≠ newcat.ID := by
      intro he
      exact hid (he ▸ List.mem_map_of_mem (fun c => c.ID) hc)
    unfold calculateDynamicHeights
    simp only
    rw [categoryHeightsLoop_append, categoryHeightsLoop, categoryHeightsLoop]
    dsimp only
    rw [HeightMap.set_other _ _ _ _ hne]
  have hpt : ∀ t ∈ chart.allTasks,
      ((calculateDynamicHeights { chart with Categories := chart.Categories ++ [newcat] }
        svgConfig).1 t.ID).getD 0 = ((calculateDynamicHeights chart svgConfig).1 t.ID).getD 0 := by
    intro t ht
    have hne : t.ID ∉ newcat.Tasks.map (fun t => t.ID) := by
      intro hmem
      obtain ⟨t2, ht2, he⟩ := List.mem_map.mp hmem
      exact hfresh t2 ht2 (he ▸ List.mem_map_of_mem (fun t => t.ID) ht)
    unfold calculateDynamicHeights
    rw [categoryHeightsLoop_fst, categoryHeightsLoop_fst]
    simp only [List.flatMap_append, List.flatMap_cons, List.flatMap_nil, List.append_nil]
    rw [taskHeightsLoop_append, taskHeightsLoop_absent svgConfig _ _ _ hne]
  have hnewcat := heights_snd_nonneg
    { chart with Categories := chart.Categories ++ [newcat] } newcat.ID
  have hnewtasks : 0 ≤ (newcat.Tasks.map (fun t =>
      ((calculateDynamicHeights { chart with Categories := chart.Categories ++ [newcat] }
        svgConfig).1 t.ID).getD 0)).sum := by
    apply List.sum_nonneg
    intro x hx
    obtain ⟨t, _, rfl⟩ := List.mem_map.mp hx
    exact heights_fst_nonneg _ t.ID
  rw [hall2]
  simp only [List.map_append, List.sum_append, List.map_cons, List.map_nil, List.sum_cons,
    List.sum_nil]
  have hA : (chart.Categories.map (fun c =>
        ((calculateDynamicHeights { chart with Categories := chart.Categories ++ [newcat] }
          svgConfig).2 c.ID).getD 0)).sum
      = (chart.Categories.map (fun c =>
        ((calculateDynamicHeights chart svgConfig).2 c.ID).getD 0)).sum := by
    congr 1
    exact List.map_congr_left hpc
  have hB : (chart.allTasks.map (fun t =>
        ((calculateDynamicHeights { chart with Categories := chart.Categories ++ [newcat] }
          svgConfig).1 t.ID).getD 0)).sum
      = (chart.allTasks.map (fun t =>
        ((calculateDynamicHeights chart svgConfig).1 t.ID).getD 0)).sum := by
    congr 1
    exact List.map_congr_left hpt
  rw [hA, hB]
  omega

/-- C15, as the claim states it, fails for a chart with a repeated task ID: `shrinkChart` has
one task `a` whose six-line description makes its row 94 high, so the canvas is
`120 + 35 + 94 = 249` high; appending the task `dupTask`, which carries the same ID `a` and
has no description, overwrites the map entry with 40, and the canvas of the larger chart is
only `120 + 35 + 40 + 40 = 235` high. -/
theorem svgCanvas_monotone_counterexample :
    svgHeight shrinkChart = 249 ∧
      svgHeight { shrinkChart with
        Categories := [{ ID := "cat1".data, Name := "Platform".data, Color := "#336699".data,
                         Tasks := [longTask] ++ [dupTask] }] } = 235 ∧
      ¬ (svgHeight shrinkChart ≤ svgHeight { shrinkChart with
        Categories := [{ ID := "cat1".data, Name := "Platform".data, Color := "#336699".data,
                         Tasks := [longTask] ++ [dupTask] }] }) := by
  decide

/-- C15, amended: more content never shrinks the Markup canvas when the added content has
fresh IDs. Appending to one category a task whose ID differs from every task ID of the
chart, or appending a category whose ID differs from every category ID of the chart and whose
tasks have IDs that differ from every task ID of the chart, gives a canvas that is at least as
high, and equally wide. -/
theorem svgCanvas_monotone (chart : Chart) :
    (∀ (pre post : List Category) (cat : Category) (y : Task),
        chart.Categories = pre ++ cat :: post →
        y.ID ∉ chart.allTasks.map (fun t => t.ID) →
        svgHeight chart ≤ svgHeight { chart with
            Categories := pre ++ { cat with Tasks := cat.Tasks ++ [y] } :: post } ∧
          svgWidth { chart with
            Categories := pre ++ { cat with Tasks := cat.Tasks ++ [y] } :: post }
            = svgWidth chart) ∧
      (∀ (newcat : Category),
        newcat.ID ∉ chart.Categories.map (fun c => c.ID) →
        (∀ t ∈ newcat.Tasks, t.ID ∉ chart.allTasks.map (fun t => t.ID)) →
        svgHeight chart ≤ svgHeight { chart with Categories := chart.Categories ++ [newcat] } ∧
          svgWidth { chart with Categories := chart.Categories ++ [newcat] }
            = svgWidth chart) :=
  ⟨fun pre post cat y hcats hfresh =>
      ⟨svgHeight_append_task chart pre post cat y hcats hfresh, rfl⟩,
    fun newcat hid hfresh => ⟨svgHeight_append_category chart newcat hid hfresh, rfl⟩⟩

/-- Witness of the amended C15: appending to the category of `shrinkChart` a task with the
fresh ID `b`, and appending a category with the fresh ID `cat2`, does not shrink the canvas. -/
theorem svgCanvas_monotone_witness :
    svgHeight shrinkChart ≤ svgHeight { shrinkChart with
        Categories := [] ++ { (shrinkChart.Categories.head (by decide)) with
          Tasks := (shrinkChart.Categories.head (by decide)).Tasks
            ++ [{ dupTask with ID := "b".data }] } :: [] } ∧
      svgHeight shrinkChart ≤ svgHeight { shrinkChart with
        Categories := shrinkChart.Categories
          ++ [{ ID := "cat2".data, Name := "Later".data, Color := [], Tasks := [] }] } :=
  ⟨((svgCanvas_monotone shrinkChart).1 [] [] (shrinkChart.Categories.head (by decide))
      { dupTask with ID := "b".data } (by decide) (by decide)).1,
    ((svgCanvas_monotone shrinkChart).2
      { ID := "cat2".data, Name := "Later".data, Color := [], Tasks := [] }
      (by decide) (by decide)).1⟩

/-! ### The Markup bar -/

theorem findQuarterIndexFrom_range (year quarter : Int) :
    ∀ (l : List quarterInfo) (i : Nat),
      findQuarterIndexFrom year quarter i l = -1 ∨
        ((i : Int) ≤ findQuarterIndexFrom year quarter i l ∧
          findQuarterIndexFrom year quarter i l < (i : Int) + (l.length : Int) ∧
          l[(findQuarterIndexFrom year quarter i l - (i : Int)).toNat]? =
            some { year := year, quarter := quarter }) := by
  intro l
  induction l with
  | nil => intro i; left; rfl
  | cons a t ih =>
    intro i
    rw [findQuarterIndexFrom]
    split_ifs with h
    · right
      refine ⟨le_refl _, by simp, ?_⟩
      obtain ⟨ay, aq⟩ := a
      simp only at h
      simp [h.1, h.2]
    · rcases ih (i + 1) with h1 | ⟨h1, h2, h3⟩
      · left; exact h1
      · right
        push_cast at h1 h2
        refine ⟨by omega, by simp only [List.length_cons]; push_cast; omega, ?_⟩
        have e : (findQuarterIndexFrom year quarter (i + 1) t - (i : Int)).toNat
            = (findQuarterIndexFrom year quarter (i + 1) t - ((i + 1 : Nat) : Int)).toNat + 1 := by
          push_cast
          omega
        rw [e, List.getElem?_cons_succ]
        exact h3

/-- A found index is a position of the axis, and the axis holds the pair there. -/
theorem findQuarterIndex_found (quarters : List quarterInfo) (year quarter : Int)
    (h : 0 ≤ findQuarterIndex quarters year quarter) :
    findQuarterIndex quarters year quarter < (quarters.length : Int) ∧
      quarters[(findQuarterIndex quarters year quarter).toNat]? =
        some { year := year, quarter := quarter } := by
  unfold findQuarterIndex at h ⊢
  rcases findQuarterIndexFrom_range year quarter quarters 0 with h1 | ⟨_, h2, h3⟩
  · omega
  · simp only [Nat.cast_zero, zero_add, sub_zero] at h2 h3
    exact ⟨h2, h3⟩

theorem writeQuarterHeadersLoop_append (ctx : svgRenderContext) (height : Int) :
    ∀ (a b : List quarterInfo) (i : Nat),
      ctx.writeQuarterHeadersLoop height i (a ++ b) =
        ctx.writeQuarterHeadersLoop height i a
          ++ ctx.writeQuarterHeadersLoop height (i + a.length) b := by
  intro a
  induction a with
  | nil => intro b i; simp [svgRenderContext.writeQuarterHeadersLoop]
  | cons q rest ih =>
    intro b i
    rw [List.cons_append, svgRenderContext.writeQuarterHeadersLoop,
      svgRenderContext.writeQuarterHeadersLoop, ih b (i + 1)]
    simp only [List.append_assoc, List.length_cons]
    have e : i + 1 + rest.length = i + (rest.length + 1) := by omega
    rw [e]

/-- The header cell of column `i` starts with a `<rect>` whose `x` is the left edge
`padding + labelWidth + i*quarterWidth` of the column. -/
theorem writeQuarterHeaders_column (ctx : svgRenderContext) (height : Int) (i : Nat)
    (hi : i < ctx.quarters.length) :
    ∃ after : GoString, ctx.writeQuarterHeaders height =
      ctx.writeQuarterHeadersLoop height 0 (ctx.quarters.take i) ++ "<rect x=\"".data
        ++ itoa (ctx.config.padding + ctx.config.labelWidth + (i : Int) * ctx.config.quarterWidth)
        ++ after := by
  unfold svgRenderContext.writeQuarterHeaders
  have hlen : (ctx.quarters.take i).length = i := by
    rw [List.length_take]
    omega
  have key := writeQuarterHeadersLoop_append ctx height (ctx.quarters.take i)
    (ctx.quarters.drop i) 0
  rw [List.take_append_drop, hlen, zero_add] at key
  cases hd : ctx.quarters.drop i with
  | nil =>
    have := List.drop_eq_nil_iff.mp hd
    omega
  | cons q rest =>
    rw [hd, svgRenderContext.writeQuarterHeadersLoop] at key
    rw [key]
    simp only [List.append_assoc]
    exact ⟨_, rfl⟩

/-- A placed bar: the text written by the Markup `writeTaskBar` when both ends of the span
are on the axis. -/
theorem writeTaskBar_placed (ctx : svgRenderContext) (task : Task) (catColor : GoString)
    (currentY h : Int)
    (hs : 0 ≤ findQuarterIndex ctx.quarters task.StartYear task.StartQ)
    (he : 0 ≤ findQuarterIndex ctx.quarters task.EndYear task.EndQ) :
    ctx.writeTaskBar task catColor currentY h =
      svgBarText
        (ctx.config.padding + ctx.config.labelWidth
          + findQuarterIndex ctx.quarters task.StartYear task.StartQ * ctx.config.quarterWidth + 2)
        (currentY + 8)
        ((findQuarterIndex ctx.quarters task.EndYear task.EndQ
          - findQuarterIndex ctx.quarters task.StartYear task.StartQ + 1)
          * ctx.config.quarterWidth - 4)
        (if h - 16 < 12 then 12 else h - 16)
        (if task.Color = [] then catColor else task.Color)
        (darken (if task.Color = [] then catColor else task.Color)) := by
  have hcond : ¬ (findQuarterIndex ctx.quarters task.StartYear task.StartQ < 0 ∨
      findQuarterIndex ctx.quarters task.EndYear task.EndQ < 0) := by omega
  unfold svgRenderContext.writeTaskBar svgBarText
  simp only [if_neg hcond]

/-- An unplaced bar: the Markup `writeTaskBar` writes nothing when an end of the span is not
on the axis. -/
theorem writeTaskBar_unplaced (ctx : svgRenderContext) (task : Task) (catColor : GoString)
    (currentY h : Int)
    (hout : findQuarterIndex ctx.quarters task.StartYear task.StartQ < 0 ∨
      findQuarterIndex ctx.quarters task.EndYear task.EndQ < 0) :
    ctx.writeTaskBar task catColor currentY h = [] := by
  unfold svgRenderContext.writeTaskBar
  simp only [if_pos hout]

/-! ### The Markup bar: the claims -/

/-- C16: when the start and end quarters of a task are found on the axis at indices `s` and
`e`, the bar written by the Markup `writeTaskBar` spans the columns `s..e` inclusive: its `x`
is the left edge `padding + labelWidth + s*quarterWidth` of header column `s` plus the inset
2, its width is `(e - s + 1)*quarterWidth` minus the inset 4, so that it ends 2 before the
right edge of column `e`; and the header cell of column `s` is drawn at that left edge. -/
theorem writeTaskBar_span (ctx : svgRenderContext) (task : Task) (catColor : GoString)
    (currentY h s e : Int)
    (hs : findQuarterIndex ctx.quarters task.StartYear task.StartQ = s)
    (he : findQuarterIndex ctx.quarters task.EndYear task.EndQ = e)
    (hs0 : 0 ≤ s) (he0 : 0 ≤ e) :
    ctx.writeTaskBar task catColor currentY h =
        svgBarText
          (ctx.config.padding + ctx.config.labelWidth + s * ctx.config.quarterWidth + 2)
          (currentY + 8)
          ((e - s + 1) * ctx.config.quarterWidth - 4)
          (if h - 16 < 12 then 12 else h - 16)
          (if task.Color = [] then catColor else task.Color)
          (darken (if task.Color = [] then catColor else task.Color)) ∧
      (ctx.config.padding + ctx.config.labelWidth + s * ctx.config.quarterWidth + 2)
          + ((e - s + 1) * ctx.config.quarterWidth - 4)
        = ctx.config.padding + ctx.config.labelWidth + (e + 1) * ctx.config.quarterWidth - 2 ∧
      (∀ height : Int, ∃ after : GoString, ctx.writeQuarterHeaders height =
        ctx.writeQuarterHeadersLoop height 0 (ctx.quarters.take s.toNat) ++ "<rect x=\"".data
          ++ itoa (ctx.config.padding + ctx.config.labelWidth + s * ctx.config.quarterWidth)
          ++ after) := by
  subst hs
  subst he
  refine ⟨writeTaskBar_placed ctx task catColor currentY h hs0 he0, by ring, ?_⟩
  intro height
  have hfound := findQuarterIndex_found ctx.quarters task.StartYear task.StartQ hs0
  have hlt : (findQuarterIndex ctx.quarters task.StartYear task.StartQ).toNat
      < ctx.quarters.length := by omega
  have hcast : (((findQuarterIndex ctx.quarters task.StartYear task.StartQ).toNat : Nat) : Int)
      = findQuarterIndex ctx.quarters task.StartYear task.StartQ := by omega
  have := writeQuarterHeaders_column ctx height _ hlt
  rw [hcast] at this
  exact this

/-- Witness of C16: on the axis 2024Q1..2024Q4 of the sample chart, the task 2024Q2..2024Q3
is found at the indices 1 and 2, and its bar has `x = 342` and `width = 2*120 - 4 = 236`. -/
theorem writeTaskBar_span_witness :
    findQuarterIndex (svgContext sampleAxis sampleChart).quarters
        shipTask.StartYear shipTask.StartQ = 1 ∧
      findQuarterIndex (svgContext sampleAxis sampleChart).quarters
        shipTask.EndYear shipTask.EndQ = 2 ∧
      (svgContext sampleAxis sampleChart).writeTaskBar shipTask "#336699".data 115 40 =
        svgBarText 342 123 236 24 "#336699".data "#336699".data :=
  ⟨by decide, by decide,
    (writeTaskBar_span (svgContext sampleAxis sampleChart) shipTask "#336699".data 115 40 1 2
      (by decide) (by decide) (by decide) (by decide)).1.trans rfl⟩

theorem tspanLoop_succ (ctx : svgRenderContext) (dyFirst dyNext : Int) :
    ∀ (lines : List GoString) (i : Nat),
      ctx.tspanLoop dyFirst dyNext (i + 1) lines =
        lines.flatMap (svgTspanText (ctx.config.padding + 10) dyNext) := by
  intro lines
  induction lines with
  | nil => intro i; rfl
  | cons ln rest ih =>
    intro i
    rw [svgRenderContext.tspanLoop, ih (i + 1)]
    simp only [if_pos (Nat.succ_pos i), List.flatMap_cons, svgTspanText, List.append_assoc]

theorem tspanLoop_zero (ctx : svgRenderContext) (dyFirst dyNext : Int) (first : GoString)
    (more : List GoString) :
    ctx.tspanLoop dyFirst dyNext 0 (first :: more) =
      svgTspanText (ctx.config.padding + 10) dyFirst first
        ++ more.flatMap (svgTspanText (ctx.config.padding + 10) dyNext) := by
  rw [svgRenderContext.tspanLoop, tspanLoop_succ]
  simp only [if_neg (Nat.lt_irrefl 0), svgTspanText, List.append_assoc]

/-- The text written by the Markup `writeTaskText`: the `<text>` element of the wrapped title
at `currentY + 14`, then the `<text>` element of the wrapped description 4 below the last
title line. -/
theorem writeTaskText_eq (ctx : svgRenderContext) (task : Task) (currentY : Int) :
    (ctx.writeTaskText task currentY).1 =
      svgTitleText (ctx.config.padding + 10) (currentY + 14) ctx.config.titleLineHeight
          (wrapText task.Title 28)
        ++ svgDescText (ctx.config.padding + 10)
          (currentY + 14 + ((wrapText task.Title 28).length : Int) * ctx.config.titleLineHeight
            + 4)
          ctx.config.descLineHeight (wrapText task.Description 36) := by
  unfold svgRenderContext.writeTaskText
  simp only []
  cases ht : wrapText task.Title 28 with
  | nil =>
    cases hd : wrapText task.Description 36 with
    | nil => simp [svgTitleText, svgDescText]
    | cons d ds =>
      simp only [List.length_nil, List.length_cons, gt_iff_lt, lt_self_iff_false, if_false,
        Nat.succ_pos, if_true, svgTitleText, svgDescText, tspanLoop_zero, List.nil_append,
        Nat.cast_zero, zero_mul, add_zero, List.append_assoc]
  | cons t ts =>
    cases hd : wrapText task.Description 36 with
    | nil =>
      simp only [List.length_nil, List.length_cons, gt_iff_lt, lt_self_iff_false, if_false,
        Nat.succ_pos, if_true, svgTitleText, svgDescText, tspanLoop_zero, List.append_nil,
        List.append_assoc]
    | cons d ds =>
      simp only [List.length_cons, gt_iff_lt, Nat.succ_pos, if_true, svgTitleText,
        svgDescText, tspanLoop_zero, List.append_assoc]

/-- C17: the chart `maxChart`, whose display range is the year `MaxInt64`, makes
`GenerateSVG` never return, so it returns no nil error: its first statement calls
`calculateQuarters`, whose `year++` wraps around. Every call of `GenerateSVG` that returns
returns a nil error, and it returns exactly when `calculateQuarters` does. For a task whose
start or end quarter is not found on the axis, the Markup `writeTaskBar` writes nothing,
while `writeTasks` still writes the bordered label cell of the task, the `<text>` element of
its wrapped title (one `<tspan>` per line) and that of its description, and advances the
vertical cursor by the row height of the task (the height map entry, or the base row height
when the entry is 0); on the axis 2024Q1..2024Q4 the row of `outTask` (2030Q1..2030Q2) is
the cell and the title `Later` and nothing else. -/
theorem unplaced_task_row :
    GenerateSVG maxChart = none ∧
      (∀ fuel : Nat, yearLoop maxInt 1 maxInt 4 fuel maxInt [] = none) ∧
      (∀ chart : Chart,
        (GenerateSVG chart = none ↔
          calculateQuarters chart.StartYear chart.StartQ chart.EndYear chart.EndQ = none) ∧
        ∀ (out : GoString) (err : Option GoString),
          GenerateSVG chart = some (out, err) → err = none) ∧
      (∀ (ctx : svgRenderContext) (task : Task) (rest : List Task) (catColor : GoString)
          (currentY : Int),
        (findQuarterIndex ctx.quarters task.StartYear task.StartQ = -1 ∨
          findQuarterIndex ctx.quarters task.EndYear task.EndQ = -1) →
        (∀ h : Int, ctx.writeTaskBar task catColor currentY h = []) ∧
        ctx.writeTasks catColor (task :: rest) currentY =
          (svgCellText ctx.config.padding currentY ctx.config.labelWidth
              (if ctx.perTaskHeights.get task.ID = 0 then ctx.config.baseRowHeight
                else ctx.perTaskHeights.get task.ID)
            ++ svgTitleText (ctx.config.padding + 10) (currentY + 14)
              ctx.config.titleLineHeight (wrapText task.Title 28)
            ++ svgDescText (ctx.config.padding + 10)
              (currentY + 14
                + ((wrapText task.Title 28).length : Int) * ctx.config.titleLineHeight + 4)
              ctx.config.descLineHeight (wrapText task.Description 36)
            ++ (ctx.writeTasks catColor rest (currentY
              + (if ctx.perTaskHeights.get task.ID = 0 then ctx.config.baseRowHeight
                else ctx.perTaskHeights.get task.ID))).1,
           (ctx.writeTasks catColor rest (currentY
              + (if ctx.perTaskHeights.get task.ID = 0 then ctx.config.baseRowHeight
                else ctx.perTaskHeights.get task.ID))).2) ∧
        (ctx.writeTasks catColor [task] currentY).2 = currentY
          + (if ctx.perTaskHeights.get task.ID = 0 then ctx.config.baseRowHeight
            else ctx.perTaskHeights.get task.ID)) ∧
      findQuarterIndex (svgContext sampleAxis sampleChart).quarters
        outTask.StartYear outTask.StartQ = -1 ∧
      (svgContext sampleAxis sampleChart).writeTaskBar outTask "#336699".data 115 40 = [] ∧
      (svgContext sampleAxis sampleChart).writeTasks "#336699".data [outTask] 115 =
        (("<rect x=\"20\" y=\"115\" width=\"200\" height=\"40\" fill=\"#fff\" "
          ++ "stroke=\"#ddd\" stroke-width=\"1\"/>"
          ++ "<text x=\"30\" y=\"129\" class=\"label\"><tspan x=\"30\" dy=\"0\">Later</tspan>"
          ++ "</text>").data, 155) := by
  refine ⟨by decide, ?_, ?_, ?_, by decide, by rfl, by rfl⟩
  · intro fuel
    exact yearLoop_diverges_year maxInt 1 maxInt 4 (le_refl _) fuel _ _ (le_refl _)
  · intro chart
    refine ⟨GenerateSVG_none_iff chart, ?_⟩
    intro out err h
    cases hq : calculateQuarters chart.StartYear chart.StartQ chart.EndYear chart.EndQ with
    | none =>
      rw [(GenerateSVG_none_iff chart).mpr hq] at h
      exact absurd h (by simp)
    | some quarters =>
      rw [GenerateSVG_some chart quarters hq] at h
      simp only [Option.some.injEq, Prod.mk.injEq] at h
      exact h.2.symm
  · intro ctx task rest catColor currentY hout
    have hbar : ∀ h : Int, ctx.writeTaskBar task catColor currentY h = [] := by
      intro h
      apply writeTaskBar_unplaced
      rcases hout with h1 | h1
      · left; omega
      · right; omega
    refine ⟨hbar, ?_, ?_⟩
    · rw [svgRenderContext.writeTasks]
      simp only [hbar, List.append_nil, svgCellText, writeTaskText_eq, List.append_assoc]
    · rw [svgRenderContext.writeTasks, svgRenderContext.writeTasks]

/-! ### Bar colors in the three backends -/

theorem drawTaskBar_placed (ctx : pngRenderContext) (task : Task) (catColor : RGBA)
    (currentY : Int)
    (hs : 0 ≤ findQuarterIndex ctx.quarters task.StartYear task.StartQ)
    (he : 0 ≤ findQuarterIndex ctx.quarters task.EndYear task.EndQ) :
    ctx.drawTaskBar task catColor currentY =
      [pngOp.drawRoundedRect
        (ctx.config.padding + ctx.config.labelWidth
          + findQuarterIndex ctx.quarters task.StartYear task.StartQ * ctx.config.quarterWidth + 2)
        (currentY + 8)
        ((findQuarterIndex ctx.quarters task.EndYear task.EndQ
          - findQuarterIndex ctx.quarters task.StartYear task.StartQ + 1)
          * ctx.config.quarterWidth - 4)
        (ctx.config.rowHeight - 16) 4
        { R := (if task.Color = [] then catColor else parseColor task.Color).R
          G := (if task.Color = [] then catColor else parseColor task.Color).G
          B := (if task.Color = [] then catColor else parseColor task.Color).B
          A := 204 }] := by
  have hcond : ¬ (findQuarterIndex ctx.quarters task.StartYear task.StartQ < 0 ∨
      findQuarterIndex ctx.quarters task.EndYear task.EndQ < 0) := by omega
  unfold pngRenderContext.drawTaskBar
  simp only [if_neg hcond]

theorem pdf_writeTaskBar_placed (ctx : pdfRenderContext) (task : Task) (catColor : GoString)
    (currentY : Int)
    (hs : 0 ≤ findQuarterIndex ctx.quarters task.StartYear task.StartQ)
    (he : 0 ≤ findQuarterIndex ctx.quarters task.EndYear task.EndQ) :
    ctx.writeTaskBar task catColor currentY =
      some
        { fillR := ((parseColor (if task.Color = [] then catColor else task.Color)).R : Int)
          fillG := ((parseColor (if task.Color = [] then catColor else task.Color)).G : Int)
          fillB := ((parseColor (if task.Color = [] then catColor else task.Color)).B : Int)
          x := ctx.config.padding + ctx.config.labelWidth
            + findQuarterIndex ctx.quarters task.StartYear task.StartQ * ctx.config.quarterWidth
            + 1
          y := currentY + 2
          width := (findQuarterIndex ctx.quarters task.EndYear task.EndQ
            - findQuarterIndex ctx.quarters task.StartYear task.StartQ + 1)
            * ctx.config.quarterWidth - 2
          height := ctx.config.rowHeight - 4 } := by
  have hcond : ¬ (findQuarterIndex ctx.quarters task.StartYear task.StartQ < 0 ∨
      findQuarterIndex ctx.quarters task.EndYear task.EndQ < 0) := by omega
  unfold pdfRenderContext.writeTaskBar parseColorRGB
  simp only [if_neg hcond]

theorem resolvedColor_eq (taskColor catColor : GoString) :
    (if taskColor = [] then catColor else taskColor) = resolvedColor taskColor catColor := by
  unfold resolvedColor
  by_cases h : taskColor = []
  · simp [h]
  · simp [h]

theorem parseColor_resolved (taskColor catColor : GoString) :
    (if taskColor = [] then parseColor catColor else parseColor taskColor)
      = parseColor (resolvedColor taskColor catColor) := by
  unfold resolvedColor
  by_cases h : taskColor = []
  · simp [h]
  · simp [h]

theorem drawTasks_mem (ctx : pngRenderContext) (catColor : RGBA) (task : Task) :
    ∀ (tasks : List Task) (currentY : Int), task ∈ tasks →
      ∃ y : Int, ∀ op ∈ ctx.drawTaskBar task catColor y,
        op ∈ (ctx.drawTasks catColor tasks currentY).1 := by
  intro tasks
  induction tasks with
  | nil => intro _ h; simp at h
  | cons t rest ih =>
    intro currentY h
    rw [pngRenderContext.drawTasks]
    rcases List.mem_cons.mp h with h1 | h1
    · subst h1
      refine ⟨currentY, fun op hop => ?_⟩
      exact List.mem_append_left _ (List.mem_append_right _ hop)
    · obtain ⟨y, hy⟩ := ih (currentY + ctx.config.rowHeight) h1
      exact ⟨y, fun op hop => List.mem_append_right _ (hy op hop)⟩

theorem drawCategoriesLoop_mem (ctx : pngRenderContext) (cat : Category) (task : Task)
    (ht : task ∈ cat.Tasks) :
    ∀ (cats : List Category) (currentY : Int), cat ∈ cats →
      ∃ y : Int, ∀ op ∈ ctx.drawTaskBar task (parseColor cat.Color) y,
        op ∈ (ctx.drawCategoriesLoop cats currentY).1 := by
  intro cats
  induction cats with
  | nil => intro _ h; simp at h
  | cons c rest ih =>
    intro currentY h
    rw [pngRenderContext.drawCategoriesLoop]
    rcases List.mem_cons.mp h with h1 | h1
    · subst h1
      obtain ⟨y, hy⟩ := drawTasks_mem ctx (parseColor cat.Color) task cat.Tasks
        (currentY + ctx.config.categoryHeaderHeight) ht
      refine ⟨y, fun op hop => ?_⟩
      apply List.mem_append_left
      unfold pngRenderContext.drawCategory
      exact List.mem_append_right _ (hy op hop)
    · obtain ⟨y, hy⟩ := ih _ h1
      exact ⟨y, fun op hop => List.mem_append_right _ (hy op hop)⟩

/-! ### Bar colors in the three backends: the claims -/

/-- C18: in all three backends the bar of a placed task is filled with the resolved color,
the override color of the task if it is non-empty and the color of the owning category
otherwise. Raster: the bar call issued for a task of a category of the chart carries the RGB
of `parseColor` of the resolved color (with alpha 204). Document: the fill set for the bar is
the same RGB. Markup: the fill attribute is the resolved color string itself. -/
theorem barColor_resolution (task : Task) (cat : Category) :
    (∀ (ctx : pngRenderContext) (chart : Chart), cat ∈ chart.Categories → task ∈ cat.Tasks →
        0 ≤ findQuarterIndex ctx.quarters task.StartYear task.StartQ →
        0 ≤ findQuarterIndex ctx.quarters task.EndYear task.EndQ →
        ∃ x y w h : Int,
          pngOp.drawRoundedRect x y w h 4
            { R := (parseColor (resolvedColor task.Color cat.Color)).R
              G := (parseColor (resolvedColor task.Color cat.Color)).G
              B := (parseColor (resolvedColor task.Color cat.Color)).B
              A := 204 } ∈ ctx.drawCategoriesAndTasks chart) ∧
      (∀ (ctx : pngRenderContext) (currentY : Int),
        0 ≤ findQuarterIndex ctx.quarters task.StartYear task.StartQ →
        0 ≤ findQuarterIndex ctx.quarters task.EndYear task.EndQ →
        ∃ x y w h : Int, ctx.drawTaskBar task (parseColor cat.Color) currentY =
          [pngOp.drawRoundedRect x y w h 4
            { R := (parseColor (resolvedColor task.Color cat.Color)).R
              G := (parseColor (resolvedColor task.Color cat.Color)).G
              B := (parseColor (resolvedColor task.Color cat.Color)).B
              A := 204 }]) ∧
      (∀ (ctx : pdfRenderContext) (currentY : Int),
        0 ≤ findQuarterIndex ctx.quarters task.StartYear task.StartQ →
        0 ≤ findQuarterIndex ctx.quarters task.EndYear task.EndQ →
        ∃ bar : pdfBar, ctx.writeTaskBar task cat.Color currentY = some bar ∧
          bar.fillR = ((parseColor (resolvedColor task.Color cat.Color)).R : Int) ∧
          bar.fillG = ((parseColor (resolvedColor task.Color cat.Color)).G : Int) ∧
          bar.fillB = ((parseColor (resolvedColor task.Color cat.Color)).B : Int)) ∧
      (∀ (ctx : svgRenderContext) (currentY h : Int),
        0 ≤ findQuarterIndex ctx.quarters task.StartYear task.StartQ →
        0 ≤ findQuarterIndex ctx.quarters task.EndYear task.EndQ →
        ∃ x y w h2 : Int, ctx.writeTaskBar task cat.Color currentY h =
          svgBarText x y w h2 (resolvedColor task.Color cat.Color)
            (darken (resolvedColor task.Color cat.Color))) := by
  have hpng : ∀ (ctx : pngRenderContext) (currentY : Int),
      0 ≤ findQuarterIndex ctx.quarters task.StartYear task.StartQ →
      0 ≤ findQuarterIndex ctx.quarters task.EndYear task.EndQ →
      ∃ x y w h : Int, ctx.drawTaskBar task (parseColor cat.Color) currentY =
        [pngOp.drawRoundedRect x y w h 4
          { R := (parseColor (resolvedColor task.Color cat.Color)).R
            G := (parseColor (resolvedColor task.Color cat.Color)).G
            B := (parseColor (resolvedColor task.Color cat.Color)).B
            A := 204 }] := by
    intro ctx currentY hs he
    rw [drawTaskBar_placed ctx task _ currentY hs he, parseColor_resolved]
    exact ⟨_, _, _, _, rfl⟩
  refine ⟨?_, hpng, ?_, ?_⟩
  · intro ctx chart hcat ht hs he
    obtain ⟨y, hy⟩ := drawCategoriesLoop_mem ctx cat task ht chart.Categories
      ctx.config.headerHeight hcat
    obtain ⟨x, y2, w, h, hbar⟩ := hpng ctx y hs he
    refine ⟨x, y2, w, h, ?_⟩
    unfold pngRenderContext.drawCategoriesAndTasks
    apply hy
    rw [hbar]
    exact List.mem_singleton.mpr rfl
  · intro ctx currentY hs he
    refine ⟨_, pdf_writeTaskBar_placed ctx task cat.Color currentY hs he, ?_, ?_, ?_⟩ <;>
      simp only [resolvedColor_eq]
  · intro ctx currentY h hs he
    rw [writeTaskBar_placed ctx task cat.Color currentY h hs he, resolvedColor_eq]
    exact ⟨_, _, _, _, rfl⟩

/-- Witness of C18: the task `shipTask` has no override color and sits in the category of the
sample chart, whose color is `#336699`; on the axis 2024Q1..2024Q4 the Document bar is filled
with the RGB (51, 102, 153) of that color. -/
theorem barColor_resolution_witness :
    resolvedColor shipTask.Color "#336699".data = "#336699".data ∧
      ∃ bar : pdfBar,
        pdfRenderContext.writeTaskBar
          { quarters := sampleAxis, config := pdfConfig } shipTask
          "#336699".data 28 = some bar ∧
        bar.fillR = 51 ∧ bar.fillG = 102 ∧ bar.fillB = 153 := by
  refine ⟨by decide, ?_⟩
  obtain ⟨bar, h1, h2, h3, h4⟩ :=
    (barColor_resolution shipTask (sampleChart.Categories.head (by decide))).2.2.1
      { quarters := sampleAxis, config := pdfConfig } 28
      (by decide) (by decide)
  exact ⟨bar, h1, h2.trans (by decide), h3.trans (by decide), h4.trans (by decide)⟩

/-- C19, evaluated where the code departs from it: a string of `#` and six characters that
are no hexadecimal digits is malformed, yet `parseColor` does not return the default color
(100, 149, 237, 255) for it. The errors of `ParseUint` are discarded, so each channel with a
bad digit is 0: `#zzzzzz` gives (0, 0, 0, 255) and `#12345G` gives (18, 52, 0, 255). The
fallback is taken for the empty string and for a wrong length, and six hexadecimal digits are
parsed as the claim says. -/
theorem parseColor_nonhex :
    parseColor "#zzzzzz".data = { R := 0, G := 0, B := 0, A := 255 } ∧
      parseColor "#zzzzzz".data ≠ { R := 100, G := 149, B := 237, A := 255 } ∧
      parseColor "#12345G".data = { R := 18, G := 52, B := 0, A := 255 } ∧
      parseColor [] = { R := 100, G := 149, B := 237, A := 255 } ∧
      parseColor "#12345".data = { R := 100, G := 149, B := 237, A := 255 } ∧
      parseColor "#336699".data = { R := 0x33, G := 0x66, B := 0x99, A := 255 } := by
  decide

set_option maxRecDepth 100000 in
/-- C20, evaluated where the code departs from it: in `plainChart` neither the category nor
its placed task `shipTask` has a color, and the Markup backend writes the empty string as the
fill of both category bands and of the bar (`fill=""`), not a default color; only the stroke
of the bar falls back, to `#333`, through `darken`. The text of the category is part of the
output of `GenerateSVG`. -/
theorem svg_empty_fill :
    resolvedColor shipTask.Color plainCategory.Color = [] ∧
      (svgContext sampleAxis plainChart).writeTaskBar shipTask plainCategory.Color 115 40 =
        ("<rect x=\"342\" y=\"123\" width=\"236\" height=\"24\" fill=\"\" rx=\"4\" "
          ++ "opacity=\"0.8\"/><rect x=\"342\" y=\"123\" width=\"236\" height=\"24\" "
          ++ "fill=\"none\" stroke=\"#333\" stroke-width=\"2\" rx=\"4\"/>").data ∧
      ((svgContext sampleAxis plainChart).writeCategory plainCategory 80).1 =
        ("<rect x=\"20\" y=\"80\" width=\"200\" height=\"35\" fill=\"\" opacity=\"0.3\"/>"
          ++ "<text x=\"30\" y=\"102\" class=\"category\">Platform</text>"
          ++ "<rect x=\"220\" y=\"80\" width=\"480\" height=\"35\" fill=\"\" opacity=\"0.05\"/>"
          ++ "<rect x=\"20\" y=\"115\" width=\"200\" height=\"40\" fill=\"#fff\" "
          ++ "stroke=\"#ddd\" stroke-width=\"1\"/>"
          ++ "<text x=\"30\" y=\"129\" class=\"label\"><tspan x=\"30\" dy=\"0\">Ship</tspan>"
          ++ "</text>"
          ++ "<rect x=\"342\" y=\"123\" width=\"236\" height=\"24\" fill=\"\" rx=\"4\" "
          ++ "opacity=\"0.8\"/><rect x=\"342\" y=\"123\" width=\"236\" height=\"24\" "
          ++ "fill=\"none\" stroke=\"#333\" stroke-width=\"2\" rx=\"4\"/>").data ∧
      GenerateSVG plainChart =
        some ((svgContext sampleAxis plainChart).writeSVGHeader 720 (svgHeight plainChart)
          ++ (svgContext sampleAxis plainChart).writeBackground 720 (svgHeight plainChart)
          ++ (svgContext sampleAxis plainChart).writeTitle plainChart.Title
          ++ (svgContext sampleAxis plainChart).writeQuarterHeaders (svgHeight plainChart)
          ++ (((svgContext sampleAxis plainChart).writeCategory plainCategory 80).1 ++ [])
          ++ "</svg>".data, none) := by
  refine ⟨by decide, by rfl, by rfl, by rfl⟩

/-! ### Escaping -/

theorem ReplaceAll_append (a b : GoString) (old : Char) (new : GoString) :
    ReplaceAll (a ++ b) old new = ReplaceAll a old new ++ ReplaceAll b old new := by
  simp [ReplaceAll]

theorem ReplaceAll_cons (c : Char) (t : GoString) (old : Char) (new : GoString) :
    ReplaceAll (c :: t) old new = (if c = old then new else [c]) ++ ReplaceAll t old new := by
  simp [ReplaceAll]

theorem ReplaceAll_singleton (c old : Char) (new : GoString) :
    ReplaceAll [c] old new = if c = old then new else [c] := by
  simp [ReplaceAll]

theorem escapeXML_nil : escapeXML [] = [] := rfl

theorem escapeXML_cons (c : Char) (t : GoString) :
    escapeXML (c :: t) = escapeChar c ++ escapeXML t := by
  unfold escapeXML
  simp only [ReplaceAll_cons c t, ReplaceAll_append]
  congr 1
  unfold escapeChar
  by_cases h1 : c = '&'
  · subst h1
    decide
  · by_cases h2 : c = '<'
    · subst h2
      decide
    · by_cases h3 : c = '>'
      · subst h3
        decide
      · by_cases h4 : c = '"'
        · subst h4
          decide
        · simp only [if_neg h1, if_neg h2, if_neg h3, if_neg h4, ReplaceAll_singleton]

/-- The four replacements of `escapeXML` together escape each character once. -/
theorem escapeXML_eq_flatMap (s : GoString) : escapeXML s = s.flatMap escapeChar := by
  induction s with
  | nil => rfl
  | cons c t ih => rw [escapeXML_cons, ih, List.flatMap_cons]

theorem escapeChar_cases (c : Char) :
    (escapeChar c = [c] ∧ c ≠ '&' ∧ c ≠ '<' ∧ c ≠ '>' ∧ c ≠ '"') ∨ escapeChar c ∈ entities := by
  unfold escapeChar
  by_cases h1 : c = '&'
  · right; rw [if_pos h1]; decide
  · by_cases h2 : c = '<'
    · right; rw [if_neg h1, if_pos h2]; decide
    · by_cases h3 : c = '>'
      · right; rw [if_neg h1, if_neg h2, if_pos h3]; decide
      · by_cases h4 : c = '"'
        · right; rw [if_neg h1, if_neg h2, if_neg h3, if_pos h4]; decide
        · left
          rw [if_neg h1, if_neg h2, if_neg h3, if_neg h4]
          exact ⟨rfl, h1, h2, h3, h4⟩

theorem entities_clean :
    ∀ ent ∈ entities, '<' ∉ ent ∧ '>' ∉ ent ∧ '"' ∉ ent ∧ ent.length ≤ 6 ∧
      ∀ i, i < 6 → ent[i]? = some '&' → i = 0 := by
  decide

theorem escapeXML_not_mem (s : GoString) (ch : Char)
    (hch : ch = '<' ∨ ch = '>' ∨ ch = '"') : ch ∉ escapeXML s := by
  rw [escapeXML_eq_flatMap]
  intro hmem
  obtain ⟨c, _, hc⟩ := List.mem_flatMap.mp hmem
  rcases escapeChar_cases c with ⟨h0, _, h2, h3, h4⟩ | hent
  · rw [h0, List.mem_singleton] at hc
    subst hc
    rcases hch with h | h | h
    · exact h2 h
    · exact h3 h
    · exact h4 h
  · have := entities_clean _ hent
    rcases hch with h | h | h
    · exact this.1 (h ▸ hc)
    · exact this.2.1 (h ▸ hc)
    · exact this.2.2.1 (h ▸ hc)

theorem escapeXML_amp (s : GoString) :
    ∀ i : Nat, (escapeXML s)[i]? = some '&' →
      ∃ ent ∈ entities, List.IsPrefix ent ((escapeXML s).drop i) := by
  induction s with
  | nil => intro i h; simp [escapeXML_nil] at h
  | cons c t ih =>
    intro i h
    rw [escapeXML_cons] at h ⊢
    by_cases hi : i < (escapeChar c).length
    · rw [List.getElem?_append_left hi] at h
      rcases escapeChar_cases c with ⟨h0, h1, _⟩ | hent
      · rw [h0] at h hi
        simp only [List.length_singleton, Nat.lt_one_iff] at hi
        subst hi
        simp only [List.getElem?_cons_zero, Option.some.injEq] at h
        exact absurd h h1
      · have hclean := entities_clean _ hent
        have hi0 : i = 0 := hclean.2.2.2.2 i (by omega) h
        subst hi0
        exact ⟨escapeChar c, hent, by simp⟩
    · have hge : (escapeChar c).length ≤ i := by omega
      rw [List.getElem?_append_right hge] at h
      obtain ⟨ent, hent, hpre⟩ := ih (i - (escapeChar c).length) h
      refine ⟨ent, hent, ?_⟩
      rw [List.drop_append_eq_append_drop, List.drop_eq_nil_of_le hge, List.nil_append]
      exact hpre

/-- C24: for every string `s`, `escapeXML s` contains none of the characters `<`, `>` and `"`,
and every `&` in it begins one of the four entities `&amp;`, `&lt;`, `&gt;`, `&quot;`; each
character of `s` is escaped exactly once (no entity is escaped a second time), and a string
without `&`, `<`, `>`, `"` is returned unchanged. -/
theorem escapeXML_safe (s : GoString) :
    '<' ∉ escapeXML s ∧ '>' ∉ escapeXML s ∧ '"' ∉ escapeXML s ∧
      (∀ i : Nat, (escapeXML s)[i]? = some '&' →
        ∃ ent ∈ entities, List.IsPrefix ent ((escapeXML s).drop i)) ∧
      escapeXML s = s.flatMap escapeChar ∧
      (('&' ∉ s ∧ '<' ∉ s ∧ '>' ∉ s ∧ '"' ∉ s) → escapeXML s = s) := by
  refine ⟨escapeXML_not_mem s _ (Or.inl rfl), escapeXML_not_mem s _ (Or.inr (Or.inl rfl)),
    escapeXML_not_mem s _ (Or.inr (Or.inr rfl)), escapeXML_amp s, escapeXML_eq_flatMap s, ?_⟩
  rintro ⟨h1, h2, h3, h4⟩
  rw [escapeXML_eq_flatMap]
  have hid : ∀ c ∈ s, escapeChar c = [c] := by
    intro c hc
    have n1 : c ≠ '&' := fun h => h1 (h ▸ hc)
    have n2 : c ≠ '<' := fun h => h2 (h ▸ hc)
    have n3 : c ≠ '>' := fun h => h3 (h ▸ hc)
    have n4 : c ≠ '"' := fun h => h4 (h ▸ hc)
    unfold escapeChar
    rw [if_neg n1, if_neg n2, if_neg n3, if_neg n4]
  rw [List.flatMap_congr hid]
  simp

/-- Witness of C24: the title `Roadmap` has no special character and is returned unchanged;
`a<b & "c">` is escaped character by character, the `&` of `&lt;` not being escaped again,
and the `&` at position 1 of the result begins the entity `&lt;`. -/
theorem escapeXML_safe_witness :
    escapeXML "Roadmap".data = "Roadmap".data ∧
      escapeXML "a<b & \"c\">".data = "a&lt;b &amp; &quot;c&quot;&gt;".data ∧
      ∃ ent ∈ entities, List.IsPrefix ent ((escapeXML "a<b & \"c\">".data).drop 1) :=
  ⟨(escapeXML_safe "Roadmap".data).2.2.2.2.2 (by decide), by decide,
    (escapeXML_safe "a<b & \"c\">".data).2.2.2.1 1 (by decide)⟩

/-! ### Bar placement in the three backends -/

theorem svgBarText_ne_nil (x y width height : Int) (fill stroke : GoString) :
    svgBarText x y width height fill stroke ≠ [] := by
  unfold svgBarText
  simp only [List.append_assoc]
  intro h
  exact absurd (List.append_eq_nil.mp h).1 (by decide)

theorem svg_rowHeight_ge (quarters : List quarterInfo) (chart : Chart) (task : Task) :
    40 ≤ (svgContext quarters chart).rowHeight task := by
  unfold svgRenderContext.rowHeight
  split_ifs with h0
  · exact (by decide : (40 : Int) ≤ svgConfig.baseRowHeight)
  · unfold HeightMap.get at h0 ⊢
    cases hv : (svgContext quarters chart).perTaskHeights task.ID with
    | none => rw [hv] at h0; simp at h0
    | some v =>
      have hv2 : (calculateDynamicHeights chart svgConfig).1 task.ID = some v := hv
      unfold calculateDynamicHeights at hv2
      rw [categoryHeightsLoop_fst] at hv2
      have := taskHeightsLoop_bound svgConfig _ HeightMap.empty
        (fun k h hk => by simp [HeightMap.empty] at hk) task.ID v hv2
      simp only [svgConfig] at this
      simpa using this

/-- C21: the three bar routines decide placement alike and from the same indices: on one
axis each of them draws no bar exactly when `findQuarterIndex` is negative for the start or
the end quarter; and for a placed task the Raster and the Markup backend, which share
padding 20, labelWidth 200 and quarterWidth 120, draw the bar at the same
`x = padding + labelWidth + s*quarterWidth + 2` with the same width
`(e-s+1)*quarterWidth - 4`, while the Document bar is computed from the same `s` and `e`. -/
theorem barPlacement_consistent (png : pngRenderContext) (pdf : pdfRenderContext)
    (svg : svgRenderContext) (task : Task) (catColor : GoString) (catRGBA : RGBA)
    (pngY pdfY svgY h : Int)
    (hpng : png.quarters = svg.quarters) (hpdf : pdf.quarters = svg.quarters)
    (hpngc : png.config = pngConfig) (hsvgc : svg.config = svgConfig) :
    (png.drawTaskBar task catRGBA pngY = [] ↔
        (findQuarterIndex svg.quarters task.StartYear task.StartQ < 0 ∨
          findQuarterIndex svg.quarters task.EndYear task.EndQ < 0)) ∧
      (pdf.writeTaskBar task catColor pdfY = none ↔
        (findQuarterIndex svg.quarters task.StartYear task.StartQ < 0 ∨
          findQuarterIndex svg.quarters task.EndYear task.EndQ < 0)) ∧
      (svg.writeTaskBar task catColor svgY h = [] ↔
        (findQuarterIndex svg.quarters task.StartYear task.StartQ < 0 ∨
          findQuarterIndex svg.quarters task.EndYear task.EndQ < 0)) ∧
      (pngConfig.padding = 20 ∧ svgConfig.padding = 20 ∧ pngConfig.labelWidth = 200 ∧
        svgConfig.labelWidth = 200 ∧ pngConfig.quarterWidth = 120 ∧
        svgConfig.quarterWidth = 120) ∧
      (0 ≤ findQuarterIndex svg.quarters task.StartYear task.StartQ →
        0 ≤ findQuarterIndex svg.quarters task.EndYear task.EndQ →
        ∃ x w : Int,
          x = 20 + 200 + findQuarterIndex svg.quarters task.StartYear task.StartQ * 120 + 2 ∧
          w = (findQuarterIndex svg.quarters task.EndYear task.EndQ
            - findQuarterIndex svg.quarters task.StartYear task.StartQ + 1) * 120 - 4 ∧
          (∃ (y bh : Int) (col : RGBA),
            png.drawTaskBar task catRGBA pngY = [pngOp.drawRoundedRect x y w bh 4 col]) ∧
          (∃ (y bh : Int) (fill stroke : GoString),
            svg.writeTaskBar task catColor svgY h = svgBarText x y w bh fill stroke) ∧
          (∃ bar : pdfBar, pdf.writeTaskBar task catColor pdfY = some bar ∧
            bar.x = pdf.config.padding + pdf.config.labelWidth
              + findQuarterIndex svg.quarters task.StartYear task.StartQ
                * pdf.config.quarterWidth + 1 ∧
            bar.width = (findQuarterIndex svg.quarters task.EndYear task.EndQ
              - findQuarterIndex svg.quarters task.StartYear task.StartQ + 1)
                * pdf.config.quarterWidth - 2)) := by
  refine ⟨?_, ?_, ?_, by decide, ?_⟩
  · rw [← hpng]
    constructor
    · intro hnil
      by_contra hc
      rw [drawTaskBar_placed png task catRGBA pngY (by omega) (by omega)] at hnil
      simp at hnil
    · intro hout
      unfold pngRenderContext.drawTaskBar
      simp only [if_pos hout]
  · rw [← hpdf]
    constructor
    · intro hnone
      by_contra hc
      rw [pdf_writeTaskBar_placed pdf task catColor pdfY (by omega) (by omega)] at hnone
      simp at hnone
    · intro hout
      unfold pdfRenderContext.writeTaskBar
      simp only [if_pos hout]
  · constructor
    · intro hnil
      by_contra hc
      rw [writeTaskBar_placed svg task catColor svgY h (by omega) (by omega)] at hnil
      exact svgBarText_ne_nil _ _ _ _ _ _ hnil
    · exact writeTaskBar_unplaced svg task catColor svgY h
  · intro hs he
    refine ⟨_, _, rfl, rfl, ?_, ?_, ?_⟩
    · have hs2 : 0 ≤ findQuarterIndex png.quarters task.StartYear task.StartQ := hpng ▸ hs
      have he2 : 0 ≤ findQuarterIndex png.quarters task.EndYear task.EndQ := hpng ▸ he
      rw [drawTaskBar_placed png task catRGBA pngY hs2 he2, hpng, hpngc]
      exact ⟨_, _, _, rfl⟩
    · rw [writeTaskBar_placed svg task catColor svgY h hs he, hsvgc]
      exact ⟨_, _, _, _, rfl⟩
    · have hs2 : 0 ≤ findQuarterIndex pdf.quarters task.StartYear task.StartQ := hpdf ▸ hs
      have he2 : 0 ≤ findQuarterIndex pdf.quarters task.EndYear task.EndQ := hpdf ▸ he
      refine ⟨_, pdf_writeTaskBar_placed pdf task catColor pdfY hs2 he2, ?_, ?_⟩
      · rw [hpdf]
      · rw [hpdf]

/-- Witness of C21: on the axis 2024Q1..2024Q4 the task 2024Q2..2024Q3 is placed by the
Raster and the Markup backend at the same `x = 342` with the same width 236. -/
theorem barPlacement_consistent_witness :
    ∃ x w : Int, x = 20 + 200 + 1 * 120 + 2 ∧ w = (2 - 1 + 1) * 120 - 4 ∧
      (∃ (y bh : Int) (col : RGBA),
        pngRenderContext.drawTaskBar
          { quarters := sampleAxis, totalQuarters := 4,
            config := pngConfig } shipTask (parseColor "#336699".data) 115
          = [pngOp.drawRoundedRect x y w bh 4 col]) ∧
      (∃ (y bh : Int) (fill stroke : GoString),
        (svgContext sampleAxis sampleChart).writeTaskBar shipTask "#336699".data 115 40
          = svgBarText x y w bh fill stroke) := by
  obtain ⟨x, w, hx, hw, h1, h2, _⟩ :=
    (barPlacement_consistent
      { quarters := sampleAxis, totalQuarters := 4, config := pngConfig }
      { quarters := sampleAxis, config := pdfConfig }
      (svgContext sampleAxis sampleChart) shipTask "#336699".data (parseColor "#336699".data)
      115 28 115 40 rfl rfl rfl rfl).2.2.2.2 (by decide) (by decide)
  exact ⟨x, w, hx.trans (by decide), hw.trans (by decide), h1, h2⟩

/-- C23: on an axis of `n` columns, the Markup bar of a task placed at indices `s ≤ e` has a
strictly positive width and lies inside the timeline area, and more precisely inside the
columns `s..e`; and for a row height `h ≥ 40`, as every row height the Markup backend uses
is, the bar starts at `rowY + 8` with height `h - 16 ≥ 24`, inside its row, the clamp to 12
not being taken. -/
theorem writeTaskBar_inside (ctx : svgRenderContext) (task : Task) (catColor : GoString)
    (rowY h s e : Int) (hcfg : ctx.config = svgConfig)
    (hs : findQuarterIndex ctx.quarters task.StartYear task.StartQ = s)
    (he : findQuarterIndex ctx.quarters task.EndYear task.EndQ = e)
    (hs0 : 0 ≤ s) (hse : s ≤ e) (hh : 40 ≤ h) :
    (∃ x w bh : Int,
        ctx.writeTaskBar task catColor rowY h =
          svgBarText x (rowY + 8) w bh (if task.Color = [] then catColor else task.Color)
            (darken (if task.Color = [] then catColor else task.Color)) ∧
        0 < w ∧
        svgConfig.padding + svgConfig.labelWidth ≤ x ∧
        x + w ≤ svgConfig.padding + svgConfig.labelWidth
          + (ctx.quarters.length : Int) * svgConfig.quarterWidth ∧
        svgConfig.padding + svgConfig.labelWidth + s * svgConfig.quarterWidth ≤ x ∧
        x + w ≤ svgConfig.padding + svgConfig.labelWidth + (e + 1) * svgConfig.quarterWidth ∧
        bh = h - 16 ∧ ¬ (h - 16 < 12) ∧ 24 ≤ bh ∧
        rowY ≤ rowY + 8 ∧ (rowY + 8) + bh ≤ rowY + h) ∧
      (∀ (quarters : List quarterInfo) (chart : Chart) (t : Task),
        40 ≤ (svgContext quarters chart).rowHeight t) := by
  subst hs
  subst he
  have he0 : 0 ≤ findQuarterIndex ctx.quarters task.EndYear task.EndQ := by omega
  have hfound := findQuarterIndex_found ctx.quarters task.EndYear task.EndQ he0
  refine ⟨⟨ctx.config.padding + ctx.config.labelWidth
      + findQuarterIndex ctx.quarters task.StartYear task.StartQ * ctx.config.quarterWidth + 2,
    (findQuarterIndex ctx.quarters task.EndYear task.EndQ
      - findQuarterIndex ctx.quarters task.StartYear task.StartQ + 1)
      * ctx.config.quarterWidth - 4, h - 16, ?_, ?_⟩, svg_rowHeight_ge⟩
  · rw [writeTaskBar_placed ctx task catColor rowY h hs0 he0, if_neg (by omega)]
  · rw [hcfg]
    simp only [svgConfig]
    refine ⟨by omega, by omega, by omega, by omega, by omega, trivial, by omega, by omega,
      by omega, by omega⟩

/-- Witness of C23: on the four columns of the sample chart the bar of the task
2024Q2..2024Q3 in a row of height 40 at `rowY = 115` is `<rect x=342 y=123 width=236
height=24>`: between 220 and 700, inside the columns 1..2 (340 to 580), and inside the row
115..155. -/
theorem writeTaskBar_inside_witness :
    ∃ x w bh : Int,
      (svgContext sampleAxis sampleChart).writeTaskBar shipTask "#336699".data 115 40 =
        svgBarText x (115 + 8) w bh "#336699".data "#336699".data ∧
      0 < w ∧ 220 ≤ x ∧ x + w ≤ 700 ∧ 340 ≤ x ∧ x + w ≤ 580 ∧ bh = 24 := by
  obtain ⟨x, w, bh, h1, h2, h3, h4, h5, h6, h7, _⟩ :=
    (writeTaskBar_inside (svgContext sampleAxis sampleChart) shipTask "#336699".data 115 40 1 2 rfl
      (by decide) (by decide) (by decide) (by decide) (by decide)).1
  exact ⟨x, w, bh, h1, h2, h3, h4, h5, h6, h7⟩

/-! ### The sizing pass and the drawing pass of the Markup backend -/

theorem taskHeightsLoop_some (config : svgLayoutConfig) :
    ∀ (tasks : List Task) (m : HeightMap) (k : GoString) (v : Int), m k = some v →
      ∃ v2 : Int, taskHeightsLoop config tasks m k = some v2 := by
  intro tasks
  induction tasks with
  | nil => intro m k v h; exact ⟨v, h⟩
  | cons t rest ih =>
    intro m k v h
    rw [taskHeightsLoop]
    by_cases hk : k = t.ID
    · exact ih _ k _ (by rw [hk, HeightMap.set_same])
    · exact ih _ k v (by rw [HeightMap.set_other _ _ _ _ hk]; exact h)

theorem taskHeightsLoop_mem (config : svgLayoutConfig) :
    ∀ (tasks : List Task) (m : HeightMap), ∀ t ∈ tasks,
      ∃ v : Int, taskHeightsLoop config tasks m t.ID = some v := by
  intro tasks
  induction tasks with
  | nil => intro m t ht; simp at ht
  | cons x rest ih =>
    intro m t ht
    rw [taskHeightsLoop]
    rcases List.mem_cons.mp ht with h | h
    · subst h
      exact taskHeightsLoop_some config rest _ _ _ (HeightMap.set_same _ _ _)
    · exact ih _ t h

theorem categoryHeightsLoop_snd_some (config : svgLayoutConfig) :
    ∀ (cats : List Category) (pt pc : HeightMap) (k : GoString) (v : Int), pc k = some v →
      ∃ v2 : Int, (categoryHeightsLoop config cats pt pc).2 k = some v2 := by
  intro cats
  induction cats with
  | nil => intro pt pc k v h; exact ⟨v, h⟩
  | cons c rest ih =>
    intro pt pc k v h
    rw [categoryHeightsLoop]
    by_cases hk : k = c.ID
    · exact ih _ _ k _ (by rw [hk, HeightMap.set_same])
    · exact ih _ _ k v (by rw [HeightMap.set_other _ _ _ _ hk]; exact h)

theorem categoryHeightsLoop_snd_mem (config : svgLayoutConfig) :
    ∀ (cats : List Category) (pt pc : HeightMap), ∀ c ∈ cats,
      ∃ v : Int, (categoryHeightsLoop config cats pt pc).2 c.ID = some v := by
  intro cats
  induction cats with
  | nil => intro pt pc c hc; simp at hc
  | cons x rest ih =>
    intro pt pc c hc
    rw [categoryHeightsLoop]
    rcases List.mem_cons.mp hc with h | h
    · subst h
      exact categoryHeightsLoop_snd_some config rest _ _ _ _ (HeightMap.set_same _ _ _)
    · exact ih _ _ c h

/-- Every task of the chart has an entry of at least 40 in the task height map, and the row
height the drawing pass uses is that entry. -/
theorem svgContext_task_entry (quarters : List quarterInfo) (chart : Chart) (t : Task)
    (ht : t ∈ chart.allTasks) :
    ∃ v : Int, (svgContext quarters chart).perTaskHeights t.ID = some v ∧ 40 ≤ v ∧
      (svgContext quarters chart).perTaskHeights.get t.ID ≠ 0 ∧
      (svgContext quarters chart).rowHeight t = v := by
  have hloop : (svgContext quarters chart).perTaskHeights
      = taskHeightsLoop svgConfig chart.allTasks HeightMap.empty := by
    show (calculateDynamicHeights chart svgConfig).1 = _
    unfold calculateDynamicHeights Chart.allTasks
    rw [categoryHeightsLoop_fst]
  obtain ⟨v, hv⟩ := taskHeightsLoop_mem svgConfig chart.allTasks HeightMap.empty t ht
  have hb := taskHeightsLoop_bound svgConfig _ HeightMap.empty
    (fun k h hk => by simp [HeightMap.empty] at hk) t.ID v hv
  simp only [svgConfig] at hb
  rw [← hloop] at hv
  have hget : (svgContext quarters chart).perTaskHeights.get t.ID = v := by
    unfold HeightMap.get
    rw [hv]
    rfl
  refine ⟨v, hv, hb, by rw [hget]; omega, ?_⟩
  unfold svgRenderContext.rowHeight
  rw [hget, if_neg (by omega)]

/-- Every category of the chart has an entry of at least 35 in the category height map, and
the band height the drawing pass uses is that entry. -/
theorem svgContext_category_entry (quarters : List quarterInfo) (chart : Chart) (c : Category)
    (hc : c ∈ chart.Categories) :
    ∃ v : Int, (svgContext quarters chart).perCategoryHeights c.ID = some v ∧ 35 ≤ v ∧
      (svgContext quarters chart).perCategoryHeights.get c.ID ≠ 0 ∧
      (svgContext quarters chart).bandHeight c = v := by
  have hloop : (svgContext quarters chart).perCategoryHeights
      = (categoryHeightsLoop svgConfig chart.Categories HeightMap.empty HeightMap.empty).2 := rfl
  obtain ⟨v, hv⟩ := categoryHeightsLoop_snd_mem svgConfig chart.Categories HeightMap.empty
    HeightMap.empty c hc
  have hb := categoryHeightsLoop_snd_bound chart.Categories HeightMap.empty HeightMap.empty
    (fun k h hk => by simp [HeightMap.empty] at hk) c.ID v hv
  rw [← hloop] at hv
  have hget : (svgContext quarters chart).perCategoryHeights.get c.ID = v := by
    unfold HeightMap.get
    rw [hv]
    rfl
  refine ⟨v, hv, hb, by rw [hget]; omega, ?_⟩
  unfold svgRenderContext.bandHeight
  rw [hget, if_neg (by omega)]

theorem writeTasks_cons (ctx : svgRenderContext) (catColor : GoString) (task : Task)
    (rest : List Task) (currentY : Int) :
    ctx.writeTasks catColor (task :: rest) currentY =
      (svgCellText ctx.config.padding currentY ctx.config.labelWidth (ctx.rowHeight task)
        ++ (ctx.writeTaskText task currentY).1
        ++ ctx.writeTaskBar task catColor currentY (ctx.rowHeight task)
        ++ (ctx.writeTasks catColor rest (currentY + ctx.rowHeight task)).1,
       (ctx.writeTasks catColor rest (currentY + ctx.rowHeight task)).2) := by
  rw [svgRenderContext.writeTasks]
  rfl

theorem writeTasks_snd (ctx : svgRenderContext) (catColor : GoString) :
    ∀ (tasks : List Task) (currentY : Int),
      (ctx.writeTasks catColor tasks currentY).2 =
        currentY + (tasks.map (fun t => ctx.rowHeight t)).sum := by
  intro tasks
  induction tasks with
  | nil => intro y; simp [svgRenderContext.writeTasks]
  | cons t rest ih =>
    intro y
    rw [writeTasks_cons, ih]
    simp only [List.map_cons, List.sum_cons]
    omega

theorem writeTasks_append (ctx : svgRenderContext) (catColor : GoString) :
    ∀ (a b : List Task) (currentY : Int),
      (ctx.writeTasks catColor (a ++ b) currentY).1 =
        (ctx.writeTasks catColor a currentY).1
          ++ (ctx.writeTasks catColor b
            (currentY + (a.map (fun t => ctx.rowHeight t)).sum)).1 := by
  intro a
  induction a with
  | nil => intro b y; simp [svgRenderContext.writeTasks]
  | cons t rest ih =>
    intro b y
    rw [List.cons_append, writeTasks_cons, writeTasks_cons, ih]
    simp only [List.map_cons, List.sum_cons, List.append_assoc]
    have e : y + ctx.rowHeight t + (rest.map (fun t => ctx.rowHeight t)).sum
        = y + (ctx.rowHeight t + (rest.map (fun t => ctx.rowHeight t)).sum) := by omega
    rw [e]

theorem writeCategory_snd (ctx : svgRenderContext) (cat : Category) (currentY : Int) :
    (ctx.writeCategory cat currentY).2 = currentY + ctx.categoryHeight cat := by
  have h : (ctx.writeCategory cat currentY).2
      = (ctx.writeTasks cat.Color cat.Tasks (currentY + ctx.bandHeight cat)).2 := rfl
  rw [h, writeTasks_snd]
  unfold svgRenderContext.categoryHeight
  omega

theorem writeCategoriesLoop_cons (ctx : svgRenderContext) (cat : Category)
    (rest : List Category) (currentY : Int) :
    ctx.writeCategoriesLoop (cat :: rest) currentY =
      ((ctx.writeCategory cat currentY).1
        ++ (ctx.writeCategoriesLoop rest (currentY + ctx.categoryHeight cat)).1,
       (ctx.writeCategoriesLoop rest (currentY + ctx.categoryHeight cat)).2) := by
  rw [svgRenderContext.writeCategoriesLoop]
  simp only [writeCategory_snd]

theorem writeCategoriesLoop_snd (ctx : svgRenderContext) :
    ∀ (cats : List Category) (currentY : Int),
      (ctx.writeCategoriesLoop cats currentY).2 =
        currentY + (cats.map (fun c => ctx.categoryHeight c)).sum := by
  intro cats
  induction cats with
  | nil => intro y; simp [svgRenderContext.writeCategoriesLoop]
  | cons c rest ih =>
    intro y
    rw [writeCategoriesLoop_cons, ih]
    simp only [List.map_cons, List.sum_cons]
    omega

theorem writeCategoriesLoop_append (ctx : svgRenderContext) :
    ∀ (a b : List Category) (currentY : Int),
      (ctx.writeCategoriesLoop (a ++ b) currentY).1 =
        (ctx.writeCategoriesLoop a currentY).1
          ++ (ctx.writeCategoriesLoop b
            (currentY + (a.map (fun c => ctx.categoryHeight c)).sum)).1 := by
  intro a
  induction a with
  | nil => intro b y; simp [svgRenderContext.writeCategoriesLoop]
  | cons c rest ih =>
    intro b y
    rw [List.cons_append, writeCategoriesLoop_cons, writeCategoriesLoop_cons, ih]
    simp only [List.map_cons, List.sum_cons, List.append_assoc]
    have e : y + ctx.categoryHeight c + (rest.map (fun c => ctx.categoryHeight c)).sum
        = y + (ctx.categoryHeight c + (rest.map (fun c => ctx.categoryHeight c)).sum) := by
      omega
    rw [e]

theorem categoryHeight_sum (ctx : svgRenderContext) :
    ∀ (cats : List Category),
      (cats.map (fun c => ctx.categoryHeight c)).sum =
        (cats.map (fun c => ctx.bandHeight c)).sum
          + ((cats.flatMap (fun c => c.Tasks)).map (fun t => ctx.rowHeight t)).sum := by
  intro cats
  induction cats with
  | nil => simp
  | cons c rest ih =>
    simp only [List.map_cons, List.sum_cons, List.flatMap_cons, List.map_append,
      List.sum_append]
    rw [ih]
    unfold svgRenderContext.categoryHeight
    omega

theorem writeCategory_fst (ctx : svgRenderContext) (cat : Category) (currentY : Int) :
    ∃ head : GoString, (ctx.writeCategory cat currentY).1 =
      head ++ (ctx.writeTasks cat.Color cat.Tasks (currentY + ctx.bandHeight cat)).1 := by
  unfold svgRenderContext.writeCategory
  exact ⟨_, rfl⟩

theorem writeCategory_band (ctx : svgRenderContext) (cat : Category) (currentY : Int) :
    ∃ after : GoString, (ctx.writeCategory cat currentY).1 =
      "<rect x=\"".data ++ itoa ctx.config.padding ++ "\" y=\"".data ++ itoa currentY
        ++ "\" width=\"".data ++ itoa ctx.config.labelWidth ++ "\" height=\"".data
        ++ itoa (ctx.bandHeight cat) ++ after := by
  unfold svgRenderContext.writeCategory svgRenderContext.bandHeight
  simp only [List.append_assoc]
  exact ⟨_, rfl⟩

theorem writeCategory_row (ctx : svgRenderContext) (cat : Category) (currentY : Int)
    (tpre tpost : List Task) (task : Task) (htasks : cat.Tasks = tpre ++ task :: tpost) :
    ∃ before after : GoString, (ctx.writeCategory cat currentY).1 =
      before ++ svgCellText ctx.config.padding
          (currentY + ctx.bandHeight cat + (tpre.map (fun t => ctx.rowHeight t)).sum)
          ctx.config.labelWidth (ctx.rowHeight task)
        ++ after := by
  obtain ⟨head, hhead⟩ := writeCategory_fst ctx cat currentY
  rw [hhead, htasks, writeTasks_append, writeTasks_cons]
  refine ⟨head ++ (ctx.writeTasks cat.Color tpre (currentY + ctx.bandHeight cat)).1,
    (ctx.writeTaskText task
        (currentY + ctx.bandHeight cat + (tpre.map (fun t => ctx.rowHeight t)).sum)).1
      ++ ctx.writeTaskBar task cat.Color
        (currentY + ctx.bandHeight cat + (tpre.map (fun t => ctx.rowHeight t)).sum)
        (ctx.rowHeight task)
      ++ (ctx.writeTasks cat.Color tpost
        (currentY + ctx.bandHeight cat + (tpre.map (fun t => ctx.rowHeight t)).sum
          + ctx.rowHeight task)).1, ?_⟩
  simp only [List.append_assoc]

/-- The cursor after the last row is the declared canvas height minus the two paddings. -/
theorem svg_final_cursor (quarters : List quarterInfo) (chart : Chart) :
    ((svgContext quarters chart).writeCategoriesLoop chart.Categories svgConfig.headerHeight).2 =
      svgHeight chart - 2 * svgConfig.padding := by
  rw [writeCategoriesLoop_snd, categoryHeight_sum, svgHeight_eq]
  have hband : (chart.Categories.map (fun c => (svgContext quarters chart).bandHeight c)).sum
      = (chart.Categories.map
        (fun c => ((calculateDynamicHeights chart svgConfig).2 c.ID).getD 0)).sum := by
    congr 1
    apply List.map_congr_left
    intro c hc
    obtain ⟨v, hv, _, _, hbh⟩ := svgContext_category_entry quarters chart c hc
    have hv2 : (calculateDynamicHeights chart svgConfig).2 c.ID = some v := hv
    rw [hbh, hv2]
    rfl
  have hrow : ((chart.Categories.flatMap (fun c => c.Tasks)).map
        (fun t => (svgContext quarters chart).rowHeight t)).sum
      = (chart.allTasks.map
        (fun t => ((calculateDynamicHeights chart svgConfig).1 t.ID).getD 0)).sum := by
    congr 1
    apply List.map_congr_left
    intro t ht
    obtain ⟨v, hv, _, _, hrh⟩ := svgContext_task_entry quarters chart t ht
    have hv2 : (calculateDynamicHeights chart svgConfig).1 t.ID = some v := hv
    rw [hrh, hv2]
    rfl
  rw [hband, hrow]
  simp only [svgConfig]
  omega

/-- C22: the sizing pass and the drawing pass of the Markup backend agree for every chart,
whatever its IDs. Every category and every task of the chart has a non-zero entry in its
height map, so the drawing pass uses that entry and never the fallback; the category after
the categories `pre` is drawn at `headerHeight` plus the heights of all bands and rows of
`pre`, its band first, and the row of the task after the tasks `tpre` of a category drawn at
`y` is placed at `y` plus the band plus the rows of `tpre`; and the cursor after the last row
is the declared canvas height minus `2*padding`. -/
theorem svg_passes_agree (quarters : List quarterInfo) (chart : Chart) :
    (∀ c ∈ chart.Categories, ∃ v : Int,
        (svgContext quarters chart).perCategoryHeights c.ID = some v ∧ 35 ≤ v ∧
        (svgContext quarters chart).perCategoryHeights.get c.ID ≠ 0 ∧
        (svgContext quarters chart).bandHeight c = v) ∧
      (∀ c ∈ chart.Categories, ∀ t ∈ c.Tasks, ∃ v : Int,
        (svgContext quarters chart).perTaskHeights t.ID = some v ∧ 40 ≤ v ∧
        (svgContext quarters chart).perTaskHeights.get t.ID ≠ 0 ∧
        (svgContext quarters chart).rowHeight t = v) ∧
      (∀ (pre post : List Category) (cat : Category), chart.Categories = pre ++ cat :: post →
        (svgContext quarters chart).writeCategoriesAndTasks chart =
          ((svgContext quarters chart).writeCategoriesLoop pre svgConfig.headerHeight).1
            ++ ((svgContext quarters chart).writeCategory cat
              (svgConfig.headerHeight
                + (pre.map (fun c => (svgContext quarters chart).categoryHeight c)).sum)).1
            ++ ((svgContext quarters chart).writeCategoriesLoop post
              (svgConfig.headerHeight
                + (pre.map (fun c => (svgContext quarters chart).categoryHeight c)).sum
                + (svgContext quarters chart).categoryHeight cat)).1) ∧
      (∀ (cat : Category) (y : Int), ∃ after : GoString,
        ((svgContext quarters chart).writeCategory cat y).1 =
          "<rect x=\"".data ++ itoa svgConfig.padding ++ "\" y=\"".data ++ itoa y
            ++ "\" width=\"".data ++ itoa svgConfig.labelWidth ++ "\" height=\"".data
            ++ itoa ((svgContext quarters chart).bandHeight cat) ++ after) ∧
      (∀ (cat : Category) (y : Int) (tpre tpost : List Task) (task : Task),
        cat.Tasks = tpre ++ task :: tpost →
        ∃ before after : GoString, ((svgContext quarters chart).writeCategory cat y).1 =
          before ++ svgCellText svgConfig.padding
              (y + (svgContext quarters chart).bandHeight cat
                + (tpre.map (fun t => (svgContext quarters chart).rowHeight t)).sum)
              svgConfig.labelWidth ((svgContext quarters chart).rowHeight task)
            ++ after) ∧
      ((svgContext quarters chart).writeCategoriesLoop chart.Categories svgConfig.headerHeight).2 =
        svgHeight chart - 2 * svgConfig.padding := by
  refine ⟨svgContext_category_entry quarters chart, ?_, ?_, ?_, ?_,
    svg_final_cursor quarters chart⟩
  · intro c hc t ht
    exact svgContext_task_entry quarters chart t (List.mem_flatMap.mpr ⟨c, hc, ht⟩)
  · intro pre post cat hcats
    have h : (svgContext quarters chart).writeCategoriesAndTasks chart
        = ((svgContext quarters chart).writeCategoriesLoop chart.Categories svgConfig.headerHeight).1 :=
      rfl
    rw [h, hcats, writeCategoriesLoop_append, writeCategoriesLoop_cons]
    simp only [List.append_assoc]
  · intro cat y
    exact writeCategory_band (svgContext quarters chart) cat y
  · intro cat y tpre tpost task htasks
    exact writeCategory_row (svgContext quarters chart) cat y tpre tpost task htasks

/-- Witness of C22: in the sample chart the band of `cat1` is 35 high and the rows of `t1`
and `t2` are 40 and 58 high, so the row of `t2` is placed at `80 + 35 + 40 = 155` and the
cursor ends at `80 + 35 + 40 + 58 = 213`, the canvas height 253 minus 40. -/
theorem svg_passes_agree_witness :
    ((svgContext sampleAxis sampleChart).writeCategoriesLoop sampleChart.Categories
        svgConfig.headerHeight).2 = 213 ∧
      svgHeight sampleChart - 2 * svgConfig.padding = 213 ∧
      ∃ before after : GoString,
        ((svgContext sampleAxis sampleChart).writeCategory (sampleChart.Categories.head (by decide)) 80).1 =
          before ++ svgCellText 20 155 200 58 ++ after := by
  refine ⟨(svg_passes_agree sampleAxis sampleChart).2.2.2.2.2.trans (by decide), by decide, ?_⟩
  obtain ⟨before, after, h⟩ := (svg_passes_agree sampleAxis sampleChart).2.2.2.2.1
    (sampleChart.Categories.head (by decide)) 80 [shipTask] []
    { ID := "t2".data, Title := "Migrate the storage layer".data,
      Description :=
        "Move every tenant to the new cluster and retire the old one for good, at last".data,
      StartYear := 2024, StartQ := 1, EndYear := 2024, EndQ := 4, Color := [] }
    (by decide)
  refine ⟨before, after, h.trans ?_⟩
  have e : svgCellText svgConfig.padding
      (80 + (svgContext sampleAxis sampleChart).bandHeight (sampleChart.Categories.head (by decide))
        + (([shipTask] : List Task).map (fun t => (svgContext sampleAxis sampleChart).rowHeight t)).sum)
      svgConfig.labelWidth
      ((svgContext sampleAxis sampleChart).rowHeight
        { ID := "t2".data, Title := "Migrate the storage layer".data,
          Description :=
            "Move every tenant to the new cluster and retire the old one for good, at last".data,
          StartYear := 2024, StartQ := 1, EndYear := 2024, EndQ := 4, Color := [] })
      = svgCellText 20 155 200 58 := by
    rfl
  rw [e]

end Ghantt
